import Mathlib

/-!
# Chat service: sessions, conversations, message log and realtime events

A shallow embedding of the service layer (`src/services/*.js`), the table
definitions (`src/models/*.js`) and the socket handlers
(`src/socket/socketHandler.js`).

Conventions of the embedding

* A table is the list of its rows, oldest insert first, together with the
  next value of its auto-increment primary key.
* Ids are auto-increment primary keys and instants are milliseconds since the
  epoch; both are natural numbers.
* An `async` function that reads and writes tables becomes a function from the
  store (and the current instant) to the new store and an outcome; a thrown
  `Error` is `Except.error` carrying the message.
-/

namespace ChatService

/-! ## Data model -/

/-- Modelled from the spec: the `User` model is not among the sources. A user
has an immutable id, an email, a role and a name; the stored password is a
hash. -/
structure User where
  id : Nat
  email : String
  password : String
  name : String
  role : String
  deriving DecidableEq, Repr

/-- Row of `conversations` (`src/models/Conversation.js`). -/
structure Conversation where
  id : Nat
  userAId : Nat
  userBId : Nat
  createdAt : Nat
  updatedAt : Nat
  deriving DecidableEq, Repr

/-- Modelled from the spec: the `Message` model is not among the sources. The
columns are those of the spec's data model, which the handlers also read. -/
structure Message where
  id : Nat
  conversationId : Nat
  senderId : Nat
  content : String
  isSeen : Bool
  createdAt : Nat
  updatedAt : Nat
  deriving DecidableEq, Repr

/-- The attributes `[ 'id', 'email', 'name' ]` selected for an included user. -/
structure UserSummary where
  id : Nat
  email : String
  name : String
  deriving DecidableEq, Repr

/-- Modelled from the spec: `utils/jwt.js` is not among the sources. The value
of a refresh token as a client presents it is either a credential signed by
this service or any other string. The spec makes the signed value opaque and
unique: every issuance yields a value that was not issued before, also for the
same user at the same instant. A signed value therefore carries, next to the
user and the instant of signing, the serial number of its issuance. -/
inductive TokenValue where
  | signed (userId : Nat) (issuedAt : Nat) (serial : Nat)
  | raw (text : String)
  deriving DecidableEq, Repr

/-- Row of `refresh_tokens` (`src/models/RefreshToken.js`). -/
structure RefreshToken where
  id : Nat
  userId : Nat
  token : TokenValue
  expiresAt : Nat
  createdAt : Nat
  deriving DecidableEq, Repr

/-- The database: four tables and their auto-increment counters. -/
structure Store where
  users : List User
  conversations : List Conversation
  messages : List Message
  refreshTokens : List RefreshToken
  nextUserId : Nat
  nextConversationId : Nat
  nextMessageId : Nat
  nextRefreshTokenId : Nat
  deriving DecidableEq, Repr

/-- Freshly migrated database: empty tables, every sequence at 1. -/
def Store.empty : Store :=
  { users := [], conversations := [], messages := [], refreshTokens := [],
    nextUserId := 1, nextConversationId := 1, nextMessageId := 1,
    nextRefreshTokenId := 1 }

/-- Embeds `User.findByPk(id)`. -/
def findUserByPk (s : Store) (id : Nat) : Option User :=
  s.users.find? (fun u => u.id == id)

/-- An `include` of a user association restricted to id, email and name. -/
def includeUser (s : Store) (id : Nat) : Option UserSummary :=
  (findUserByPk s id).map (fun u => { id := u.id, email := u.email, name := u.name })

/-! ## conversationService: access checks -/

/-- The `where` clause shared by `getConversationById` and
`verifyConversationAccess`: `id = conversationId AND (userAId = userId OR
userBId = userId)`. -/
def accessClause (conversationId userId : Nat) (c : Conversation) : Bool :=
  c.id == conversationId && (c.userAId == userId || c.userBId == userId)

/-- A conversation with its `userA` and `userB` includes. -/
structure ConversationWithUsers where
  conversation : Conversation
  userA : Option UserSummary
  userB : Option UserSummary
  deriving DecidableEq, Repr

/-- Attach the `userA` and `userB` includes to a conversation row. -/
def withUsers (s : Store) (c : Conversation) : ConversationWithUsers :=
  { conversation := c, userA := includeUser s c.userAId, userB := includeUser s c.userBId }

/-- Embeds `conversationService.getConversationById`. -/
def getConversationById (s : Store) (conversationId userId : Nat) :
    Except String ConversationWithUsers :=
  match s.conversations.find? (accessClause conversationId userId) with
  | none => .error "Conversation not found"
  | some c => .ok (withUsers s c)

/-- Embeds `conversationService.verifyConversationAccess`. -/
def verifyConversationAccess (s : Store) (conversationId userId : Nat) :
    Except String Conversation :=
  match s.conversations.find? (accessClause conversationId userId) with
  | none => .error "Conversation not found or access denied"
  | some c => .ok c

/-! ## Payload values of the socket events -/

/-- A `messageId` or `conversationId` as the `message:seen` handler finds it in
the payload and passes on unchecked: a JSON number or an array of JSON
numbers. Other JSON values (strings, booleans, objects), whose comparison with
an integer column depends on the SQL dialect, are not represented. -/
inductive PayloadId where
  | number (n : Nat)
  | list (items : List Nat)
  deriving DecidableEq, Repr

/-- What Sequelize makes of `where: { column: value }`: `column = n` for a
number and `column IN (...)` for an array. -/
def PayloadId.selects : PayloadId → Nat → Bool
  | .number n, column => column == n
  | .list items, column => items.contains column

/-- The text of the value in a template literal: a number in decimal digits,
an array as its elements joined by commas. -/
def PayloadId.shown : PayloadId → String
  | .number n => toString n
  | .list items => ",".intercalate (items.map (fun n => toString n))

/-- The name of the room addressed with the value: the template literal
that starts with `conversation:` and ends with the value. -/
def roomName (conversationId : PayloadId) : String :=
  "conversation:" ++ conversationId.shown

/-- The `where` clause of `verifyConversationAccess` for a `conversationId`
taken from a payload as it is: `id = conversationId` becomes `id IN (...)` for
an array. -/
def accessClauseOf (conversationId : PayloadId) (userId : Nat) (c : Conversation) : Bool :=
  conversationId.selects c.id && (c.userAId == userId || c.userBId == userId)

/-- Embeds `conversationService.verifyConversationAccess` as the `message:seen`
handler calls it, with the `conversationId` of the payload as received. For a
number it is `verifyConversationAccess`. -/
def verifyConversationAccessOf (s : Store) (conversationId : PayloadId) (userId : Nat) :
    Except String Conversation :=
  match s.conversations.find? (accessClauseOf conversationId userId) with
  | none => .error "Conversation not found or access denied"
  | some c => .ok c

/-! ## messageService.getConversationMessages -/

/-- The `cursor` option as `getConversationMessages` sees it. The function
applies two JavaScript operations to the value it is given, the test
`if (cursor)` and `parseInt(cursor)`, so a cursor is given by what these two
answer: `truthy` is the outcome of the test, and `parseInt` is the Number that
`parseInt` returns, which is integral, or `none` when it returns `NaN` or an
infinity. -/
structure Cursor where
  truthy : Bool
  parseInt : Option Int
  deriving DecidableEq, Repr

/-- No cursor: `undefined` or `null`, for which `parseInt` answers `NaN`. -/
def Cursor.absent : Cursor :=
  { truthy := false, parseInt := none }

/-- The id of a message handed back as cursor, the way a client uses the
`nextCursor` of a page: the number is truthy unless it is 0, and the id, an
INTEGER column value that `String` writes in decimal digits, is what
`parseInt` reads from it. -/
def Cursor.ofId (id : Nat) : Cursor :=
  { truthy := id != 0, parseInt := some id }

/-- The code points that `parseInt` skips at the start of its input
(`StrWhiteSpaceChar`: tab, line feed, vertical tab, form feed, carriage
return, space, no-break space, the other space separators, the line and
paragraph separators and the byte order mark). -/
def isStrWhiteSpace (c : Nat) : Bool :=
  c == 9 || c == 10 || c == 11 || c == 12 || c == 13 || c == 32 || c == 160 || c == 5760 ||
    (decide (8192 ≤ c) && decide (c ≤ 8202)) || c == 8232 || c == 8233 || c == 8239 ||
    c == 8287 || c == 12288 || c == 65279

/-- The value of a code point as a digit of the given radix: `0`-`9`, then
`a`-`z` or `A`-`Z` for ten and above. -/
def digitOf (radix c : Nat) : Option Nat :=
  let value : Option Nat :=
    if 48 ≤ c ∧ c ≤ 57 then some (c - 48)
    else if 97 ≤ c ∧ c ≤ 122 then some (c - 87)
    else if 65 ≤ c ∧ c ≤ 90 then some (c - 55)
    else none
  match value with
  | some d => if d < radix then some d else none
  | none => none

/-- The digits of the longest prefix that consists of digits of the radix. -/
def leadingDigits (radix : Nat) : List Nat → List Nat
  | [] => []
  | c :: rest =>
    match digitOf radix c with
    | some d => d :: leadingDigits radix rest
    | none => []

/-- The Number nearest to a natural number (round to nearest, ties to even, 53
significant bits), `none` when that is `Infinity`. Below `2 ^ 53` it is the
number itself. -/
def nearestNumber (n : Nat) : Option Nat :=
  if n < 2 ^ 53 then some n
  else
    let shift := Nat.log2 n - 52
    let kept := n / 2 ^ shift
    let rest := n % 2 ^ shift
    let half := 2 ^ (shift - 1)
    let rounded := if half < rest ∨ (rest = half ∧ kept % 2 = 1) then kept + 1 else kept
    if rounded * 2 ^ shift < 2 ^ 1024 then some (rounded * 2 ^ shift) else none

/-- The JavaScript function `parseInt(string)` without a radix: leading white
space is skipped, a sign is read, `0x` or `0X` selects radix 16 and anything
else radix 10, and the longest prefix of digits is the value; with no digit
the answer is `NaN`, here `none`. -/
def parseInt (text : String) : Option Int :=
  let input := (text.toList.map (fun c => c.toNat)).dropWhile isStrWhiteSpace
  let negative := input.head? == some 45
  let unsigned := if input.head? == some 45 || input.head? == some 43 then input.tail else input
  let hex := (unsigned.take 2 == [48, 120]) || (unsigned.take 2 == [48, 88])
  let radix := if hex then 16 else 10
  let digits := leadingDigits radix (if hex then unsigned.drop 2 else unsigned)
  if digits.isEmpty then none
  else
    match nearestNumber (digits.foldl (fun value d => value * radix + d) 0) with
    | none => none
    | some n => some (if negative then -(n : Int) else (n : Int))

/-- A string given as cursor, such as the value of `?cursor=` in the query
string: a string is truthy unless it is empty. -/
def Cursor.ofText (text : String) : Cursor :=
  { truthy := text != "", parseInt := ChatService.parseInt text }

/-- A number given as cursor, written the way `String` writes it (`"12"`,
`"-3"`, `"1.5"`, `"1e+21"`, `"NaN"`), which is the text `parseInt` reads: a
number is truthy unless it is `0`, `-0` (both written `"0"`) or `NaN`. -/
def Cursor.ofNumber (shown : String) : Cursor :=
  { truthy := shown != "0" && shown != "NaN", parseInt := ChatService.parseInt shown }

/-- The `where` clause built by `getConversationMessages`: the conversation,
and for a truthy cursor `id < parseInt(cursor)`. -/
def messageClause (conversationId : Nat) (cursor : Cursor) (m : Message) : Bool :=
  m.conversationId == conversationId &&
    (if cursor.truthy then
      match cursor.parseInt with
      | some bound => decide ((m.id : Int) < bound)
      | none => false
    else true)

/-- Rows in `ORDER BY id DESC`. -/
def orderByIdDesc (rows : List Message) : List Message :=
  rows.insertionSort (fun a b => b.id ≤ a.id)

/-- A message with its `sender` include. -/
structure MessageWithSender where
  message : Message
  sender : Option UserSummary
  deriving DecidableEq, Repr

/-- Attach the `sender` include to a message row. -/
def withSender (s : Store) (m : Message) : MessageWithSender :=
  { message := m, sender := includeUser s m.senderId }

/-- The `pagination` object of a page. -/
structure Pagination where
  hasMore : Bool
  nextCursor : Option Nat
  limit : Int
  deriving DecidableEq, Repr

/-- Result of `getConversationMessages`. -/
structure MessagePage where
  messages : List MessageWithSender
  pagination : Pagination
  deriving DecidableEq, Repr

/-- Embeds `Message.findAll({ where, order: [['id','DESC']], limit })`. When
`parseInt(cursor)` is `NaN` (or an infinity) Sequelize writes the bare word
into the query, `id < NaN`, and the database rejects the query; the text of
its message is not modelled. The database also rejects a negative `LIMIT`. -/
def findAllMessages (s : Store) (conversationId : Nat) (cursor : Cursor) (limit : Int) :
    Except String (List Message) :=
  if cursor.truthy && cursor.parseInt.isNone then .error "SequelizeDatabaseError"
  else if limit < 0 then .error "LIMIT must not be negative"
  else .ok ((orderByIdDesc (s.messages.filter (messageClause conversationId cursor))).take
    limit.toNat)

/-- Embeds `messageService.getConversationMessages(conversationId, userId, { limit, cursor })`
with `limit` already parsed (`none` is the default 20; a limit for which
`parseInt` answers `NaN` is not represented). Reading `.id` of a missing last
element throws a `TypeError`. -/
def getConversationMessages (s : Store) (conversationId userId : Nat)
    (limit : Option Int) (cursor : Cursor) : Except String MessagePage := do
  let limit := limit.getD 20
  let _ ← verifyConversationAccess s conversationId userId
  let messages ← findAllMessages s conversationId cursor (limit + 1)
  let hasMore := decide ((messages.length : Int) > limit)
  let result := if hasMore then messages.dropLast else messages
  let nextCursor ←
    if hasMore then
      match result.getLast? with
      | some m => pure (some m.id)
      | none => throw "Cannot read properties of undefined (reading 'id')"
    else pure none
  pure { messages := result.reverse.map (withSender s),
         pagination := { hasMore := hasMore, nextCursor := nextCursor, limit := limit } }

/-! ## messageService.createMessage -/

/-- Embeds `Message.create({ conversationId, senderId, content })`: the row takes the
next id and both timestamps are the current instant; `isSeen`, which the call
does not set, starts as false (a new message is unread). -/
def messageCreate (now : Nat) (s : Store) (conversationId senderId : Nat) (content : String) :
    Store × Message :=
  let message : Message :=
    { id := s.nextMessageId, conversationId := conversationId, senderId := senderId,
      content := content, isSeen := false, createdAt := now, updatedAt := now }
  ({ s with messages := s.messages ++ [message], nextMessageId := s.nextMessageId + 1 }, message)

/-- Embeds `Conversation.update({ updatedAt: new Date() }, { where: { id } })`, the
static `Model.update` of Sequelize 6. Sequelize sets `updatedAt` among the
values itself, and when `updatedAt` is the only value, as it is here, it
issues no query and answers `[0]` ("only updatedAt is being passed, then skip
update"): no row is written and the conversation keeps its `updatedAt`. -/
def touchConversation (_now : Nat) (s : Store) (_conversationId : Nat) : Store :=
  s

/-- Embeds `Message.findByPk(id, { include: sender })`. -/
def findMessageByPk (s : Store) (id : Nat) : Option MessageWithSender :=
  (s.messages.find? (fun m => m.id == id)).map (withSender s)

/-- Embeds `messageService.createMessage(conversationId, senderId, content)`: the
store after the call and what the call returned or threw. -/
def createMessage (now : Nat) (s : Store) (conversationId senderId : Nat) (content : String) :
    Store × Except String (Option MessageWithSender) :=
  match verifyConversationAccess s conversationId senderId with
  | .error e => (s, .error e)
  | .ok _ =>
    let (s1, message) := messageCreate now s conversationId senderId content
    let s2 := touchConversation now s1 conversationId
    (s2, .ok (findMessageByPk s2 message.id))

/-! ## conversationService.createConversation and getConversations -/

/-- The `Op.or` clause of `createConversation`: the pair in either order. -/
def pairClause (userAId userBId : Nat) (c : Conversation) : Bool :=
  (c.userAId == userAId && c.userBId == userBId) ||
    (c.userAId == userBId && c.userBId == userAId)

/-- Embeds `Conversation.create({ userAId, userBId })` under the constraints declared
in `src/models/Conversation.js`: both ids reference `users.id`, and the unique
index `unique_conversation_pair` is on the columns `(userAId, userBId)`. -/
def conversationCreate (now : Nat) (s : Store) (userAId userBId : Nat) :
    Except String (Store × Conversation) :=
  if (findUserByPk s userAId).isNone || (findUserByPk s userBId).isNone then
    .error "foreign key constraint violated"
  else if s.conversations.any (fun c => c.userAId == userAId && c.userBId == userBId) then
    .error "unique_conversation_pair must be unique"
  else
    let conversation : Conversation :=
      { id := s.nextConversationId, userAId := userAId, userBId := userBId,
        createdAt := now, updatedAt := now }
    .ok ({ s with conversations := s.conversations ++ [conversation],
                  nextConversationId := s.nextConversationId + 1 }, conversation)

/-- Embeds `Conversation.findByPk(id, { include: [userA, userB] })`. -/
def findConversationByPk (s : Store) (id : Nat) : Option ConversationWithUsers :=
  (s.conversations.find? (fun c => c.id == id)).map (withUsers s)

/-- What `createConversation` returns. -/
structure CreateConversationResult where
  isNew : Bool
  conversation : Option ConversationWithUsers
  deriving DecidableEq, Repr

/-- Embeds `conversationService.createConversation(userAId, userBId)`. -/
def createConversation (now : Nat) (s : Store) (userAId userBId : Nat) :
    Store × Except String CreateConversationResult :=
  match findUserByPk s userBId with
  | none => (s, .error "User not found")
  | some _ =>
    if userAId = userBId then (s, .error "Cannot create conversation with yourself")
    else
      match s.conversations.find? (pairClause userAId userBId) with
      | some existing => (s, .ok { isNew := false, conversation := some (withUsers s existing) })
      | none =>
        match conversationCreate now s userAId userBId with
        | .error e => (s, .error e)
        | .ok (s1, conversation) =>
          (s1, .ok { isNew := true, conversation := findConversationByPk s1 conversation.id })

/-- The attributes of the last message shown in the chat list. -/
structure LastMessage where
  id : Nat
  content : String
  senderId : Nat
  isSeen : Bool
  createdAt : Nat
  deriving DecidableEq, Repr

/-- One element of the list returned by `getConversations`. -/
structure ConversationEntry where
  id : Nat
  otherUser : UserSummary
  lastMessage : Option LastMessage
  unreadCount : Nat
  updatedAt : Nat
  createdAt : Nat
  deriving DecidableEq, Repr

/-- The `Message.count` of `getConversations`: `conversationId = id AND
senderId <> userId AND isSeen = false`. -/
def unreadClause (conversationId userId : Nat) (m : Message) : Bool :=
  m.conversationId == conversationId && m.senderId != userId && m.isSeen == false

/-- The body of the `conversations.map(async (conversation) => ...)` callback.
Reading `otherUser.id` of a missing include throws a `TypeError`. -/
def enhanceConversation (s : Store) (userId : Nat) (conversation : Conversation) :
    Except String ConversationEntry :=
  let lastMessage :=
    ((s.messages.filter (fun m => m.conversationId == conversation.id)).insertionSort
      (fun a b => b.createdAt ≤ a.createdAt)).head?
  let unreadCount := (s.messages.filter (unreadClause conversation.id userId)).length
  let otherUser :=
    if conversation.userAId = userId then includeUser s conversation.userBId
    else includeUser s conversation.userAId
  match otherUser with
  | none => .error "Cannot read properties of null (reading 'id')"
  | some other =>
    .ok { id := conversation.id, otherUser := other,
          lastMessage := lastMessage.map (fun m =>
            { id := m.id, content := m.content, senderId := m.senderId, isSeen := m.isSeen,
              createdAt := m.createdAt }),
          unreadCount := unreadCount, updatedAt := conversation.updatedAt,
          createdAt := conversation.createdAt }

/-- Embeds `Promise.all(xs.map(f))`: all results in order, or the first rejection. -/
def promiseAll {α β : Type} (f : α → Except String β) : List α → Except String (List β)
  | [] => .ok []
  | x :: xs =>
    match f x with
    | .error e => .error e
    | .ok y =>
      match promiseAll f xs with
      | .error e => .error e
      | .ok ys => .ok (y :: ys)

/-- Embeds `conversationService.getConversations(userId)`. -/
def getConversations (s : Store) (userId : Nat) : Except String (List ConversationEntry) :=
  let conversations :=
    (s.conversations.filter (fun c => c.userAId == userId || c.userBId == userId)).insertionSort
      (fun a b => b.updatedAt ≤ a.updatedAt)
  promiseAll (enhanceConversation s userId) conversations

/-! ## authService -/

/-- Claims carried by an access token. -/
structure AccessToken where
  userId : Nat
  email : String
  role : String
  issuedAt : Nat
  deriving DecidableEq, Repr

/-- The pair returned by `generateTokens`. -/
structure TokenPair where
  accessToken : AccessToken
  refreshToken : TokenValue
  deriving DecidableEq, Repr

/-- The `user` object returned by `register` and `login`. -/
structure UserProfile where
  id : Nat
  email : String
  name : String
  role : String
  deriving DecidableEq, Repr

/-- What `register` and `login` return. -/
structure AuthResult where
  user : UserProfile
  tokens : TokenPair
  deriving DecidableEq, Repr

/-- The fields of a user row copied into the response. -/
def User.profile (u : User) : UserProfile :=
  { id := u.id, email := u.email, name := u.name, role := u.role }

/-- Modelled from the spec: `utils/jwt.js` is not among the sources. An access
token is a signed, self-contained credential over the user id, email and role
and its issue instant. -/
def generateAccessToken (now userId : Nat) (email role : String) : AccessToken :=
  { userId := userId, email := email, role := role, issuedAt := now }

/-- Modelled from the spec: `generateRefreshToken` of `utils/jwt.js` is not
among the sources. The refresh token is a credential signed for the user at
the current instant; `serial` numbers the issuance, which makes the value
differ from every value issued before. -/
def generateRefreshToken (now serial userId : Nat) : TokenValue :=
  .signed userId now serial

/-- Seven days in milliseconds. -/
def sevenDays : Nat := 7 * 24 * 60 * 60 * 1000

/-- Modelled from the spec: `verifyRefreshToken` of `utils/jwt.js` is not among
the sources. It checks the cryptographic validity of the presented token and
that it has not expired, and yields the claimed user id. -/
def verifyRefreshToken (now : Nat) : TokenValue → Except String Nat
  | .signed userId issuedAt _ =>
    if now < issuedAt + sevenDays then .ok userId
    else .error "Invalid or expired refresh token"
  | .raw _ => .error "Invalid or expired refresh token"

/-- Modelled from the spec: the `User` model is not among the sources; its
hook stores a hash of the password. -/
def hashPassword (password : String) : String :=
  "$2a$10$" ++ password

/-- Modelled from the spec: `user.comparePassword(password)` of the `User`
model, which is not among the sources. -/
def comparePassword (user : User) (password : String) : Bool :=
  user.password == hashPassword password

/-- Embeds `RefreshToken.create({ userId, token, expiresAt })` under the constraints
declared in `src/models/RefreshToken.js`: `userId` references `users.id` and
`token` is unique. -/
def refreshTokenCreate (now : Nat) (s : Store) (userId : Nat) (token : TokenValue)
    (expiresAt : Nat) : Except String Store :=
  if (findUserByPk s userId).isNone then .error "foreign key constraint violated"
  else if s.refreshTokens.any (fun r => r.token == token) then .error "token must be unique"
  else
    .ok { s with
      refreshTokens := s.refreshTokens ++
        [{ id := s.nextRefreshTokenId, userId := userId, token := token,
           expiresAt := expiresAt, createdAt := now }],
      nextRefreshTokenId := s.nextRefreshTokenId + 1 }

/-- Embeds `authService.generateTokens(user)`; `setDate(getDate() + 7)` is taken in a
zone without clock changes. The serial number of the refresh token is the
next value of the `refresh_tokens` sequence, which advances with every token
recorded. -/
def generateTokens (now : Nat) (s : Store) (user : User) : Store × Except String TokenPair :=
  let accessToken := generateAccessToken now user.id user.email user.role
  let refreshToken := generateRefreshToken now s.nextRefreshTokenId user.id
  let expiresAt := now + sevenDays
  match refreshTokenCreate now s user.id refreshToken expiresAt with
  | .error e => (s, .error e)
  | .ok s1 => (s1, .ok { accessToken := accessToken, refreshToken := refreshToken })

/-- Embeds `authService.cleanupExpiredTokens(userId)`. -/
def cleanupExpiredTokens (now : Nat) (s : Store) (userId : Nat) : Store :=
  { s with refreshTokens :=
      s.refreshTokens.filter (fun r => !(r.userId == userId && decide (r.expiresAt < now))) }

/-- Embeds `authService.register(email, password, name, role)`. -/
def register (now : Nat) (s : Store) (email password name role : String) :
    Store × Except String AuthResult :=
  match s.users.find? (fun u => u.email == email) with
  | some _ => (s, .error "Email already registered")
  | none =>
    let user : User :=
      { id := s.nextUserId, email := email, password := hashPassword password, name := name,
        role := role }
    let s1 := { s with users := s.users ++ [user], nextUserId := s.nextUserId + 1 }
    match generateTokens now s1 user with
    | (s2, .error e) => (s2, .error e)
    | (s2, .ok tokens) => (s2, .ok { user := user.profile, tokens := tokens })

/-- Embeds `authService.login(email, password)`. -/
def login (now : Nat) (s : Store) (email password : String) :
    Store × Except String AuthResult :=
  match s.users.find? (fun u => u.email == email) with
  | none => (s, .error "Invalid credentials")
  | some user =>
    if !comparePassword user password then (s, .error "Invalid credentials")
    else
      let s1 := cleanupExpiredTokens now s user.id
      match generateTokens now s1 user with
      | (s2, .error e) => (s2, .error e)
      | (s2, .ok tokens) => (s2, .ok { user := user.profile, tokens := tokens })

/-- Embeds `authService.refreshToken(refreshToken)`. -/
def refreshToken (now : Nat) (s : Store) (presented : TokenValue) :
    Store × Except String TokenPair :=
  match verifyRefreshToken now presented with
  | .error e => (s, .error e)
  | .ok decodedUserId =>
    match s.refreshTokens.find? (fun r =>
        r.token == presented && r.userId == decodedUserId && decide (r.expiresAt > now)) with
    | none => (s, .error "Invalid or expired refresh token")
    | some refreshTokenRecord =>
      match findUserByPk s refreshTokenRecord.userId with
      | none => (s, .error "User not found")
      | some user =>
        let s1 := { s with refreshTokens :=
          s.refreshTokens.filter (fun r => !(r.id == refreshTokenRecord.id)) }
        generateTokens now s1 user

/-- Embeds `authService.logout(refreshToken)`. -/
def logout (s : Store) (presented : TokenValue) : Store :=
  { s with refreshTokens := s.refreshTokens.filter (fun r => !(r.token == presented)) }

/-! ## Socket handlers -/

/-- Payload of an emitted event. -/
inductive Payload where
  | error (message : String)
  | joined (conversationId : Nat)
  | left (conversationId : Nat)
  | messageNew (message : MessageWithSender)
  | messageSeen (messageId conversationId : PayloadId) (seenBy seenAt : Nat)
  | typing (userId conversationId : Nat)
  deriving DecidableEq, Repr

/-- One emitted event and where it goes: `socket.emit` reaches the handling
connection only, `io.to(room).emit` every member of the room
`conversation:<id>`, `socket.to(room).emit` every member but the sender. The
room is given by the value written into its name. -/
inductive Emission where
  | toSocket (event : String) (payload : Payload)
  | toRoom (conversationId : PayloadId) (event : String) (payload : Payload)
  | toRoomExceptSender (conversationId : PayloadId) (event : String) (payload : Payload)
  deriving DecidableEq, Repr

/-- Negation `!x` for an optional numeric field: missing and `0` are falsy. -/
def falsyNat : Option Nat → Bool
  | none => true
  | some n => n == 0

/-- Negation `!x` for an optional payload value: missing and the number `0`
are falsy, every array is truthy. -/
def falsyId : Option PayloadId → Bool
  | none => true
  | some (.number n) => n == 0
  | some (.list _) => false

/-- Negation `!x` for an optional text field: missing and the empty string are falsy. -/
def falsyString : Option String → Bool
  | none => true
  | some t => t == ""

/-- Value of `error.message || fallback`. -/
def messageOr (message fallback : String) : String :=
  if message == "" then fallback else message

/-- Payload object of `message:new`. -/
structure NewMessageData where
  conversationId : Option Nat
  content : Option String
  deriving DecidableEq, Repr

/-- Payload object of `message:seen`; the handler checks the two fields for
truthiness only. -/
structure SeenData where
  messageId : Option PayloadId
  conversationId : Option PayloadId
  deriving DecidableEq, Repr

/-- The handler of `message:new` for the connection of `userId`; `data` is
`none` when the client sent no payload, and destructuring it throws inside the
`try`. -/
def onMessageNew (now : Nat) (s : Store) (userId : Nat) (data : Option NewMessageData) :
    Store × List Emission :=
  match data with
  | none =>
    (s, [.toSocket "error" (.error
      "Cannot destructure property 'conversationId' of 'data' as it is undefined.")])
  | some d =>
    if falsyNat d.conversationId || falsyString d.content then
      (s, [.toSocket "error" (.error "conversationId and content are required")])
    else
      let conversationId := d.conversationId.getD 0
      match createMessage now s conversationId userId (d.content.getD "") with
      | (s1, .error e) => (s1, [.toSocket "error" (.error (messageOr e "Failed to send message"))])
      | (s1, .ok none) =>
        (s1, [.toSocket "error" (.error "Cannot read properties of null (reading 'id')")])
      | (s1, .ok (some message)) =>
        (s1, [.toRoom (.number conversationId) "message:new" (.messageNew message)])

/-- The instance call `message.update({ isSeen: true })`: the row with the
primary key of `message` is written, with a new `updatedAt`, when the value
differs from the loaded one; an unchanged instance issues no query. -/
def messageUpdateSeen (now : Nat) (s : Store) (message : Message) : Store :=
  if message.isSeen then s
  else { s with messages := s.messages.map (fun m =>
    if m.id == message.id then { m with isSeen := true, updatedAt := now } else m) }

/-- The handler of `message:seen` for the connection of `userId`.
`Message.findOne({ where: { id: messageId, conversationId } })` answers the first
row, in id order, that the clause selects. -/
def onMessageSeen (now : Nat) (s : Store) (userId : Nat) (data : Option SeenData) :
    Store × List Emission :=
  match data with
  | none =>
    (s, [.toSocket "error" (.error
      "Cannot destructure property 'messageId' of 'data' as it is undefined.")])
  | some d =>
    if falsyId d.messageId || falsyId d.conversationId then
      (s, [.toSocket "error" (.error "messageId and conversationId are required")])
    else
      let messageId := d.messageId.getD (.number 0)
      let conversationId := d.conversationId.getD (.number 0)
      match verifyConversationAccessOf s conversationId userId with
      | .error e =>
        (s, [.toSocket "error" (.error (messageOr e "Failed to mark message as seen"))])
      | .ok _ =>
        match s.messages.find? (fun m =>
            messageId.selects m.id && conversationId.selects m.conversationId)
        with
        | some message =>
          if message.senderId != userId then
            (messageUpdateSeen now s message,
              [.toRoom conversationId "message:seen"
                (.messageSeen messageId conversationId userId now)])
          else
            (s, [.toSocket "error"
              (.error "Message not found or cannot mark own message as seen")])
        | none =>
          (s, [.toSocket "error"
            (.error "Message not found or cannot mark own message as seen")])

/-- Rooms a connection has joined, by conversation id. -/
structure Connection where
  userId : Nat
  rooms : List Nat
  deriving DecidableEq, Repr

/-- The handler of `join:conversation`. -/
def onJoinConversation (s : Store) (conn : Connection) (conversationId : Nat) :
    Connection × List Emission :=
  match verifyConversationAccess s conversationId conn.userId with
  | .ok _ =>
    ({ conn with rooms := if conversationId ∈ conn.rooms then conn.rooms
                          else conversationId :: conn.rooms },
      [.toSocket "joined:conversation" (.joined conversationId)])
  | .error e =>
    (conn, [.toSocket "error" (.error (messageOr e "Failed to join conversation"))])

/-- The handler of `leave:conversation`. -/
def onLeaveConversation (conn : Connection) (conversationId : Nat) :
    Connection × List Emission :=
  ({ conn with rooms := conn.rooms.filter (fun r => r != conversationId) },
    [.toSocket "left:conversation" (.left conversationId)])

/-- Payload object of `typing:start` and `typing:stop`. -/
structure TypingData where
  conversationId : Option Nat
  deriving DecidableEq, Repr

/-- The handlers of `typing:start` and `typing:stop` (`event` is the name):
the payload is destructured outside any `try`, so a missing payload throws out
of the handler. -/
def onTyping (event : String) (userId : Nat) (data : Option TypingData) :
    Except String (List Emission) :=
  match data with
  | none => .error "Cannot destructure property 'conversationId' of 'data' as it is undefined."
  | some d =>
    if falsyNat d.conversationId then
      .ok [.toSocket "error" (.error "conversationId is required")]
    else
      .ok [.toRoomExceptSender (.number (d.conversationId.getD 0)) event
        (.typing userId (d.conversationId.getD 0))]

/-! ## The operations as a transition system -/

/-- A call of a service operation or a socket event of a connected user. The
read-only service calls (`getConversations`, `getConversationById`,
`getConversationMessages`, `getUsers`) return no store and are not listed; the
profile-picture table is not part of the store. -/
inductive Op where
  | register (email password name role : String)
  | login (email password : String)
  | refreshToken (presented : TokenValue)
  | logout (presented : TokenValue)
  | createConversation (userAId userBId : Nat)
  | createMessage (conversationId senderId : Nat) (content : String)
  | joinConversation (userId conversationId : Nat)
  | leaveConversation (userId conversationId : Nat)
  | messageNew (userId : Nat) (data : Option NewMessageData)
  | messageSeen (userId : Nat) (data : Option SeenData)
  | typingStart (userId : Nat) (data : Option TypingData)
  | typingStop (userId : Nat) (data : Option TypingData)
  deriving DecidableEq, Repr

/-- The store after an operation performed at instant `now`. The join, leave
and typing handlers do not write to the database. -/
def step (now : Nat) (s : Store) : Op → Store
  | .register email password name role => (register now s email password name role).1
  | .login email password => (login now s email password).1
  | .refreshToken presented => (refreshToken now s presented).1
  | .logout presented => logout s presented
  | .createConversation userAId userBId => (createConversation now s userAId userBId).1
  | .createMessage conversationId senderId content =>
    (createMessage now s conversationId senderId content).1
  | .joinConversation _ _ => s
  | .leaveConversation _ _ => s
  | .messageNew userId data => (onMessageNew now s userId data).1
  | .messageSeen userId data => (onMessageSeen now s userId data).1
  | .typingStart _ _ => s
  | .typingStop _ _ => s

/-- The store after a sequence of timed operations, first one first. -/
def run (s : Store) : List (Nat × Op) → Store
  | [] => s
  | (now, op) :: rest => run (step now s op) rest

/-- Stores reachable from the empty database through the operations. -/
inductive Reachable : Store → Prop where
  | init : Reachable Store.empty
  | step {s : Store} (now : Nat) (op : Op) : Reachable s → Reachable (step now s op)

/-! ## Paging through a conversation -/

/-- A client that reads a conversation page by page: it calls
`getConversationMessages` with the given cursor and, while the page says
`hasMore`, calls it again with the `nextCursor` of that page. It returns the
pages in the order received, or the error of the call that failed; `fuel`
bounds the number of calls. -/
def followCursor (s : Store) (conversationId userId : Nat) (limit : Int) :
    Nat → Cursor → Except String (List MessagePage)
  | 0, _ => .error "too many pages"
  | fuel + 1, cursor =>
    match getConversationMessages s conversationId userId (some limit) cursor with
    | .error e => .error e
    | .ok page =>
      if page.pagination.hasMore then
        match page.pagination.nextCursor with
        | none => .error "no cursor to follow"
        | some next =>
          match followCursor s conversationId userId limit fuel (.ofId next) with
          | .error e => .error e
          | .ok rest => .ok (page :: rest)
      else .ok [page]

/-- The messages of the received pages put in reading order: the pages from
the last received to the first, each page as it was delivered. -/
def pagesInReadingOrder : List MessagePage → List Message
  | [] => []
  | page :: rest => pagesInReadingOrder rest ++ page.messages.map (fun m => m.message)

/-- Three messages with ids 10, 11 and 12 in conversation 1 between users 1
and 2. -/
def pagingStore : Store :=
  { users := [], 
    conversations := [{ id := 1, userAId := 1, userBId := 2, createdAt := 0, updatedAt := 0 }],
    messages :=
      [{ id := 10, conversationId := 1, senderId := 1, content := "a", isSeen := false,
         createdAt := 1, updatedAt := 1 },
       { id := 11, conversationId := 1, senderId := 1, content := "b", isSeen := false,
         createdAt := 2, updatedAt := 2 },
       { id := 12, conversationId := 1, senderId := 1, content := "c", isSeen := false,
         createdAt := 3, updatedAt := 3 }],
    refreshTokens := [],
    nextUserId := 3, nextConversationId := 2, nextMessageId := 13, nextRefreshTokenId := 1 }

/-! ## Example stores -/

/-- Three registered users (ids 1, 2, 3), the conversation 1 between users 1
and 2, and the message 1 sent by user 1 in it; every row was written by a
service operation. -/
def chatStore : Store :=
  run Store.empty
    [(1000, .register "a@example.com" "password-a" "A" "user"),
     (1001, .register "b@example.com" "password-b" "B" "user"),
     (1002, .register "c@example.com" "password-c" "C" "user"),
     (2000, .createConversation 1 2),
     (3000, .createMessage 1 1 "hi")]

/-- The database right after user 1 registered at instant 1000 and received
the first refresh token, signed for user 1 at that instant. -/
def tokenStore : Store :=
  run Store.empty [(1000, .register "a@example.com" "password-a" "A" "user")]

/-! ## Integrity of the tables -/

/-- The integrity conditions on users, conversations and messages that the
operations maintain: primary keys are below their sequence and distinct, the
two users of a conversation differ and exist, no two conversations join the
same unordered pair, and the sender of a message is a participant of its
conversation. -/
structure Consistent (s : Store) : Prop where
  conversationIds : ∀ c ∈ s.conversations, c.id < s.nextConversationId
  conversationKey : (s.conversations.map (fun c => c.id)).Nodup
  messageIds : ∀ m ∈ s.messages, m.id < s.nextMessageId
  messageKey : (s.messages.map (fun m => m.id)).Nodup
  distinctUsers : ∀ c ∈ s.conversations, c.userAId ≠ c.userBId
  usersExist : ∀ c ∈ s.conversations,
    (findUserByPk s c.userAId).isSome ∧ (findUserByPk s c.userBId).isSome
  onePerPair : s.conversations.Pairwise (fun c d => pairClause c.userAId c.userBId d = false)
  senderParticipates : ∀ m ∈ s.messages, ∃ c ∈ s.conversations,
    c.id = m.conversationId ∧ (m.senderId = c.userAId ∨ m.senderId = c.userBId)

/-! ## Controllers: the response bodies -/

/-- JSON value of a response body; instants are written as their number. -/
inductive Json where
  | null
  | bool (b : Bool)
  | num (n : Int)
  | str (s : String)
  | arr (items : List Json)
  | obj (fields : List (String × Json))

/-- The value of a property of a JSON object, if the value is an object that
has it. -/
def Json.property (key : String) : Json → Option Json
  | .obj fields => (fields.find? (fun f => f.1 == key)).map (fun f => f.2)
  | _ => none

/-- The property names of a JSON object, in order. -/
def Json.keys : Json → List String
  | .obj fields => fields.map (fun f => f.1)
  | _ => []

/-- What `Array.isArray` answers for a JSON value. -/
def Json.isArray : Json → Bool
  | .arr _ => true
  | _ => false

/-- An HTTP response sent with `res.status(...).json(...)`. -/
structure Response where
  status : Nat
  body : Json

/-- Serialisation of the `otherUser` object built by `getConversations`. -/
def otherUserJson (u : UserSummary) : Json :=
  .obj [("id", .num u.id), ("name", .str u.name), ("email", .str u.email)]

/-- Serialisation of the `lastMessage` object built by `getConversations`. -/
def lastMessageJson : Option LastMessage → Json
  | none => .null
  | some m =>
    .obj [("id", .num m.id), ("content", .str m.content), ("senderId", .num m.senderId),
          ("isSeen", .bool m.isSeen), ("createdAt", .num m.createdAt)]

/-- Serialisation of one element returned by `getConversations`. -/
def entryJson (e : ConversationEntry) : Json :=
  .obj [("id", .num e.id), ("otherUser", otherUserJson e.otherUser),
        ("lastMessage", lastMessageJson e.lastMessage), ("unreadCount", .num e.unreadCount),
        ("updatedAt", .num e.updatedAt), ("createdAt", .num e.createdAt)]

/-- The handler `getConversations` of `conversationController.js` for the
authenticated user `userId`: the response, or the error handed to `next`. -/
def conversationController.getConversations (s : Store) (userId : Nat) :
    Except String Response :=
  match ChatService.getConversations s userId with
  | .error e => .error e
  | .ok conversations =>
    .ok { status := 200,
          body := .obj [("success", .bool true),
                        ("message", .str "Chat list retrieved successfully"),
                        ("data", .arr (conversations.map entryJson)),
                        ("count", .num conversations.length)] }

/-- The handler `logout` of `authController.js` for a validated body: the
store afterwards and the response. -/
def authController.logout (s : Store) (presented : TokenValue) : Store × Response :=
  (ChatService.logout s presented,
    { status := 200, body := .obj [("message", .str "Logout successful")] })

/-! ## The page a cursor asks for -/

/-- A cursor the query can be built from: one that JavaScript takes for false,
or one for which `parseInt` returns a number. -/
def Cursor.usable (cursor : Cursor) : Bool :=
  !cursor.truthy || cursor.parseInt.isSome

/-- The messages a page is drawn from, in the words of the amended interface:
all messages of the conversation when JavaScript takes the cursor for false
(`undefined`, `null`, `0`, `NaN`, the empty string), and otherwise those whose
id is strictly less than `parseInt(cursor)`. -/
def olderThanCursor (conversationId : Nat) (cursor : Cursor) (m : Message) : Bool :=
  m.conversationId == conversationId &&
    (!cursor.truthy ||
      (match cursor.parseInt with
       | some bound => decide ((m.id : Int) < bound)
       | none => false))

/-- The elements of a JSON array (none for any other value). -/
def Json.items : Json → List Json
  | .arr items => items
  | _ => []

/-- Conversation 1 between users 1 and 2 holding the 101 messages with ids 1
to 101. -/
def crowdedStore : Store :=
  { users := [],
    conversations := [{ id := 1, userAId := 1, userBId := 2, createdAt := 0, updatedAt := 0 }],
    messages := (List.range 101).map (fun i =>
      { id := i + 1, conversationId := 1, senderId := 1, content := "m", isSeen := false,
        createdAt := i, updatedAt := i }),
    refreshTokens := [],
    nextUserId := 3, nextConversationId := 2, nextMessageId := 102, nextRefreshTokenId := 1 }

/-! ## The socket handshake and the delivery of events -/

/-- The credentials a connecting socket presents: `handshake.auth.token` and
the `authorization` header. -/
structure Handshake where
  authToken : Option String
  authorization : Option String
  deriving DecidableEq, Repr

/-- Value of `auth.token || headers.authorization?.substring(7)`. -/
def Handshake.token (h : Handshake) : Option String :=
  match h.authToken with
  | some t => if t != "" then some t else h.authorization.map (fun a => a.drop 7)
  | none => h.authorization.map (fun a => a.drop 7)

/-- The middleware registered with `io.use`. `verifyAccessToken` of
`utils/jwt.js`, which is not among the sources, is a parameter. The result is
the error given to `next`, or the connection with `socket.userId` set. -/
def authenticateSocket (verifyAccessToken : String → Except String AccessToken) (s : Store)
    (h : Handshake) : Except String Connection :=
  match h.token with
  | none => .error "Authentication error"
  | some token =>
    if token == "" then .error "Authentication error"
    else
      match verifyAccessToken token with
      | .error _ => .error "Authentication error"
      | .ok decoded =>
        match findUserByPk s decoded.userId with
        | none => .error "User not found"
        | some user => .ok { userId := user.id, rooms := [] }

/-- The events for which the `connection` callback registers a handler. -/
def connectionEvents : List String :=
  ["join:conversation", "leave:conversation", "message:new", "message:seen", "typing:start",
   "typing:stop", "disconnect"]

/-- The events handled for a socket after its handshake: the `connection`
callback runs only for a socket the middleware admitted. -/
def registeredEvents (admission : Except String Connection) : List String :=
  match admission with
  | .error _ => []
  | .ok _ => connectionEvents

/-- Whether a connection is in the room addressed with a value: it has joined
a conversation whose room has that name. -/
def inRoom (conn : Connection) (room : PayloadId) : Bool :=
  conn.rooms.any (fun r => roomName (.number r) == roomName room)

/-- A connected socket with what the server holds for it. -/
structure Client where
  socketId : Nat
  connection : Connection
  deriving DecidableEq, Repr

/-- The sockets an emission reaches when the socket `sender` handles an event:
`socket.emit` reaches the sender, `io.to(room)` every socket in the room,
`socket.to(room)` every socket in the room but the sender. -/
def recipients (clients : List Client) (sender : Nat) : Emission → List Nat
  | .toSocket _ _ => [sender]
  | .toRoom room _ _ =>
    (clients.filter (fun c => inRoom c.connection room)).map (fun c => c.socketId)
  | .toRoomExceptSender room _ _ =>
    (clients.filter (fun c => inRoom c.connection room && c.socketId != sender)).map
      (fun c => c.socketId)

/-- Two sockets: socket 1 of user 1 has joined the room of conversation 1,
socket 2 of user 3 has joined no room. -/
def twoClients : List Client :=
  [{ socketId := 1, connection := { userId := 1, rooms := [1] } },
   { socketId := 2, connection := { userId := 3, rooms := [] } }]

/-! ## POST /api/messages -/

/-- The check of `createMessageSchema`: `conversationId` a positive integer,
`content` a string of 1 to 5000 characters. -/
def validateCreateMessage (body : NewMessageData) : Option (Nat × String) :=
  match body.conversationId, body.content with
  | some conversationId, some content =>
    if 0 < conversationId ∧ 1 ≤ content.length ∧ content.length ≤ 5000 then
      some (conversationId, content)
    else none
  | _, _ => none

/-- Serialisation of a message with its sender. -/
def messageJson (m : MessageWithSender) : Json :=
  .obj [("id", .num m.message.id), ("conversationId", .num m.message.conversationId),
        ("senderId", .num m.message.senderId), ("content", .str m.message.content),
        ("isSeen", .bool m.message.isSeen), ("createdAt", .num m.message.createdAt),
        ("updatedAt", .num m.message.updatedAt),
        ("sender", match m.sender with
          | none => .null
          | some u => .obj [("id", .num u.id), ("email", .str u.email), ("name", .str u.name)])]

/-- The handler `createMessage` of `messageController.js` for the authenticated
sender: the store afterwards, the response (or the error handed to `next`),
and the socket events emitted while handling the request. -/
def messageController.createMessage (now : Nat) (s : Store) (senderId conversationId : Nat)
    (content : String) : Store × Except String Response × List Emission :=
  match ChatService.createMessage now s conversationId senderId content with
  | (s1, .ok message) =>
    (s1,
      .ok { status := 201,
            body := .obj [("success", .bool true),
                          ("message", .str "Message created successfully"),
                          ("data", match message with
                            | none => .null
                            | some m => messageJson m)] },
      [])
  | (s1, .error e) =>
    if e == "Conversation not found or access denied" then
      (s1, .ok { status := 404, body := .obj [("success", .bool false), ("error", .str e)] }, [])
    else (s1, .error e, [])

/-- The route `POST /api/messages` behind `authenticate`: the body is checked
by `validate(createMessageSchema)` (the list of issues in the 400 body is left
empty), then handed to the controller. -/
def postMessage (now : Nat) (s : Store) (senderId : Nat) (body : NewMessageData) :
    Store × Except String Response × List Emission :=
  match validateCreateMessage body with
  | none =>
    (s, .ok { status := 400,
              body := .obj [("error", .str "Validation failed"), ("details", .arr [])] }, [])
  | some (conversationId, content) =>
    messageController.createMessage now s senderId conversationId content

/-- A text of 5001 characters. -/
def longContent : String :=
  String.mk (List.replicate 5001 'a')

/-! ## Refresh tokens as issued -/

/-- Every refresh-token record is as `generateTokens` writes it: its id is
below the sequence, its token is the one signed for its user at some instant
with the record's id as serial number, and it expires seven days after that
instant. -/
def IssuedTokens (s : Store) : Prop :=
  ∀ r ∈ s.refreshTokens, r.id < s.nextRefreshTokenId ∧ ∃ issuedAt,
    r.token = .signed r.userId issuedAt r.id ∧ r.expiresAt = issuedAt + sevenDays

/-- The database after user 1 registered at instant 1000 and logged in at
instant 2000: two refresh-token records, expiring seven days after each. -/
def sweepStore : Store :=
  run Store.empty
    [(1000, .register "a@example.com" "password-a" "A" "user"),
     (2000, .login "a@example.com" "password-a")]

/-- Users 1, 2 and 3, conversation 1 between users 1 and 2 created at instant
2000, conversation 2 between users 1 and 3 created at instant 4000, and a
message sent in conversation 1 at instant 5000. -/
def listStore : Store :=
  run Store.empty
    [(1000, .register "a@example.com" "password-a" "A" "user"),
     (1001, .register "b@example.com" "password-b" "B" "user"),
     (1002, .register "c@example.com" "password-c" "C" "user"),
     (2000, .createConversation 1 2),
     (4000, .createConversation 1 3),
     (5000, .createMessage 1 1 "hi")]

/-- What an operation may do to the refresh-token table on the way from `s` to
`t`: the sequence does not go back, and a record of `t` is a record of `s` or
the one record written with the next id of `s`, whose token is signed for its
user with that id as serial number and which expires seven days after the
signing. -/
def TokenStep (s t : Store) : Prop :=
  s.nextRefreshTokenId ≤ t.nextRefreshTokenId ∧
  ∀ r ∈ t.refreshTokens, r ∈ s.refreshTokens ∨
    (r.id = s.nextRefreshTokenId ∧ s.nextRefreshTokenId < t.nextRefreshTokenId ∧
      ∃ issuedAt, r.token = .signed r.userId issuedAt r.id ∧ r.expiresAt = issuedAt + sevenDays)

/-- A signed token that was issued before and that no record holds any more. -/
def Spent (t : TokenValue) (s : Store) : Prop :=
  (∃ userId issuedAt serial, t = .signed userId issuedAt serial ∧
    serial < s.nextRefreshTokenId) ∧
  ∀ r ∈ s.refreshTokens, r.token ≠ t

/-! ## Ordering facts -/

theorem orderByIdDesc_perm (l : List Message) : (orderByIdDesc l).Perm l :=
  List.perm_insertionSort _ l

theorem orderByIdDesc_pairwise (l : List Message) (h : (l.map (fun m => m.id)).Nodup) :
    (orderByIdDesc l).Pairwise (fun a b => b.id < a.id) := by
  haveI : IsTotal Message (fun a b => b.id ≤ a.id) := ⟨fun a b => Nat.le_total b.id a.id⟩
  haveI : IsTrans Message (fun a b => b.id ≤ a.id) := ⟨fun a b c h1 h2 => Nat.le_trans h2 h1⟩
  have hs : (orderByIdDesc l).Pairwise (fun a b => b.id ≤ a.id) :=
    List.sorted_insertionSort (fun a b : Message => b.id ≤ a.id) l
  have hn : ((orderByIdDesc l).map (fun m => m.id)).Nodup :=
    ((orderByIdDesc_perm l).map _).nodup_iff.mpr h
  have hne : (orderByIdDesc l).Pairwise (fun a b => a.id ≠ b.id) := by
    simpa [List.Nodup, List.pairwise_map] using hn
  exact (hs.and hne).imp (fun h => lt_of_le_of_ne h.1 (Ne.symm h.2))

theorem eq_of_perm_of_desc {l₁ l₂ : List Message} (hp : l₁.Perm l₂)
    (h₁ : l₁.Pairwise (fun a b => b.id < a.id)) (h₂ : l₂.Pairwise (fun a b => b.id < a.id)) :
    l₁ = l₂ := by
  haveI : IsAntisymm Message (fun a b => b.id < a.id) :=
    ⟨fun a b h1 h2 => absurd h1 (Nat.lt_asymm h2)⟩
  exact List.eq_of_perm_of_sorted hp h₁ h₂

theorem orderByIdDesc_filter (l : List Message) (p : Message → Bool)
    (h : (l.map (fun m => m.id)).Nodup) :
    orderByIdDesc (l.filter p) = (orderByIdDesc l).filter p := by
  apply eq_of_perm_of_desc
  · exact (orderByIdDesc_perm _).trans ((orderByIdDesc_perm l).filter p).symm
  · exact orderByIdDesc_pairwise _ (h.sublist ((List.filter_sublist l).map _))
  · exact (orderByIdDesc_pairwise l h).sublist (List.filter_sublist _)

theorem filter_lt_of_split (pre post : List Message) (x : Message)
    (h : (pre ++ x :: post).Pairwise (fun a b => b.id < a.id)) :
    (pre ++ x :: post).filter (fun m => decide (m.id < x.id)) = post := by
  rw [List.pairwise_append] at h
  obtain ⟨_, hx, hpre⟩ := h
  rw [List.pairwise_cons] at hx
  rw [List.filter_append, List.filter_cons]
  have h1 : pre.filter (fun m => decide (m.id < x.id)) = [] := by
    rw [List.filter_eq_nil_iff]
    intro a ha
    have := hpre a ha x (List.mem_cons_self _ _)
    simp; omega
  have h2 : post.filter (fun m => decide (m.id < x.id)) = post := by
    rw [List.filter_eq_self]
    intro a ha
    simpa using hx.1 a ha
  simp [h1, h2]

/-! ## One page, in terms of the rows the query selects -/

theorem messageClause_number (conversationId c : Nat) (hc : c ≠ 0) (l : List Message) :
    l.filter (messageClause conversationId (.ofId c)) =
      (l.filter (messageClause conversationId .absent)).filter (fun m => decide (m.id < c)) := by
  rw [List.filter_filter]
  congr 1
  funext m
  simp [messageClause, Cursor.ofId, Cursor.absent, hc, Bool.and_comm]

theorem usable_absent : Cursor.absent.usable = true := rfl

theorem usable_ofId (id : Nat) : (Cursor.ofId id).usable = true := by
  simp [Cursor.usable, Cursor.ofId]

theorem findAllMessages_of_usable (s : Store) (conversationId : Nat) (cursor : Cursor)
    (hcursor : cursor.usable = true) (limit : Int) :
    findAllMessages s conversationId cursor limit =
      if limit < 0 then .error "LIMIT must not be negative"
      else .ok ((orderByIdDesc (s.messages.filter (messageClause conversationId cursor))).take
        limit.toNat) := by
  have hnot : (cursor.truthy && cursor.parseInt.isNone) = false := by
    simp only [Cursor.usable] at hcursor
    cases ht : cursor.truthy <;> cases hp : cursor.parseInt <;> simp [ht, hp] at hcursor ⊢
  simp only [findAllMessages, hnot, Bool.false_eq_true, if_false]

theorem getConversationMessages_eq (s : Store) (conversationId userId k : Nat) (hk : 1 ≤ k)
    (c : Conversation) (hacc : verifyConversationAccess s conversationId userId = .ok c)
    (cursor : Cursor) (hcursor : cursor.usable = true) :
    getConversationMessages s conversationId userId (some (k : Int)) cursor =
      .ok { messages :=
              (((orderByIdDesc (s.messages.filter (messageClause conversationId cursor))).take
                k).reverse).map (withSender s),
            pagination :=
              { hasMore := decide (k <
                  (orderByIdDesc (s.messages.filter (messageClause conversationId cursor))).length),
                nextCursor :=
                  if k < (orderByIdDesc
                      (s.messages.filter (messageClause conversationId cursor))).length then
                    ((orderByIdDesc (s.messages.filter
                      (messageClause conversationId cursor))).take k).getLast?.map (fun m => m.id)
                  else none,
                limit := (k : Int) } } := by
  have hneg : ¬ ((k : Int) + 1 < 0) := by omega
  have htoNat : ((k : Int) + 1).toNat = k + 1 := by omega
  simp only [getConversationMessages, Option.getD_some, hacc,
    findAllMessages_of_usable s conversationId cursor hcursor, hneg, if_false,
    bind, Except.bind, pure, Except.pure, htoNat]
  generalize orderByIdDesc (s.messages.filter (messageClause conversationId cursor)) = rows
  by_cases h : k < rows.length
  · have hlen : (rows.take (k + 1)).length = k + 1 := by
      rw [List.length_take]; omega
    have hmore : (((rows.take (k + 1)).length : Int) > (k : Int)) := by
      rw [hlen]; push_cast; omega
    have hdrop : (rows.take (k + 1)).dropLast = rows.take k := by
      rw [List.dropLast_eq_take, hlen, List.take_take]; simp
    simp only [hmore, h, decide_True, if_true, hdrop]
    have hne : rows.take k ≠ [] := by
      intro hnil
      have hl := congrArg List.length hnil
      rw [List.length_take, List.length_nil] at hl
      omega
    obtain ⟨m, hm⟩ : ∃ m, (rows.take k).getLast? = some m := by
      cases hh : (rows.take k).getLast? with
      | none => exact absurd (List.getLast?_eq_none_iff.mp hh) hne
      | some m => exact ⟨m, rfl⟩
    simp [hm]
  · have htake : rows.take (k + 1) = rows := List.take_of_length_le (by omega)
    have htake2 : rows.take k = rows := List.take_of_length_le (by omega)
    have hmore : ¬ (((rows.take (k + 1)).length : Int) > (k : Int)) := by
      rw [htake]; omega
    simp [hmore, h, htake, htake2]

theorem unwrap_withSender (s : Store) (l : List Message) :
    (l.map (withSender s)).map (fun m => m.message) = l := by
  rw [List.map_map]
  exact (List.map_congr_left (fun m _ => rfl)).trans (List.map_id l)

/-! ## Following the cursor -/

theorem followCursor_pages (s : Store) (conversationId userId k : Nat) (hk : 1 ≤ k)
    (c : Conversation) (hacc : verifyConversationAccess s conversationId userId = .ok c)
    (hnodup : ((s.messages.filter (messageClause conversationId .absent)).map
      (fun m => m.id)).Nodup) :
    ∀ (n : Nat) (cursor : Cursor) (pre post : List Message),
      cursor.usable = true →
      orderByIdDesc (s.messages.filter (messageClause conversationId .absent)) = pre ++ post →
      orderByIdDesc (s.messages.filter (messageClause conversationId cursor)) = post →
      post.length ≤ n →
      ∃ pages, followCursor s conversationId userId (k : Int) (n + 1) cursor = .ok pages ∧
        pagesInReadingOrder pages = post.reverse ∧
        pages.map (fun p => p.pagination.hasMore) =
          List.replicate (pages.length - 1) true ++ [false] := by
  intro n
  induction n with
  | zero =>
    intro cursor pre post hcur _ hrows hlen
    have hnil : post = [] := List.length_eq_zero.mp (by omega)
    subst hnil
    simp only [followCursor]
    rw [getConversationMessages_eq s conversationId userId k hk c hacc cursor hcur, hrows]
    simp [pagesInReadingOrder]
  | succ n ih =>
    intro cursor pre post hcur hD hrows hlen
    rw [followCursor, getConversationMessages_eq s conversationId userId k hk c hacc cursor hcur,
      hrows]
    by_cases h : k < post.length
    · have hne : post.take k ≠ [] := by
        intro hnil
        have hl := congrArg List.length hnil
        rw [List.length_take, List.length_nil] at hl
        omega
      obtain ⟨x, hx⟩ : ∃ x, (post.take k).getLast? = some x := by
        cases hh : (post.take k).getLast? with
        | none => exact absurd (List.getLast?_eq_none_iff.mp hh) hne
        | some x => exact ⟨x, rfl⟩
      obtain ⟨front, hfront⟩ := List.getLast?_eq_some_iff.mp hx
      have hsplit : pre ++ post = (pre ++ front) ++ x :: post.drop k := by
        conv_lhs => rw [← List.take_append_drop k post, hfront]
        simp
      have hpw := orderByIdDesc_pairwise _ hnodup
      rw [hD, hsplit] at hpw
      have hrest : ((pre ++ front) ++ x :: post.drop k).filter
          (fun m => decide (m.id < x.id)) = post.drop k := filter_lt_of_split _ _ _ hpw
      have hx0 : x.id ≠ 0 := by
        have hlt := (List.pairwise_cons.mp (List.pairwise_append.mp hpw).2.1).1
        cases hd : post.drop k with
        | nil =>
          have hl := congrArg List.length hd
          rw [List.length_drop, List.length_nil] at hl
          omega
        | cons y ys =>
          have := hlt y (by rw [hd]; exact List.mem_cons_self _ _)
          omega
      have hnext : orderByIdDesc (s.messages.filter
          (messageClause conversationId (.ofId x.id))) = post.drop k := by
        rw [messageClause_number conversationId x.id hx0, orderByIdDesc_filter _ _ hnodup, hD,
          hsplit, hrest]
      have hD2 : orderByIdDesc (s.messages.filter (messageClause conversationId .absent)) =
          (pre ++ post.take k) ++ post.drop k := by
        rw [hD, List.append_assoc, List.take_append_drop]
      have hlen2 : (post.drop k).length ≤ n := by
        rw [List.length_drop]; omega
      obtain ⟨rest, hrun, hread, hflags⟩ :=
        ih (.ofId x.id) _ _ (usable_ofId x.id) hD2 hnext hlen2
      refine ⟨{ messages := ((post.take k).reverse).map (withSender s),
                pagination := { hasMore := true, nextCursor := some x.id, limit := (k : Int) } }
              :: rest, ?_, ?_, ?_⟩
      · simp only [h, decide_True, if_true, hx, Option.map_some', hrun]
      · simp only [pagesInReadingOrder, hread, unwrap_withSender]
        rw [← List.reverse_append, List.take_append_drop]
      · have hl := congrArg List.length hflags
        simp only [List.length_map, List.length_append, List.length_replicate,
          List.length_singleton] at hl
        simp only [List.map_cons, hflags, List.length_cons, Nat.add_sub_cancel]
        have hr : rest.length = (rest.length - 1) + 1 := hl
        rw [hr, List.replicate_succ]
        simp
    · have htake : post.take k = post := List.take_of_length_le (by omega)
      refine ⟨[{ messages := (post.reverse).map (withSender s),
                 pagination := { hasMore := false, nextCursor := none, limit := (k : Int) } }],
              ?_, ?_, ?_⟩
      · simp only [h, decide_False, if_false, Bool.false_eq_true, htake]
      · simp only [pagesInReadingOrder, unwrap_withSender, List.nil_append]
      · simp

theorem mem_pagesInReadingOrder (pages : List MessagePage) (p : MessagePage) (hp : p ∈ pages)
    (m : MessageWithSender) (hm : m ∈ p.messages) : m.message ∈ pagesInReadingOrder pages := by
  induction pages with
  | nil => cases hp
  | cons q rest ih =>
    simp only [pagesInReadingOrder, List.mem_append]
    rcases List.mem_cons.mp hp with h | h
    · subst h
      exact Or.inr (List.mem_map.mpr ⟨m, hm, rfl⟩)
    · exact Or.inl (ih h)

theorem pages_ordered_of_reading_order (pages : List MessagePage)
    (h : (pagesInReadingOrder pages).Pairwise (fun a b => a.id < b.id)) :
    (∀ p ∈ pages, p.messages.Pairwise (fun a b => a.message.id < b.message.id)) ∧
      pages.Pairwise (fun p q => ∀ a ∈ q.messages, ∀ b ∈ p.messages,
        a.message.id < b.message.id) := by
  induction pages with
  | nil => exact ⟨fun p hp => absurd hp (List.not_mem_nil p), List.Pairwise.nil⟩
  | cons p rest ih =>
    simp only [pagesInReadingOrder] at h
    obtain ⟨hrest, hp, hcross⟩ := List.pairwise_append.mp h
    obtain ⟨ih1, ih2⟩ := ih hrest
    refine ⟨?_, List.Pairwise.cons ?_ ih2⟩
    · intro q hq
      rcases List.mem_cons.mp hq with hq | hq
      · subst hq
        rw [List.pairwise_map] at hp
        exact hp
      · exact ih1 q hq
    · intro q hq a ha b hb
      exact hcross _ (mem_pagesInReadingOrder rest q hq a ha) _ (List.mem_map.mpr ⟨b, hb, rfl⟩)

theorem verifyConversationAccess_of_participant (s : Store) (conversationId userId : Nat)
    (h : ∃ c ∈ s.conversations, c.id = conversationId ∧
      (c.userAId = userId ∨ c.userBId = userId)) :
    ∃ c, verifyConversationAccess s conversationId userId = .ok c := by
  unfold verifyConversationAccess
  cases hf : s.conversations.find? (accessClause conversationId userId) with
  | some c => exact ⟨c, rfl⟩
  | none =>
    exfalso
    obtain ⟨c, hc, hid, hu⟩ := h
    have := List.find?_eq_none.mp hf c hc
    simp [accessClause, hid] at this
    rcases hu with hu | hu
    · exact this.1 hu
    · exact this.2 hu

/-- C1: for a conversation whose messages have distinct ids, a participant and
a limit `k ≥ 1`, paging from no cursor and following `nextCursor` while
`hasMore` holds terminates and visits every message of the conversation
exactly once; each page is in ascending id order, every later page holds only
older messages than every earlier page, and `hasMore` is false on the last
page and true on every page before it. -/
theorem followCursor_visits_every_message_once (s : Store) (conversationId userId : Nat)
    (k : Int) (hk : 1 ≤ k)
    (hpart : ∃ c ∈ s.conversations, c.id = conversationId ∧
      (c.userAId = userId ∨ c.userBId = userId))
    (hids : ((s.messages.filter (fun m => m.conversationId == conversationId)).map
      (fun m => m.id)).Nodup) :
    ∃ pages,
      followCursor s conversationId userId k (s.messages.length + 1) .absent = .ok pages ∧
      (pagesInReadingOrder pages).Perm
        (s.messages.filter (fun m => m.conversationId == conversationId)) ∧
      (pagesInReadingOrder pages).Pairwise (fun a b => a.id < b.id) ∧
      (∀ p ∈ pages, p.messages.Pairwise (fun a b => a.message.id < b.message.id)) ∧
      pages.Pairwise (fun p q => ∀ a ∈ q.messages, ∀ b ∈ p.messages,
        a.message.id < b.message.id) ∧
      pages.map (fun p => p.pagination.hasMore) =
        List.replicate (pages.length - 1) true ++ [false] := by
  obtain ⟨n, rfl⟩ := Int.eq_ofNat_of_zero_le (le_trans (by decide) hk)
  have hn : 1 ≤ n := by omega
  obtain ⟨c, hacc⟩ := verifyConversationAccess_of_participant s conversationId userId hpart
  have hclause : messageClause conversationId .absent =
      fun m => m.conversationId == conversationId := by
    funext m
    simp [messageClause, Cursor.absent]
  have hnodup : ((s.messages.filter (messageClause conversationId .absent)).map
      (fun m => m.id)).Nodup := by rw [hclause]; exact hids
  have hlen : (orderByIdDesc (s.messages.filter
      (messageClause conversationId .absent))).length ≤ s.messages.length := by
    rw [(orderByIdDesc_perm _).length_eq]
    exact List.length_filter_le _ _
  obtain ⟨pages, hrun, hread, hflags⟩ :=
    followCursor_pages s conversationId userId n hn c hacc hnodup s.messages.length .absent []
      _ usable_absent (List.nil_append _).symm rfl hlen
  have hperm : (pagesInReadingOrder pages).Perm
      (s.messages.filter (fun m => m.conversationId == conversationId)) := by
    rw [hread, ← hclause]
    exact (List.reverse_perm _).trans (orderByIdDesc_perm _)
  have hasc : (pagesInReadingOrder pages).Pairwise (fun a b => a.id < b.id) := by
    rw [hread, List.pairwise_reverse]
    exact orderByIdDesc_pairwise _ hnodup
  obtain ⟨h1, h2⟩ := pages_ordered_of_reading_order pages hasc
  exact ⟨pages, hrun, hperm, hasc, h1, h2, hflags⟩

/-- C1 at ids 10, 11, 12 with limit 2: the pages are `[11, 12]` with
`nextCursor = 11` and `hasMore = true`, then `[10]` with `hasMore = false`. -/
theorem followCursor_visits_every_message_once_witness :
    (followCursor pagingStore 1 1 2 4 .absent).toOption.map (fun pages => pages.map (fun p =>
        (p.messages.map (fun m => m.message.id), p.pagination.nextCursor,
          p.pagination.hasMore))) =
      some [([11, 12], some 11, true), ([10], none, false)] ∧
    ∃ pages,
      followCursor pagingStore 1 1 2 (pagingStore.messages.length + 1) .absent = .ok pages ∧
      (pagesInReadingOrder pages).Perm
        (pagingStore.messages.filter (fun m => m.conversationId == 1)) ∧
      (pagesInReadingOrder pages).Pairwise (fun a b => a.id < b.id) ∧
      (∀ p ∈ pages, p.messages.Pairwise (fun a b => a.message.id < b.message.id)) ∧
      pages.Pairwise (fun p q => ∀ a ∈ q.messages, ∀ b ∈ p.messages,
        a.message.id < b.message.id) ∧
      pages.map (fun p => p.pagination.hasMore) =
        List.replicate (pages.length - 1) true ++ [false] :=
  ⟨by decide,
    followCursor_visits_every_message_once pagingStore 1 1 2 (by decide)
      ⟨{ id := 1, userAId := 1, userBId := 2, createdAt := 0, updatedAt := 0 },
        by decide, rfl, Or.inl rfl⟩
      (by decide)⟩

/-! ## Access checks -/

theorem find_accessClause_none_iff (s : Store) (conversationId userId : Nat) :
    s.conversations.find? (accessClause conversationId userId) = none ↔
      ∀ c ∈ s.conversations, c.id = conversationId →
        c.userAId ≠ userId ∧ c.userBId ≠ userId := by
  rw [List.find?_eq_none]
  constructor
  · intro h c hc hid
    have := h c hc
    simpa [accessClause, hid] using this
  · intro h c hc
    by_cases hid : c.id = conversationId
    · have := h c hc hid
      simp [accessClause, hid, this.1, this.2]
    · simp [accessClause, hid]

theorem find_accessClause_some (s : Store) (conversationId userId : Nat) (c : Conversation)
    (h : s.conversations.find? (accessClause conversationId userId) = some c) :
    c ∈ s.conversations ∧ c.id = conversationId ∧ (c.userAId = userId ∨ c.userBId = userId) := by
  have hp := List.find?_some h
  have hm := List.mem_of_find?_eq_some h
  simp [accessClause] at hp
  exact ⟨hm, hp.1, hp.2⟩

/-- C5: `verifyConversationAccess` and `getConversationById` return a
conversation only to one of its two participants, and for a user who is not a
participant of the conversation the outcome of each is the same error, with
the same message, as for a conversation id that does not exist in any store. -/
theorem access_denied_like_missing (s : Store) (conversationId userId : Nat) :
    (∀ c, verifyConversationAccess s conversationId userId = .ok c →
      c ∈ s.conversations ∧ c.id = conversationId ∧
        (c.userAId = userId ∨ c.userBId = userId)) ∧
    (∀ r, getConversationById s conversationId userId = .ok r →
      r.conversation ∈ s.conversations ∧ r.conversation.id = conversationId ∧
        (r.conversation.userAId = userId ∨ r.conversation.userBId = userId)) ∧
    ((∀ c ∈ s.conversations, c.id = conversationId →
        c.userAId ≠ userId ∧ c.userBId ≠ userId) →
      ∀ (other : Store) (missing requester : Nat),
        (∀ c ∈ other.conversations, c.id ≠ missing) →
        verifyConversationAccess s conversationId userId =
            verifyConversationAccess other missing requester ∧
          getConversationById s conversationId userId =
            getConversationById other missing requester ∧
          verifyConversationAccess s conversationId userId =
            .error "Conversation not found or access denied" ∧
          getConversationById s conversationId userId = .error "Conversation not found") := by
  refine ⟨?_, ?_, ?_⟩
  · intro c h
    unfold verifyConversationAccess at h
    cases hf : s.conversations.find? (accessClause conversationId userId) with
    | none => rw [hf] at h; cases h
    | some c' =>
      rw [hf] at h
      cases h
      exact find_accessClause_some s conversationId userId c hf
  · intro r h
    unfold getConversationById at h
    cases hf : s.conversations.find? (accessClause conversationId userId) with
    | none => rw [hf] at h; cases h
    | some c' =>
      rw [hf] at h
      cases h
      exact find_accessClause_some s conversationId userId c' hf
  · intro hnon other missing requester hmissing
    have h1 := (find_accessClause_none_iff s conversationId userId).mpr hnon
    have h2 := (find_accessClause_none_iff other missing requester).mpr
      (fun c hc hid => absurd hid (hmissing c hc))
    simp [verifyConversationAccess, getConversationById, h1, h2]

/-- C5 at the example store: user 3 asking for conversation 1 (between users 1
and 2) gets what user 1 gets for the id 99999 in the empty database. -/
theorem access_denied_like_missing_witness :
    (∀ c ∈ chatStore.conversations, c.id = 1 → c.userAId ≠ 3 ∧ c.userBId ≠ 3) ∧
    (∀ c ∈ Store.empty.conversations, c.id ≠ 99999) ∧
    verifyConversationAccess chatStore 1 3 = verifyConversationAccess Store.empty 99999 1 ∧
    getConversationById chatStore 1 3 = getConversationById Store.empty 99999 1 ∧
    verifyConversationAccess chatStore 1 3 = .error "Conversation not found or access denied" ∧
    getConversationById chatStore 1 3 = .error "Conversation not found" :=
  ⟨by decide, by decide,
    (access_denied_like_missing chatStore 1 3).2.2 (by decide) Store.empty 99999 1 (by decide)⟩

/-! ## createMessage -/

/-- C10: `createMessage` fails exactly when no conversation with the given id
has the sender as `userA` or `userB` (the conversation is missing or the
sender is not a participant), the error is then `Conversation not found or
access denied` and the store is unchanged; otherwise it appends one message
of that sender to that conversation, and the sender is a participant of it. -/
theorem createMessage_access (now : Nat) (s : Store) (conversationId senderId : Nat)
    (content : String) :
    ((∃ e, (createMessage now s conversationId senderId content).2 = .error e) ↔
      ∀ c ∈ s.conversations, c.id = conversationId →
        c.userAId ≠ senderId ∧ c.userBId ≠ senderId) ∧
    (∀ e, (createMessage now s conversationId senderId content).2 = .error e →
      e = "Conversation not found or access denied" ∧
        (createMessage now s conversationId senderId content).1 = s) ∧
    (∀ r, (createMessage now s conversationId senderId content).2 = .ok r →
      ∃ m, (createMessage now s conversationId senderId content).1.messages = s.messages ++ [m] ∧
        m.conversationId = conversationId ∧ m.senderId = senderId ∧ m.content = content ∧
        ∃ c ∈ s.conversations, c.id = conversationId ∧
          (c.userAId = senderId ∨ c.userBId = senderId)) := by
  unfold createMessage verifyConversationAccess
  cases hf : s.conversations.find? (accessClause conversationId senderId) with
  | none =>
    have hnon := (find_accessClause_none_iff s conversationId senderId).mp hf
    refine ⟨⟨fun _ => hnon, fun _ => ⟨_, rfl⟩⟩, ?_, ?_⟩
    · intro e he
      cases he
      exact ⟨rfl, rfl⟩
    · intro r hr
      cases hr
  | some c =>
    obtain ⟨hc, hid, hu⟩ := find_accessClause_some s conversationId senderId c hf
    refine ⟨⟨?_, ?_⟩, ?_, ?_⟩
    · rintro ⟨e, he⟩
      cases he
    · intro hnon
      have := hnon c hc hid
      rcases hu with hu | hu
      · exact absurd hu this.1
      · exact absurd hu this.2
    · intro e he
      cases he
    · intro r _
      exact ⟨_, rfl, rfl, rfl, rfl, c, hc, hid, hu⟩

/-- C10 at the example store: user 3 is not in conversation 1, the call fails
with the uniform error and leaves the store as it was. -/
theorem createMessage_access_witness :
    ∃ e, (createMessage 4000 chatStore 1 3 "hello").2 = .error e ∧
      e = "Conversation not found or access denied" ∧
      (createMessage 4000 chatStore 1 3 "hello").1 = chatStore :=
  ((createMessage_access 4000 chatStore 1 3 "hello").1.mpr (by decide)).elim
    (fun e he =>
      ⟨e, he, ((createMessage_access 4000 chatStore 1 3 "hello").2.1 e he).1,
        ((createMessage_access 4000 chatStore 1 3 "hello").2.1 e he).2⟩)

/-! ## The `message:seen` handler -/

theorem verifyConversationAccessOf_number (s : Store) (conversationId userId : Nat) :
    verifyConversationAccessOf s (.number conversationId) userId =
      verifyConversationAccess s conversationId userId := rfl

/-- C7: when every message the `messageId` of the payload selects (the message
with that id, or with one of the ids of an array) was sent by the connected
user, the `message:seen` handler leaves the store (so every `isSeen`) as it
was, broadcasts nothing to a room and emits exactly one `error` event, to the
handling connection. -/
theorem onMessageSeen_own_message (now : Nat) (s : Store) (userId : Nat) (d : SeenData)
    (hown : ∀ m ∈ s.messages, (∃ k, d.messageId = some k ∧ k.selects m.id = true) →
      m.senderId = userId) :
    ∃ text, onMessageSeen now s userId (some d) = (s, [.toSocket "error" (.error text)]) := by
  unfold onMessageSeen
  simp only
  split
  · exact ⟨_, rfl⟩
  · rename_i hfalsy
    split
    · exact ⟨_, rfl⟩
    · split
      · rename_i message hfind
        have hp := List.find?_some hfind
        have hm := List.mem_of_find?_eq_some hfind
        have hsel : ∃ k, d.messageId = some k ∧ k.selects message.id = true := by
          cases hd : d.messageId with
          | none => simp [hd, falsyId] at hfalsy
          | some k =>
            simp only [hd, Option.getD_some, Bool.and_eq_true] at hp
            exact ⟨k, rfl, hp.1⟩
        have hs := hown message hm hsel
        simp [hs]
      · exact ⟨_, rfl⟩

/-- C7 at the example store: user 1 reports their own message 1 as seen, by its
id and by an array that holds its id. -/
theorem onMessageSeen_own_message_witness :
    (∀ m ∈ chatStore.messages,
      (∃ k, some (PayloadId.list [1, 7]) = some k ∧ k.selects m.id = true) → m.senderId = 1) ∧
    (∃ text, onMessageSeen 5000 chatStore 1
        (some { messageId := some (.number 1), conversationId := some (.number 1) })
      = (chatStore, [.toSocket "error" (.error text)])) ∧
    ∃ text, onMessageSeen 5000 chatStore 1
        (some { messageId := some (.list [1, 7]), conversationId := some (.number 1) })
      = (chatStore, [.toSocket "error" (.error text)]) :=
  ⟨by decide,
    ⟨_, rfl⟩,
    onMessageSeen_own_message 5000 chatStore 1
      { messageId := some (.list [1, 7]), conversationId := some (.number 1) }
      (by decide)⟩

theorem onMessageSeen_of_found (now : Nat) (s : Store) (userId messageId conversationId : Nat)
    (hmid : messageId ≠ 0) (hcid : conversationId ≠ 0) (c : Conversation)
    (hacc : verifyConversationAccess s conversationId userId = .ok c) (message : Message)
    (hfind : s.messages.find? (fun m => m.id == messageId && m.conversationId == conversationId)
      = some message)
    (hother : message.senderId ≠ userId) :
    onMessageSeen now s userId
        (some { messageId := some (.number messageId),
                conversationId := some (.number conversationId) }) =
      (messageUpdateSeen now s message,
        [.toRoom (.number conversationId) "message:seen"
          (.messageSeen (.number messageId) (.number conversationId) userId now)]) := by
  have hfind2 : s.messages.find? (fun m =>
      (PayloadId.number messageId).selects m.id &&
        (PayloadId.number conversationId).selects m.conversationId) = some message := hfind
  simp [onMessageSeen, falsyId, hmid, hcid, verifyConversationAccessOf_number, hacc, hfind2,
    hother]

/-- C8: when a participant who is not the sender reports an unseen message of
the conversation as seen, the message becomes seen and the receipt goes to the
room; the same event sent again is answered with a receipt again (no error)
and leaves the store exactly as the first mark left it. -/
theorem onMessageSeen_idempotent (now₁ now₂ : Nat) (s : Store)
    (userId messageId conversationId : Nat) (m : Message)
    (hmid : messageId ≠ 0) (hcid : conversationId ≠ 0)
    (hpart : ∃ c ∈ s.conversations, c.id = conversationId ∧
      (c.userAId = userId ∨ c.userBId = userId))
    (hm : m ∈ s.messages) (hid : m.id = messageId) (hconv : m.conversationId = conversationId)
    (hkey : ∀ x ∈ s.messages, x.id = messageId → x = m)
    (hunseen : m.isSeen = false) (hother : m.senderId ≠ userId) :
    (onMessageSeen now₁ s userId
        (some { messageId := some (.number messageId),
                  conversationId := some (.number conversationId) })).2 =
      [.toRoom (.number conversationId) "message:seen"
        (.messageSeen (.number messageId) (.number conversationId) userId now₁)] ∧
    { m with isSeen := true, updatedAt := now₁ } ∈
      (onMessageSeen now₁ s userId
        (some { messageId := some (.number messageId),
                  conversationId := some (.number conversationId) })).1.messages ∧
    (onMessageSeen now₂
        (onMessageSeen now₁ s userId
          (some { messageId := some (.number messageId),
                  conversationId := some (.number conversationId) })).1
        userId
        (some { messageId := some (.number messageId),
                conversationId := some (.number conversationId) })) =
      ((onMessageSeen now₁ s userId
          (some { messageId := some (.number messageId),
                  conversationId := some (.number conversationId) })).1,
        [.toRoom (.number conversationId) "message:seen"
          (.messageSeen (.number messageId) (.number conversationId) userId now₂)]) := by
  obtain ⟨c, hacc⟩ := verifyConversationAccess_of_participant s conversationId userId hpart
  have hfind : s.messages.find?
      (fun x => x.id == messageId && x.conversationId == conversationId) = some m := by
    cases hf : s.messages.find?
        (fun x => x.id == messageId && x.conversationId == conversationId) with
    | none =>
      have := List.find?_eq_none.mp hf m hm
      simp [hid, hconv] at this
    | some x =>
      have hp := List.find?_some hf
      simp at hp
      rw [hkey x (List.mem_of_find?_eq_some hf) hp.1]
  rw [onMessageSeen_of_found now₁ s userId messageId conversationId hmid hcid c hacc m hfind hother]
  have hstore : messageUpdateSeen now₁ s m =
      { s with messages := s.messages.map (fun x =>
          if x.id == m.id then { x with isSeen := true, updatedAt := now₁ } else x) } := by
    simp [messageUpdateSeen, hunseen]
  rw [hstore]
  refine ⟨rfl, ?_, ?_⟩
  · refine List.mem_map.mpr ⟨m, hm, ?_⟩
    simp
  · have hacc2 : verifyConversationAccess
        { s with messages := s.messages.map (fun x =>
          if x.id == m.id then { x with isSeen := true, updatedAt := now₁ } else x) }
        conversationId userId = .ok c := hacc
    have hfind2 : (s.messages.map (fun x =>
          if x.id == m.id then { x with isSeen := true, updatedAt := now₁ } else x)).find?
        (fun x => x.id == messageId && x.conversationId == conversationId) =
        some { m with isSeen := true, updatedAt := now₁ } := by
      rw [List.find?_map]
      have hcomp : ((fun x : Message => x.id == messageId && x.conversationId == conversationId) ∘
          (fun x => if x.id == m.id then { x with isSeen := true, updatedAt := now₁ } else x)) =
          (fun x => x.id == messageId && x.conversationId == conversationId) := by
        funext x
        simp only [Function.comp]
        split <;> rfl
      rw [hcomp, hfind]
      simp
    rw [onMessageSeen_of_found now₂ _ userId messageId conversationId hmid hcid c hacc2 _ hfind2
      hother]
    simp [messageUpdateSeen]

/-- C8 at the example store: user 2 reports message 1 of user 1 as seen, twice. -/
theorem onMessageSeen_idempotent_witness :
    { id := 1, conversationId := 1, senderId := 1, content := "hi", isSeen := true,
      createdAt := 3000, updatedAt := 5000 } ∈
      (onMessageSeen 5000 chatStore 2
        (some { messageId := some (.number 1), conversationId := some (.number 1) })).1.messages ∧
    (onMessageSeen 6000
        (onMessageSeen 5000 chatStore 2
          (some { messageId := some (.number 1), conversationId := some (.number 1) })).1
        2 (some { messageId := some (.number 1), conversationId := some (.number 1) })) =
      ((onMessageSeen 5000 chatStore 2
          (some { messageId := some (.number 1), conversationId := some (.number 1) })).1,
        [.toRoom (.number 1) "message:seen" (.messageSeen (.number 1) (.number 1) 2 6000)]) :=
  (onMessageSeen_idempotent 5000 6000 chatStore 2 1 1
    { id := 1, conversationId := 1, senderId := 1, content := "hi", isSeen := false,
      createdAt := 3000, updatedAt := 3000 }
    (by decide) (by decide)
    ⟨{ id := 1, userAId := 1, userBId := 2, createdAt := 2000, updatedAt := 2000 },
      by decide, rfl, Or.inr rfl⟩
    (by decide) rfl rfl (by decide) rfl (by decide)).2

/-! ## The unique index of `conversations` -/

/-- C4, evaluated: with the record (1, 2) present, a direct insert of (1, 2)
is rejected by `unique_conversation_pair`, but a direct insert of (2, 1) is
accepted, after which two records exist for the unordered pair of users 1
and 2. -/
theorem conversationCreate_accepts_reversed_pair :
    chatStore.conversations.map (fun c => (c.id, c.userAId, c.userBId)) = [(1, 1, 2)] ∧
    conversationCreate 4000 chatStore 1 2 = .error "unique_conversation_pair must be unique" ∧
    (conversationCreate 4000 chatStore 2 1).toOption.map (fun r =>
        (r.1.conversations.filter (pairClause 1 2)).map (fun c => (c.id, c.userAId, c.userBId))) =
      some [(1, 1, 2), (2, 2, 1)] := by
  refine ⟨by decide, rfl, by decide⟩

/-! ## The operations maintain the integrity of the tables -/

theorem consistent_empty : Consistent Store.empty :=
  { conversationIds := fun c hc => absurd hc (List.not_mem_nil c)
    conversationKey := List.nodup_nil
    messageIds := fun m hm => absurd hm (List.not_mem_nil m)
    messageKey := List.nodup_nil
    distinctUsers := fun c hc => absurd hc (List.not_mem_nil c)
    usersExist := fun c hc => absurd hc (List.not_mem_nil c)
    onePerPair := List.Pairwise.nil
    senderParticipates := fun m hm => absurd hm (List.not_mem_nil m) }

theorem consistent_tokens (s : Store) (rows : List RefreshToken) (next : Nat)
    (h : Consistent s) :
    Consistent { s with refreshTokens := rows, nextRefreshTokenId := next } :=
  { conversationIds := h.conversationIds
    conversationKey := h.conversationKey
    messageIds := h.messageIds
    messageKey := h.messageKey
    distinctUsers := h.distinctUsers
    usersExist := h.usersExist
    onePerPair := h.onePerPair
    senderParticipates := h.senderParticipates }

theorem generateTokens_store (now : Nat) (s : Store) (user : User) :
    ∃ rows next, (generateTokens now s user).1 =
      { s with refreshTokens := rows, nextRefreshTokenId := next } := by
  unfold generateTokens refreshTokenCreate
  simp only
  split
  · exact ⟨s.refreshTokens, s.nextRefreshTokenId, rfl⟩
  · rename_i s1 heq
    split at heq
    · cases heq
    · split at heq
      · cases heq
      · cases heq
        exact ⟨_, _, rfl⟩

theorem consistent_generateTokens (now : Nat) (s : Store) (user : User) (h : Consistent s) :
    Consistent (generateTokens now s user).1 := by
  obtain ⟨rows, next, heq⟩ := generateTokens_store now s user
  rw [heq]
  exact consistent_tokens s rows next h

theorem findUserByPk_append (s : Store) (user : User) (id : Nat)
    (h : (findUserByPk s id).isSome) :
    (findUserByPk { s with users := s.users ++ [user], nextUserId := s.nextUserId + 1 }
      id).isSome := by
  unfold findUserByPk at *
  simp only [List.find?_append]
  cases hf : List.find? (fun u => u.id == id) s.users with
  | none => rw [hf] at h; cases h
  | some u => rfl

theorem consistent_append_user (s : Store) (user : User) (h : Consistent s) :
    Consistent { s with users := s.users ++ [user], nextUserId := s.nextUserId + 1 } :=
  { conversationIds := h.conversationIds
    conversationKey := h.conversationKey
    messageIds := h.messageIds
    messageKey := h.messageKey
    distinctUsers := h.distinctUsers
    usersExist := fun c hc =>
      ⟨findUserByPk_append s user _ (h.usersExist c hc).1,
        findUserByPk_append s user _ (h.usersExist c hc).2⟩
    onePerPair := h.onePerPair
    senderParticipates := h.senderParticipates }

theorem consistent_register (now : Nat) (s : Store) (email password name role : String)
    (h : Consistent s) : Consistent (register now s email password name role).1 := by
  unfold register
  split
  · exact h
  · have h1 := consistent_generateTokens now _
      { id := s.nextUserId, email := email, password := hashPassword password, name := name,
        role := role } (consistent_append_user s
      { id := s.nextUserId, email := email, password := hashPassword password, name := name,
        role := role } h)
    simp only
    split
    · rename_i heq
      rw [heq] at h1
      exact h1
    · rename_i heq
      rw [heq] at h1
      exact h1

theorem consistent_login (now : Nat) (s : Store) (email password : String)
    (h : Consistent s) : Consistent (login now s email password).1 := by
  unfold login
  split
  · exact h
  · rename_i user _
    split
    · exact h
    · have h1 := consistent_generateTokens now (cleanupExpiredTokens now s user.id) user
        (consistent_tokens s _ _ h)
      simp only
      split
      · rename_i heq
        rw [heq] at h1
        exact h1
      · rename_i heq
        rw [heq] at h1
        exact h1

theorem consistent_refreshToken (now : Nat) (s : Store) (presented : TokenValue)
    (h : Consistent s) : Consistent (refreshToken now s presented).1 := by
  unfold refreshToken
  split
  · exact h
  · split
    · exact h
    · split
      · exact h
      · exact consistent_generateTokens now _ _ (consistent_tokens s _ _ h)

theorem consistent_logout (s : Store) (presented : TokenValue) (h : Consistent s) :
    Consistent (logout s presented) :=
  consistent_tokens s _ _ h

theorem pairClause_symm (c d : Conversation) :
    pairClause c.userAId c.userBId d = pairClause d.userAId d.userBId c := by
  rw [Bool.eq_iff_iff]
  simp only [pairClause, Bool.or_eq_true, Bool.and_eq_true, beq_iff_eq]
  constructor <;> rintro (⟨h1, h2⟩ | ⟨h1, h2⟩)
  · exact Or.inl ⟨h1.symm, h2.symm⟩
  · exact Or.inr ⟨h2.symm, h1.symm⟩
  · exact Or.inl ⟨h1.symm, h2.symm⟩
  · exact Or.inr ⟨h2.symm, h1.symm⟩

theorem pairClause_swap (a b : Nat) (c : Conversation) :
    pairClause b a c = pairClause a b c := by
  simp only [pairClause]
  exact Bool.or_comm _ _

theorem consistent_append_conversation (s : Store) (c : Conversation)
    (hid : c.id = s.nextConversationId) (hne : c.userAId ≠ c.userBId)
    (hA : (findUserByPk s c.userAId).isSome) (hB : (findUserByPk s c.userBId).isSome)
    (hnew : ∀ d ∈ s.conversations, pairClause c.userAId c.userBId d = false)
    (h : Consistent s) :
    Consistent { s with conversations := s.conversations ++ [c],
                        nextConversationId := s.nextConversationId + 1 } :=
  { conversationIds := by
      intro d hd
      rcases List.mem_append.mp hd with hd | hd
      · exact Nat.lt_succ_of_lt (h.conversationIds d hd)
      · rw [List.mem_singleton.mp hd, hid]
        exact Nat.lt_succ_self _
    conversationKey := by
      show ((s.conversations ++ [c]).map (fun c => c.id)).Nodup
      rw [List.map_append, List.nodup_append]
      refine ⟨h.conversationKey, List.nodup_singleton _, ?_⟩
      intro x hx hx2
      obtain ⟨d, hd, rfl⟩ := List.mem_map.mp hx
      have hlt := h.conversationIds d hd
      simp only [List.map_cons, List.map_nil, List.mem_singleton] at hx2
      omega
    messageIds := h.messageIds
    messageKey := h.messageKey
    distinctUsers := by
      intro d hd
      rcases List.mem_append.mp hd with hd | hd
      · exact h.distinctUsers d hd
      · rw [List.mem_singleton.mp hd]
        exact hne
    usersExist := by
      intro d hd
      rcases List.mem_append.mp hd with hd | hd
      · exact h.usersExist d hd
      · rw [List.mem_singleton.mp hd]
        exact ⟨hA, hB⟩
    onePerPair := by
      show (s.conversations ++ [c]).Pairwise _
      rw [List.pairwise_append]
      refine ⟨h.onePerPair, List.pairwise_singleton _ _, ?_⟩
      intro d hd e he
      rw [List.mem_singleton.mp he, ← pairClause_symm]
      exact hnew d hd
    senderParticipates := by
      intro m hm
      obtain ⟨d, hd, hrest⟩ := h.senderParticipates m hm
      exact ⟨d, List.mem_append_left _ hd, hrest⟩ }

theorem consistent_createConversation (now : Nat) (s : Store) (userAId userBId : Nat)
    (h : Consistent s) : Consistent (createConversation now s userAId userBId).1 := by
  unfold createConversation
  split
  · exact h
  · split
    · exact h
    · rename_i hne
      split
      · exact h
      · rename_i hnone
        split
        · exact h
        · rename_i s1 conversation hcreate
          unfold conversationCreate at hcreate
          split at hcreate
          · cases hcreate
          · rename_i hfk
            split at hcreate
            · cases hcreate
            · cases hcreate
              simp only [Bool.or_eq_true, Option.isNone_iff_eq_none, not_or] at hfk
              refine consistent_append_conversation s _ rfl hne ?_ ?_ ?_ h
              · exact Option.ne_none_iff_isSome.mp hfk.1
              · exact Option.ne_none_iff_isSome.mp hfk.2
              · intro d hd
                have := List.find?_eq_none.mp hnone d hd
                simpa using this

theorem consistent_append_message (s : Store) (m : Message) (hid : m.id = s.nextMessageId)
    (hpart : ∃ c ∈ s.conversations, c.id = m.conversationId ∧
      (m.senderId = c.userAId ∨ m.senderId = c.userBId))
    (h : Consistent s) :
    Consistent { s with messages := s.messages ++ [m], nextMessageId := s.nextMessageId + 1 } :=
  { conversationIds := h.conversationIds
    conversationKey := h.conversationKey
    messageIds := by
      intro x hx
      rcases List.mem_append.mp hx with hx | hx
      · exact Nat.lt_succ_of_lt (h.messageIds x hx)
      · rw [List.mem_singleton.mp hx, hid]
        exact Nat.lt_succ_self _
    messageKey := by
      show ((s.messages ++ [m]).map (fun m => m.id)).Nodup
      rw [List.map_append, List.nodup_append]
      refine ⟨h.messageKey, List.nodup_singleton _, ?_⟩
      intro x hx hx2
      obtain ⟨d, hd, rfl⟩ := List.mem_map.mp hx
      have hlt := h.messageIds d hd
      simp only [List.map_cons, List.map_nil, List.mem_singleton] at hx2
      omega
    distinctUsers := h.distinctUsers
    usersExist := h.usersExist
    onePerPair := h.onePerPair
    senderParticipates := by
      intro x hx
      rcases List.mem_append.mp hx with hx | hx
      · exact h.senderParticipates x hx
      · rw [List.mem_singleton.mp hx]
        exact hpart }

theorem consistent_map_conversations (s : Store) (g : Conversation → Conversation)
    (hg : ∀ c, (g c).id = c.id ∧ (g c).userAId = c.userAId ∧ (g c).userBId = c.userBId)
    (h : Consistent s) :
    Consistent { s with conversations := s.conversations.map g } :=
  { conversationIds := by
      intro d hd
      obtain ⟨c, hc, rfl⟩ := List.mem_map.mp hd
      rw [(hg c).1]
      exact h.conversationIds c hc
    conversationKey := by
      show ((s.conversations.map g).map (fun c => c.id)).Nodup
      rw [List.map_map]
      have : ((fun c : Conversation => c.id) ∘ g) = fun c => c.id := funext (fun c => (hg c).1)
      rw [this]
      exact h.conversationKey
    messageIds := h.messageIds
    messageKey := h.messageKey
    distinctUsers := by
      intro d hd
      obtain ⟨c, hc, rfl⟩ := List.mem_map.mp hd
      rw [(hg c).2.1, (hg c).2.2]
      exact h.distinctUsers c hc
    usersExist := by
      intro d hd
      obtain ⟨c, hc, rfl⟩ := List.mem_map.mp hd
      rw [(hg c).2.1, (hg c).2.2]
      exact h.usersExist c hc
    onePerPair := by
      show (s.conversations.map g).Pairwise _
      rw [List.pairwise_map]
      refine h.onePerPair.imp ?_
      intro c d hcd
      simp only [pairClause, (hg c).2.1, (hg c).2.2, (hg d).2.1, (hg d).2.2]
      exact hcd
    senderParticipates := by
      intro m hm
      obtain ⟨c, hc, hid, hu⟩ := h.senderParticipates m hm
      refine ⟨g c, List.mem_map.mpr ⟨c, hc, rfl⟩, ?_, ?_⟩
      · rw [(hg c).1]
        exact hid
      · rw [(hg c).2.1, (hg c).2.2]
        exact hu }

theorem consistent_map_messages (s : Store) (f : Message → Message)
    (hf : ∀ m, (f m).id = m.id ∧ (f m).conversationId = m.conversationId ∧
      (f m).senderId = m.senderId)
    (h : Consistent s) :
    Consistent { s with messages := s.messages.map f } :=
  { conversationIds := h.conversationIds
    conversationKey := h.conversationKey
    messageIds := by
      intro x hx
      obtain ⟨m, hm, rfl⟩ := List.mem_map.mp hx
      rw [(hf m).1]
      exact h.messageIds m hm
    messageKey := by
      show ((s.messages.map f).map (fun m => m.id)).Nodup
      rw [List.map_map]
      have : ((fun m : Message => m.id) ∘ f) = fun m => m.id := funext (fun m => (hf m).1)
      rw [this]
      exact h.messageKey
    distinctUsers := h.distinctUsers
    usersExist := h.usersExist
    onePerPair := h.onePerPair
    senderParticipates := by
      intro x hx
      obtain ⟨m, hm, rfl⟩ := List.mem_map.mp hx
      rw [(hf m).2.1, (hf m).2.2]
      exact h.senderParticipates m hm }

theorem consistent_createMessage (now : Nat) (s : Store) (conversationId senderId : Nat)
    (content : String) (h : Consistent s) :
    Consistent (createMessage now s conversationId senderId content).1 := by
  unfold createMessage verifyConversationAccess
  cases hfind : s.conversations.find? (accessClause conversationId senderId) with
  | none => exact h
  | some c =>
    obtain ⟨hc, hid, hu⟩ := find_accessClause_some s conversationId senderId c hfind
    have h1 := consistent_append_message s
      { id := s.nextMessageId, conversationId := conversationId, senderId := senderId,
        content := content, isSeen := false, createdAt := now, updatedAt := now } rfl
      ⟨c, hc, hid, hu.imp Eq.symm Eq.symm⟩ h
    exact h1

theorem onMessageNew_store (now : Nat) (s : Store) (userId : Nat)
    (data : Option NewMessageData) :
    (onMessageNew now s userId data).1 = s ∨
      ∃ conversationId content,
        (onMessageNew now s userId data).1 =
          (createMessage now s conversationId userId content).1 := by
  unfold onMessageNew
  split
  · exact Or.inl rfl
  · split
    · exact Or.inl rfl
    · rename_i d _
      refine Or.inr ⟨d.conversationId.getD 0, d.content.getD "", ?_⟩
      simp only
      split <;> rename_i heq <;> rw [heq]

theorem consistent_onMessageNew (now : Nat) (s : Store) (userId : Nat)
    (data : Option NewMessageData) (h : Consistent s) :
    Consistent (onMessageNew now s userId data).1 := by
  rcases onMessageNew_store now s userId data with heq | ⟨conversationId, content, heq⟩
  · rw [heq]
    exact h
  · rw [heq]
    exact consistent_createMessage now s conversationId userId content h

theorem onMessageSeen_store (now : Nat) (s : Store) (userId : Nat) (data : Option SeenData) :
    (onMessageSeen now s userId data).1 = s ∨
      ∃ message ∈ s.messages, message.senderId ≠ userId ∧ message.isSeen = false ∧
        (onMessageSeen now s userId data).1 =
          { s with messages := s.messages.map (fun m =>
            if m.id == message.id then { m with isSeen := true, updatedAt := now } else m) } := by
  unfold onMessageSeen
  split
  · exact Or.inl rfl
  · split
    · exact Or.inl rfl
    · simp only
      split
      · exact Or.inl rfl
      · split
        · rename_i message hfind
          split
          · rename_i hother
            by_cases hseen : message.isSeen = true
            · left
              simp [messageUpdateSeen, hseen]
            · right
              refine ⟨message, List.mem_of_find?_eq_some hfind, ?_, ?_, ?_⟩
              · simpa using hother
              · simpa using hseen
              · simp [messageUpdateSeen, hseen]
          · exact Or.inl rfl
        · exact Or.inl rfl

theorem consistent_onMessageSeen (now : Nat) (s : Store) (userId : Nat)
    (data : Option SeenData) (h : Consistent s) :
    Consistent (onMessageSeen now s userId data).1 := by
  rcases onMessageSeen_store now s userId data with heq | ⟨message, _, _, _, heq⟩
  · rw [heq]
    exact h
  · rw [heq]
    exact consistent_map_messages s _ (fun m => by
      by_cases hm : (m.id == message.id) = true
      · simp only [hm, if_true, and_self]
      · simp [hm]) h

theorem consistent_step (now : Nat) (s : Store) (op : Op) (h : Consistent s) :
    Consistent (step now s op) := by
  cases op with
  | register email password name role => exact consistent_register now s email password name role h
  | login email password => exact consistent_login now s email password h
  | refreshToken presented => exact consistent_refreshToken now s presented h
  | logout presented => exact consistent_logout s presented h
  | createConversation userAId userBId => exact consistent_createConversation now s userAId userBId h
  | createMessage conversationId senderId content =>
    exact consistent_createMessage now s conversationId senderId content h
  | joinConversation _ _ => exact h
  | leaveConversation _ _ => exact h
  | messageNew userId data => exact consistent_onMessageNew now s userId data h
  | messageSeen userId data => exact consistent_onMessageSeen now s userId data h
  | typingStart _ _ => exact h
  | typingStop _ _ => exact h

theorem consistent_of_reachable (s : Store) (h : Reachable s) : Consistent s := by
  induction h with
  | init => exact consistent_empty
  | step now op _ ih => exact consistent_step now _ op ih

theorem reachable_run (s : Store) (ops : List (Nat × Op)) (h : Reachable s) :
    Reachable (run s ops) := by
  induction ops generalizing s with
  | nil => exact h
  | cons o rest ih => exact ih _ (Reachable.step o.1 o.2 h)

/-! ## createConversation twice -/

theorem createConversation_of_existing (now : Nat) (s : Store) (a b : Nat)
    (hb : (findUserByPk s b).isSome) (hab : a ≠ b) (c : Conversation)
    (hfind : s.conversations.find? (pairClause a b) = some c) :
    createConversation now s a b =
      (s, .ok { isNew := false, conversation := some (withUsers s c) }) := by
  obtain ⟨u, hu⟩ := Option.isSome_iff_exists.mp hb
  simp [createConversation, hu, hab, hfind]

theorem createConversation_of_none (now : Nat) (s : Store) (a b : Nat)
    (ha : (findUserByPk s a).isSome) (hb : (findUserByPk s b).isSome) (hab : a ≠ b)
    (hids : ∀ c ∈ s.conversations, c.id < s.nextConversationId)
    (hfind : s.conversations.find? (pairClause a b) = none) :
    createConversation now s a b =
      ({ s with
          conversations := s.conversations ++
            [{ id := s.nextConversationId, userAId := a, userBId := b, createdAt := now,
               updatedAt := now }],
          nextConversationId := s.nextConversationId + 1 },
        .ok { isNew := true,
              conversation := some (withUsers
                { s with
                  conversations := s.conversations ++
                    [{ id := s.nextConversationId, userAId := a, userBId := b, createdAt := now,
                       updatedAt := now }],
                  nextConversationId := s.nextConversationId + 1 }
                { id := s.nextConversationId, userAId := a, userBId := b, createdAt := now,
                  updatedAt := now }) }) := by
  obtain ⟨u, hu⟩ := Option.isSome_iff_exists.mp hb
  obtain ⟨v, hv⟩ := Option.isSome_iff_exists.mp ha
  have hany : (s.conversations.any (fun c => c.userAId == a && c.userBId == b)) = false := by
    rw [List.any_eq_false]
    intro c hc
    have := List.find?_eq_none.mp hfind c hc
    simp only [pairClause, Bool.or_eq_true, not_or] at this
    exact this.1
  have hpk : s.conversations.find? (fun c => c.id == s.nextConversationId) = none := by
    rw [List.find?_eq_none]
    intro c hc
    have := hids c hc
    simp
    omega
  simp [createConversation, hu, hv, hab, hfind, conversationCreate, hany, findConversationByPk,
    List.find?_append, hpk]

theorem filter_pairClause_length_le (l : List Conversation)
    (hpw : l.Pairwise (fun c d => pairClause c.userAId c.userBId d = false)) (a b : Nat) :
    (l.filter (pairClause a b)).length ≤ 1 := by
  induction l with
  | nil => simp
  | cons c l ih =>
    obtain ⟨hc, hl⟩ := List.pairwise_cons.mp hpw
    by_cases hmatch : pairClause a b c = true
    · have hnil : l.filter (pairClause a b) = [] := by
        rw [List.filter_eq_nil_iff]
        intro d hd
        have hcd := hc d hd
        have hsame : pairClause a b d = pairClause c.userAId c.userBId d := by
          simp only [pairClause, Bool.or_eq_true, Bool.and_eq_true, beq_iff_eq] at hmatch
          rcases hmatch with ⟨h1, h2⟩ | ⟨h1, h2⟩
          · rw [h1, h2]
          · rw [h1, h2]
            exact pairClause_swap _ _ d
        rw [hsame, hcd]
        simp
      simp [List.filter_cons, hmatch, hnil]
    · simp only [List.filter_cons, hmatch]
      exact ih hl

/-- C3: in a store reached through the operations, for existing users `a ≠ b`,
`createConversation(a, b)` followed by `createConversation` for the same pair
in either argument order succeeds both times with the same conversation id,
the second call reports `isNew = false`, and afterwards exactly one
conversation row joins `a` and `b`. -/
theorem createConversation_twice (s : Store) (hs : Reachable s) (a b now₁ now₂ : Nat)
    (ha : (findUserByPk s a).isSome) (hb : (findUserByPk s b).isSome) (hab : a ≠ b)
    (x y : Nat) (hxy : (x = a ∧ y = b) ∨ (x = b ∧ y = a)) :
    ∃ first second id,
      (createConversation now₁ s a b).2 = .ok first ∧
      (createConversation now₂ (createConversation now₁ s a b).1 x y).2 = .ok second ∧
      first.conversation.map (fun r => r.conversation.id) = some id ∧
      second.conversation.map (fun r => r.conversation.id) = some id ∧
      second.isNew = false ∧
      ((createConversation now₂ (createConversation now₁ s a b).1 x y).1.conversations.filter
        (pairClause a b)).length = 1 := by
  have hcons := consistent_of_reachable s hs
  have hfun : pairClause x y = pairClause a b := by
    rcases hxy with ⟨rfl, rfl⟩ | ⟨rfl, rfl⟩
    · rfl
    · funext c
      exact pairClause_swap _ _ c
  have hxne : x ≠ y := by
    rcases hxy with ⟨rfl, rfl⟩ | ⟨rfl, rfl⟩
    · exact hab
    · exact Ne.symm hab
  have hy : (findUserByPk s y).isSome := by
    rcases hxy with ⟨_, rfl⟩ | ⟨_, rfl⟩
    · exact hb
    · exact ha
  cases hfind : s.conversations.find? (pairClause a b) with
  | some c =>
    rw [createConversation_of_existing now₁ s a b hb hab c hfind]
    rw [createConversation_of_existing now₂ s x y hy hxne c (by rw [hfun]; exact hfind)]
    refine ⟨_, _, c.id, rfl, rfl, rfl, rfl, rfl, ?_⟩
    apply Nat.le_antisymm (filter_pairClause_length_le _ hcons.onePerPair a b)
    exact List.length_pos_of_mem
      (List.mem_filter.mpr ⟨List.mem_of_find?_eq_some hfind, List.find?_some hfind⟩)
  | none =>
    rw [createConversation_of_none now₁ s a b ha hb hab hcons.conversationIds hfind]
    have hold : s.conversations.filter (pairClause a b) = [] := by
      rw [List.filter_eq_nil_iff]
      intro c hc
      exact List.find?_eq_none.mp hfind c hc
    have hnew : pairClause a b
        { id := s.nextConversationId, userAId := a, userBId := b, createdAt := now₁,
          updatedAt := now₁ } = true := by
      simp [pairClause]
    have hfind2 : (s.conversations ++
        [({ id := s.nextConversationId, userAId := a, userBId := b, createdAt := now₁,
            updatedAt := now₁ } : Conversation)]).find? (pairClause x y) =
        some { id := s.nextConversationId, userAId := a, userBId := b, createdAt := now₁,
               updatedAt := now₁ } := by
      rw [hfun, List.find?_append, hfind]
      simp [List.find?_cons, hnew]
    dsimp only
    rw [createConversation_of_existing now₂
      { s with
        conversations := s.conversations ++
          [{ id := s.nextConversationId, userAId := a, userBId := b, createdAt := now₁,
             updatedAt := now₁ }],
        nextConversationId := s.nextConversationId + 1 } x y hy hxne _ hfind2]
    refine ⟨_, _, s.nextConversationId, rfl, rfl, rfl, rfl, rfl, ?_⟩
    simp [List.filter_append, hold, List.filter_cons, hnew]

/-- C3 at the example store: users 1 and 3 have no conversation yet; the call
for (1, 3) creates it and the call for (3, 1) finds it. -/
theorem createConversation_twice_witness :
    Reachable chatStore ∧
    ∃ first second id,
      (createConversation 4000 chatStore 1 3).2 = .ok first ∧
      (createConversation 5000 (createConversation 4000 chatStore 1 3).1 3 1).2 = .ok second ∧
      first.conversation.map (fun r => r.conversation.id) = some id ∧
      second.conversation.map (fun r => r.conversation.id) = some id ∧
      second.isNew = false ∧
      ((createConversation 5000 (createConversation 4000 chatStore 1 3).1 3 1).1.conversations.filter
        (pairClause 1 3)).length = 1 :=
  ⟨reachable_run Store.empty _ Reachable.init,
    createConversation_twice chatStore (reachable_run Store.empty _ Reachable.init) 1 3 4000 5000
      (by decide) (by decide) (by decide) 3 1 (Or.inr ⟨rfl, rfl⟩)⟩

/-! ## Unread counts -/

theorem promiseAll_ok {α β : Type} (f : α → Except String β) (P : β → Prop) (l : List α)
    (h : ∀ x ∈ l, ∃ y, f x = .ok y ∧ P y) :
    ∃ ys, promiseAll f l = .ok ys ∧ ∀ y ∈ ys, P y := by
  induction l with
  | nil => exact ⟨[], rfl, fun y hy => absurd hy (List.not_mem_nil y)⟩
  | cons x xs ih =>
    obtain ⟨y, hy, hP⟩ := h x (List.mem_cons_self _ _)
    obtain ⟨ys, hys, hall⟩ := ih (fun z hz => h z (List.mem_cons_of_mem _ hz))
    refine ⟨y :: ys, ?_, ?_⟩
    · simp [promiseAll, hy, hys]
    · intro z hz
      rcases List.mem_cons.mp hz with hz | hz
      · rw [hz]
        exact hP
      · exact hall z hz

theorem includeUser_of_exists (s : Store) (id : Nat) (h : (findUserByPk s id).isSome) :
    ∃ u, includeUser s id = some u ∧ u.id = id := by
  obtain ⟨u, hu⟩ := Option.isSome_iff_exists.mp h
  refine ⟨{ id := u.id, email := u.email, name := u.name }, ?_, ?_⟩
  · simp [includeUser, hu]
  · have := List.find?_some hu
    simpa using this

theorem conversation_eq_of_id_eq (s : Store) (h : Consistent s) (c d : Conversation)
    (hc : c ∈ s.conversations) (hd : d ∈ s.conversations) (hid : c.id = d.id) : c = d :=
  List.inj_on_of_nodup_map h.conversationKey hc hd hid

theorem unreadClause_eq_of_participant (s : Store) (h : Consistent s) (c : Conversation)
    (hc : c ∈ s.conversations) (userId other : Nat)
    (hside : (c.userAId = userId ∧ c.userBId = other) ∨ (c.userBId = userId ∧ c.userAId = other))
    (m : Message) (hm : m ∈ s.messages) :
    unreadClause c.id userId m =
      (m.conversationId == c.id && m.senderId == other && m.isSeen == false) := by
  have hne := h.distinctUsers c hc
  by_cases hconv : m.conversationId = c.id
  · obtain ⟨d, hd, hid, hu⟩ := h.senderParticipates m hm
    have hdc : d = c := conversation_eq_of_id_eq s h d c hd hc (hid.trans hconv)
    subst hdc
    have hiff : (m.senderId ≠ userId) ↔ (m.senderId = other) := by
      rcases hside with ⟨h1, h2⟩ | ⟨h1, h2⟩ <;> rcases hu with hu | hu <;>
        constructor <;> intro hx <;> omega
    have hb : (m.senderId != userId) = (m.senderId == other) := by
      rw [Bool.eq_iff_iff]
      simpa using hiff
    simp only [unreadClause, hb]
  · have hb : (m.conversationId == c.id) = false := by simpa using hconv
    simp only [unreadClause, hb, Bool.false_and]

theorem enhanceConversation_ok (s : Store) (h : Consistent s) (userId : Nat) (c : Conversation)
    (hc : c ∈ s.conversations) (hpart : c.userAId = userId ∨ c.userBId = userId) :
    ∃ e, enhanceConversation s userId c = .ok e ∧
      e.otherUser.id ≠ userId ∧
      (∃ d ∈ s.conversations, d.id = e.id ∧
        ((d.userAId = userId ∧ d.userBId = e.otherUser.id) ∨
          (d.userBId = userId ∧ d.userAId = e.otherUser.id))) ∧
      e.unreadCount = (s.messages.filter (fun m =>
        m.conversationId == e.id && m.senderId == e.otherUser.id && m.isSeen == false)).length := by
  have hne := h.distinctUsers c hc
  obtain ⟨hA, hB⟩ := h.usersExist c hc
  obtain ⟨other, hother, hside⟩ :
      ∃ other, (if c.userAId = userId then includeUser s c.userBId
        else includeUser s c.userAId) = some other ∧
        ((c.userAId = userId ∧ c.userBId = other.id) ∨
          (c.userBId = userId ∧ c.userAId = other.id)) := by
    by_cases hcase : c.userAId = userId
    · obtain ⟨u, hu, hid⟩ := includeUser_of_exists s c.userBId hB
      exact ⟨u, by simp [hcase, hu], Or.inl ⟨hcase, hid.symm⟩⟩
    · obtain ⟨u, hu, hid⟩ := includeUser_of_exists s c.userAId hA
      exact ⟨u, by simp [hcase, hu], Or.inr ⟨hpart.resolve_left hcase, hid.symm⟩⟩
  have heq : enhanceConversation s userId c =
      .ok { id := c.id, otherUser := other,
            lastMessage :=
              (((s.messages.filter (fun m => m.conversationId == c.id)).insertionSort
                (fun a b => b.createdAt ≤ a.createdAt)).head?).map (fun m =>
                  { id := m.id, content := m.content, senderId := m.senderId,
                    isSeen := m.isSeen, createdAt := m.createdAt }),
            unreadCount := (s.messages.filter (unreadClause c.id userId)).length,
            updatedAt := c.updatedAt, createdAt := c.createdAt } := by
    simp only [enhanceConversation, hother]
  refine ⟨_, heq, ?_, ⟨c, hc, rfl, hside⟩, ?_⟩
  · show other.id ≠ userId
    rcases hside with ⟨h1, h2⟩ | ⟨h1, h2⟩ <;> omega
  · show (s.messages.filter (unreadClause c.id userId)).length = _
    congr 1
    apply List.filter_congr
    intro m hm
    exact unreadClause_eq_of_participant s h c hc userId other.id hside m hm

/-- C6: in every store reached through the operations, `getConversations(U)`
returns, and for every returned conversation `unreadCount` is the number of
messages of that conversation that were sent by the other participant (who is
not `U`) and have `isSeen = false`. -/
theorem getConversations_unreadCount (s : Store) (hs : Reachable s) (userId : Nat) :
    ∃ entries, getConversations s userId = .ok entries ∧
      ∀ e ∈ entries,
        e.otherUser.id ≠ userId ∧
        (∃ c ∈ s.conversations, c.id = e.id ∧
          ((c.userAId = userId ∧ c.userBId = e.otherUser.id) ∨
            (c.userBId = userId ∧ c.userAId = e.otherUser.id))) ∧
        e.unreadCount = (s.messages.filter (fun m =>
          m.conversationId == e.id && m.senderId == e.otherUser.id &&
            m.isSeen == false)).length := by
  have h := consistent_of_reachable s hs
  unfold getConversations
  apply promiseAll_ok
  intro c hc
  have hmem : c ∈ s.conversations.filter (fun c => c.userAId == userId || c.userBId == userId) :=
    (List.perm_insertionSort _ _).mem_iff.mp hc
  obtain ⟨hc1, hc2⟩ := List.mem_filter.mp hmem
  exact enhanceConversation_ok s h userId c hc1 (by simpa using hc2)

/-- C6 at the example store: message 1 of user 1 is unread for user 2 and does
not count for user 1. -/
theorem getConversations_unreadCount_witness :
    Reachable chatStore ∧
    (getConversations chatStore 2).toOption.map
        (fun es => es.map (fun e => (e.id, e.otherUser.id, e.unreadCount))) =
      some [(1, 1, 1)] ∧
    (getConversations chatStore 1).toOption.map
        (fun es => es.map (fun e => (e.id, e.otherUser.id, e.unreadCount))) =
      some [(1, 2, 0)] ∧
    ∃ entries, getConversations chatStore 2 = .ok entries ∧
      ∀ e ∈ entries,
        e.otherUser.id ≠ 2 ∧
        (∃ c ∈ chatStore.conversations, c.id = e.id ∧
          ((c.userAId = 2 ∧ c.userBId = e.otherUser.id) ∨
            (c.userBId = 2 ∧ c.userAId = e.otherUser.id))) ∧
        e.unreadCount = (chatStore.messages.filter (fun m =>
          m.conversationId == e.id && m.senderId == e.otherUser.id &&
            m.isSeen == false)).length :=
  ⟨reachable_run Store.empty _ Reachable.init, by decide, by decide,
    getConversations_unreadCount chatStore (reachable_run Store.empty _ Reachable.init) 2⟩

/-! ## isSeen only rises -/

theorem generateTokens_messages (now : Nat) (s : Store) (user : User) :
    (generateTokens now s user).1.messages = s.messages := by
  obtain ⟨rows, next, heq⟩ := generateTokens_store now s user
  rw [heq]

theorem register_messages (now : Nat) (s : Store) (email password name role : String) :
    (register now s email password name role).1.messages = s.messages := by
  unfold register
  split
  · rfl
  · simp only
    split
    · rename_i heq
      have h1 := congrArg (fun p => p.1.messages) heq
      simp only [generateTokens_messages] at h1
      exact h1.symm
    · rename_i heq
      have h1 := congrArg (fun p => p.1.messages) heq
      simp only [generateTokens_messages] at h1
      exact h1.symm

theorem login_messages (now : Nat) (s : Store) (email password : String) :
    (login now s email password).1.messages = s.messages := by
  unfold login
  split
  · rfl
  · rename_i user _
    split
    · rfl
    · have h1 := generateTokens_messages now (cleanupExpiredTokens now s user.id) user
      simp only
      split
      · rename_i heq
        rw [heq] at h1
        exact h1
      · rename_i heq
        rw [heq] at h1
        exact h1

theorem refreshToken_messages (now : Nat) (s : Store) (presented : TokenValue) :
    (refreshToken now s presented).1.messages = s.messages := by
  unfold refreshToken
  split
  · rfl
  · split
    · rfl
    · split
      · rfl
      · exact generateTokens_messages now _ _

theorem createConversation_messages (now : Nat) (s : Store) (userAId userBId : Nat) :
    (createConversation now s userAId userBId).1.messages = s.messages := by
  unfold createConversation
  split
  · rfl
  · split
    · rfl
    · split
      · rfl
      · split
        · rfl
        · rename_i s1 conversation hcreate
          unfold conversationCreate at hcreate
          split at hcreate
          · cases hcreate
          · split at hcreate
            · cases hcreate
            · cases hcreate
              rfl

theorem createMessage_messages (now : Nat) (s : Store) (conversationId senderId : Nat)
    (content : String) :
    (createMessage now s conversationId senderId content).1.messages = s.messages ∨
      ∃ x, x.id = s.nextMessageId ∧
        (createMessage now s conversationId senderId content).1.messages = s.messages ++ [x] := by
  unfold createMessage
  split
  · exact Or.inl rfl
  · exact Or.inr ⟨_, rfl, rfl⟩

theorem step_messages (now : Nat) (s : Store) (op : Op) :
    (step now s op).messages = s.messages ∨
    (∃ x, x.id = s.nextMessageId ∧ (step now s op).messages = s.messages ++ [x]) ∨
    (∃ reader data message, op = .messageSeen reader data ∧ message ∈ s.messages ∧
      message.senderId ≠ reader ∧ message.isSeen = false ∧
      (step now s op).messages = s.messages.map (fun m =>
        if m.id == message.id then { m with isSeen := true, updatedAt := now } else m)) := by
  cases op with
  | register email password name role => exact Or.inl (register_messages now s _ _ _ _)
  | login email password => exact Or.inl (login_messages now s _ _)
  | refreshToken presented => exact Or.inl (refreshToken_messages now s _)
  | logout presented => exact Or.inl rfl
  | createConversation userAId userBId => exact Or.inl (createConversation_messages now s _ _)
  | createMessage conversationId senderId content =>
    rcases createMessage_messages now s conversationId senderId content with h | h
    · exact Or.inl h
    · exact Or.inr (Or.inl h)
  | joinConversation _ _ => exact Or.inl rfl
  | leaveConversation _ _ => exact Or.inl rfl
  | messageNew userId data =>
    rcases onMessageNew_store now s userId data with heq | ⟨conversationId, content, heq⟩
    · exact Or.inl (congrArg Store.messages heq)
    · simp only [step, heq]
      rcases createMessage_messages now s conversationId userId content with h | h
      · exact Or.inl h
      · exact Or.inr (Or.inl h)
  | messageSeen userId data =>
    rcases onMessageSeen_store now s userId data with heq | ⟨message, hm, hother, hseen, heq⟩
    · exact Or.inl (congrArg Store.messages heq)
    · exact Or.inr (Or.inr ⟨userId, data, message, rfl, hm, hother, hseen,
        congrArg Store.messages heq⟩)
  | typingStart _ _ => exact Or.inl rfl
  | typingStop _ _ => exact Or.inl rfl

theorem message_eq_of_id_eq (s : Store) (h : Consistent s) (m x : Message)
    (hm : m ∈ s.messages) (hx : x ∈ s.messages) (hid : x.id = m.id) : x = m :=
  List.inj_on_of_nodup_map h.messageKey hx hm hid

/-- C9: for every operation performed on a store reached through the
operations, every message is still there afterwards with the same id and
sender; a message that was seen stays seen, and a message whose `isSeen`
differs afterwards is seen, the operation being a `message:seen` event of a
connected user who is not its sender. -/
theorem isSeen_only_rises (s : Store) (hs : Reachable s) (now : Nat) (op : Op) (m : Message)
    (hm : m ∈ s.messages) :
    (∃ x ∈ (step now s op).messages, x.id = m.id) ∧
    ∀ x ∈ (step now s op).messages, x.id = m.id →
      x.senderId = m.senderId ∧
      (m.isSeen = true → x.isSeen = true) ∧
      (x.isSeen ≠ m.isSeen →
        x.isSeen = true ∧
          ∃ reader data, op = .messageSeen reader data ∧ reader ≠ m.senderId) := by
  have h := consistent_of_reachable s hs
  rcases step_messages now s op with heq | ⟨y, hy, heq⟩ |
    ⟨reader, data, message, hop, hmsg, hother, hunseen, heq⟩
  · rw [heq]
    refine ⟨⟨m, hm, rfl⟩, ?_⟩
    intro x hx hid
    rw [message_eq_of_id_eq s h m x hm hx hid]
    exact ⟨rfl, id, fun hne => absurd rfl hne⟩
  · rw [heq]
    refine ⟨⟨m, List.mem_append_left _ hm, rfl⟩, ?_⟩
    intro x hx hid
    rcases List.mem_append.mp hx with hx | hx
    · rw [message_eq_of_id_eq s h m x hm hx hid]
      exact ⟨rfl, id, fun hne => absurd rfl hne⟩
    · exfalso
      rw [List.mem_singleton.mp hx, hy] at hid
      have := h.messageIds m hm
      omega
  · rw [heq]
    refine ⟨⟨_, List.mem_map.mpr ⟨m, hm, rfl⟩, ?_⟩, ?_⟩
    · by_cases hc : (m.id == message.id) = true
      · simp only [hc, if_true]
      · simp [hc]
    · intro x hx hid
      obtain ⟨z, hz, rfl⟩ := List.mem_map.mp hx
      by_cases hc : (z.id == message.id) = true
      · rw [if_pos hc] at hid ⊢
        have hzm : z = m := message_eq_of_id_eq s h m z hm hz hid
        have hmm : message = m :=
          message_eq_of_id_eq s h m message hm hmsg (by
            rw [← hzm]
            exact (beq_iff_eq.mp hc).symm)
        subst hzm
        refine ⟨rfl, fun _ => rfl, fun _ => ⟨rfl, reader, data, hop, ?_⟩⟩
        rw [← hmm]
        exact Ne.symm hother
      · rw [if_neg hc] at hid ⊢
        rw [message_eq_of_id_eq s h m z hm hz hid]
        exact ⟨rfl, id, fun hne => absurd rfl hne⟩

/-- C9 at the example store: after user 2 reports message 1 of user 1 as seen
it is seen, and every later operation keeps it so. -/
theorem isSeen_only_rises_witness :
    Reachable chatStore ∧
    (step 5000 chatStore
        (.messageSeen 2
          (some { messageId := some (.number 1), conversationId := some (.number 1) }))
      ).messages.map (fun x => (x.id, x.senderId, x.isSeen)) = [(1, 1, true)] ∧
    ∀ x ∈ (step 5000 chatStore
        (.messageSeen 2
          (some { messageId := some (.number 1), conversationId := some (.number 1) }))
      ).messages,
      x.id = 1 →
        x.senderId = 1 ∧
        (false = true → x.isSeen = true) ∧
        (x.isSeen ≠ false →
          x.isSeen = true ∧
            ∃ reader data,
              Op.messageSeen 2
                  (some { messageId := some (.number 1), conversationId := some (.number 1) }) =
                .messageSeen reader data ∧ reader ≠ 1) :=
  ⟨reachable_run Store.empty _ Reachable.init, by decide,
    (isSeen_only_rises chatStore (reachable_run Store.empty _ Reachable.init) 5000
      (.messageSeen 2 (some { messageId := some (.number 1), conversationId := some (.number 1) }))
      { id := 1, conversationId := 1, senderId := 1, content := "hi", isSeen := false,
        createdAt := 3000, updatedAt := 3000 } (by decide)).2⟩

/-! ## createConversation: the failure cases -/

/-- C11, as stated, fails: user 2 exists and differs from the requester 99,
yet `createConversation(99, 2)` fails, because the insert enforces the foreign
key of `userAId` and no user 99 exists. -/
theorem createConversation_unknown_requester :
    (findUserByPk chatStore 2).isSome = true ∧ (99 : Nat) ≠ 2 ∧
    (findUserByPk chatStore 99).isSome = false ∧
    createConversation 4000 chatStore 99 2 =
      (chatStore, .error "foreign key constraint violated") := by
  refine ⟨by decide, by decide, by decide, rfl⟩

/-- C11, amended: `createConversation(requesterId, otherUserId)` fails with
`User not found` if `otherUserId` resolves to no user and with `Cannot create
conversation with yourself` if it resolves and equals `requesterId`; for a
requester who is an existing user it fails in no other case. Every failure
leaves the store as it was, and a row it creates joins the requester with the
other user, the two being different. -/
theorem createConversation_failures (now : Nat) (s : Store) (a b : Nat) :
    ((findUserByPk s b).isSome = false →
      createConversation now s a b = (s, .error "User not found")) ∧
    ((findUserByPk s b).isSome = true → a = b →
      createConversation now s a b = (s, .error "Cannot create conversation with yourself")) ∧
    ((findUserByPk s a).isSome = true → (findUserByPk s b).isSome = true → a ≠ b →
      ∃ r, (createConversation now s a b).2 = .ok r) ∧
    (∀ e, (createConversation now s a b).2 = .error e → (createConversation now s a b).1 = s) ∧
    ((createConversation now s a b).1.conversations = s.conversations ∨
      ∃ c, c.userAId = a ∧ c.userBId = b ∧ c.userAId ≠ c.userBId ∧
        (createConversation now s a b).1.conversations = s.conversations ++ [c]) := by
  refine ⟨?_, ?_, ?_, ?_, ?_⟩
  · intro hb
    cases hf : findUserByPk s b with
    | none => simp [createConversation, hf]
    | some u => rw [hf] at hb; cases hb
  · intro hb hab
    obtain ⟨u, hu⟩ := Option.isSome_iff_exists.mp hb
    simp [createConversation, hu, hab]
  · intro ha hb hab
    obtain ⟨u, hu⟩ := Option.isSome_iff_exists.mp hb
    obtain ⟨v, hv⟩ := Option.isSome_iff_exists.mp ha
    cases hfind : s.conversations.find? (pairClause a b) with
    | some c => exact ⟨_, by rw [createConversation_of_existing now s a b hb hab c hfind]⟩
    | none =>
      have hany : (s.conversations.any (fun c => c.userAId == a && c.userBId == b)) = false := by
        rw [List.any_eq_false]
        intro c hc
        have := List.find?_eq_none.mp hfind c hc
        simp only [pairClause, Bool.or_eq_true, not_or] at this
        exact this.1
      cases hres : (createConversation now s a b).2 with
      | ok r => exact ⟨r, rfl⟩
      | error e =>
        exfalso
        simp [createConversation, hu, hab, hfind, conversationCreate, hv, hany] at hres
  · intro e he
    unfold createConversation at he ⊢
    cases hb : findUserByPk s b with
    | none => rfl
    | some u =>
      by_cases hab : a = b
      · simp only [hab, if_true]
      · cases hfind : s.conversations.find? (pairClause a b) with
        | some c => simp only [hab, if_false, hfind]
        | none =>
          cases hcreate : conversationCreate now s a b with
          | error e2 => simp only [hab, if_false, hfind, hcreate]
          | ok p =>
            exfalso
            simp [hb, hab, hfind, hcreate] at he
  · unfold createConversation
    split
    · exact Or.inl rfl
    · split
      · exact Or.inl rfl
      · rename_i hab
        split
        · exact Or.inl rfl
        · split
          · exact Or.inl rfl
          · rename_i s1 conversation hcreate
            unfold conversationCreate at hcreate
            split at hcreate
            · cases hcreate
            · split at hcreate
              · cases hcreate
              · cases hcreate
                exact Or.inr ⟨_, rfl, rfl, hab, rfl⟩

/-- C11 at the example store: users 1 and 3 exist and differ, the call
succeeds; user 99 does not exist, the call for (1, 99) fails with `User not
found`; the call for (1, 1) fails with the self-conversation error. -/
theorem createConversation_failures_witness :
    (∃ r, (createConversation 4000 chatStore 1 3).2 = .ok r) ∧
    createConversation 4000 chatStore 1 99 = (chatStore, .error "User not found") ∧
    createConversation 4000 chatStore 1 1 =
      (chatStore, .error "Cannot create conversation with yourself") :=
  ⟨(createConversation_failures 4000 chatStore 1 3).2.2.1 (by decide) (by decide) (by decide),
    (createConversation_failures 4000 chatStore 1 99).1 (by decide),
    (createConversation_failures 4000 chatStore 1 1).2.1 (by decide) rfl⟩

/-! ## The chat list -/

theorem promiseAll_forall₂ {α β : Type} (f : α → Except String β) :
    ∀ (l : List α) (ys : List β), promiseAll f l = .ok ys →
      List.Forall₂ (fun x y => f x = .ok y) l ys := by
  intro l
  induction l with
  | nil =>
    intro ys h
    simp only [promiseAll] at h
    cases h
    exact List.Forall₂.nil
  | cons x xs ih =>
    intro ys h
    simp only [promiseAll] at h
    cases hx : f x with
    | error e => rw [hx] at h; cases h
    | ok y =>
      rw [hx] at h
      cases hxs : promiseAll f xs with
      | error e => rw [hxs] at h; cases h
      | ok zs =>
        rw [hxs] at h
        cases h
        exact List.Forall₂.cons hx (ih zs hxs)

theorem enhanceConversation_fields (s : Store) (userId : Nat) (c : Conversation)
    (e : ConversationEntry) (h : enhanceConversation s userId c = .ok e) :
    e.id = c.id ∧ e.updatedAt = c.updatedAt ∧ e.createdAt = c.createdAt := by
  unfold enhanceConversation at h
  simp only at h
  split at h
  · cases h
  · cases h
    exact ⟨rfl, rfl, rfl⟩

theorem forall₂_map_eq {α β γ : Type} (R : α → β → Prop) (g : α → γ) (k : β → γ)
    (hR : ∀ x y, R x y → k y = g x) :
    ∀ (l : List α) (ys : List β), List.Forall₂ R l ys → ys.map k = l.map g := by
  intro l ys h
  induction h with
  | nil => rfl
  | cons hxy _ ih =>
    simp only [List.map_cons, ih, hR _ _ hxy]

theorem forall₂_exists_left {α β : Type} (R : α → β → Prop) :
    ∀ (l : List α) (ys : List β), List.Forall₂ R l ys → ∀ y ∈ ys, ∃ x ∈ l, R x y := by
  intro l ys h
  induction h with
  | nil => exact fun y hy => absurd hy (List.not_mem_nil y)
  | cons hxy _ ih =>
    intro y hy
    rcases List.mem_cons.mp hy with heq | hin
    · subst heq
      exact ⟨_, List.mem_cons_self _ _, hxy⟩
    · obtain ⟨x, hx, hR⟩ := ih y hin
      exact ⟨x, List.mem_cons_of_mem _ hx, hR⟩

/-- C12: in a store reached through the operations, `getConversations(u)`
returns; the ids of its entries are, each once, the ids of the conversations
in which `u` is `userA` or `userB`; the entries are in non-increasing
`updatedAt` order; and each entry's `otherUser` is the counterpart of `u` in
that conversation, not `u`. -/
theorem getConversations_lists_own (s : Store) (hs : Reachable s) (userId : Nat) :
    ∃ entries, getConversations s userId = .ok entries ∧
      (entries.map (fun e => e.id)).Perm
        ((s.conversations.filter (fun c => c.userAId == userId || c.userBId == userId)).map
          (fun c => c.id)) ∧
      (entries.map (fun e => e.id)).Nodup ∧
      entries.Pairwise (fun e f => f.updatedAt ≤ e.updatedAt) ∧
      ∀ e ∈ entries, e.otherUser.id ≠ userId ∧
        ∃ c ∈ s.conversations, c.id = e.id ∧ c.updatedAt = e.updatedAt ∧
          ((c.userAId = userId ∧ c.userBId = e.otherUser.id) ∨
            (c.userBId = userId ∧ c.userAId = e.otherUser.id)) := by
  have h := consistent_of_reachable s hs
  have hmem : ∀ c ∈ (s.conversations.filter
      (fun c => c.userAId == userId || c.userBId == userId)).insertionSort
      (fun a b => b.updatedAt ≤ a.updatedAt),
      c ∈ s.conversations ∧ (c.userAId = userId ∨ c.userBId = userId) := by
    intro c hc
    have hc2 := List.mem_filter.mp ((List.perm_insertionSort _ _).mem_iff.mp hc)
    exact ⟨hc2.1, by simpa using hc2.2⟩
  obtain ⟨entries, hrun, _⟩ := promiseAll_ok (enhanceConversation s userId) (fun _ => True) _
    (fun c hc => by
      obtain ⟨e, he, _⟩ := enhanceConversation_ok s h userId c (hmem c hc).1 (hmem c hc).2
      exact ⟨e, he, trivial⟩)
  have hall := promiseAll_forall₂ (enhanceConversation s userId) _ entries hrun
  have hids : entries.map (fun e => e.id) =
      ((s.conversations.filter (fun c => c.userAId == userId || c.userBId == userId)).insertionSort
        (fun a b => b.updatedAt ≤ a.updatedAt)).map (fun c => c.id) :=
    forall₂_map_eq _ _ _ (fun c e hce => (enhanceConversation_fields s userId c e hce).1) _ _ hall
  have htimes : entries.map (fun e => e.updatedAt) =
      ((s.conversations.filter (fun c => c.userAId == userId || c.userBId == userId)).insertionSort
        (fun a b => b.updatedAt ≤ a.updatedAt)).map (fun c => c.updatedAt) :=
    forall₂_map_eq _ _ _ (fun c e hce => (enhanceConversation_fields s userId c e hce).2.1) _ _
      hall
  have hperm := (List.perm_insertionSort (fun a b : Conversation => b.updatedAt ≤ a.updatedAt)
    (s.conversations.filter (fun c => c.userAId == userId || c.userBId == userId))).map
    (fun c => c.id)
  refine ⟨entries, hrun, ?_, ?_, ?_, ?_⟩
  · rw [hids]
    exact hperm
  · rw [hids]
    exact hperm.nodup_iff.mpr (h.conversationKey.sublist ((List.filter_sublist _).map _))
  · haveI : IsTotal Conversation (fun a b => b.updatedAt ≤ a.updatedAt) :=
      ⟨fun a b => Nat.le_total b.updatedAt a.updatedAt⟩
    haveI : IsTrans Conversation (fun a b => b.updatedAt ≤ a.updatedAt) :=
      ⟨fun a b c h1 h2 => Nat.le_trans h2 h1⟩
    have hsorted : (((s.conversations.filter
        (fun c => c.userAId == userId || c.userBId == userId)).insertionSort
        (fun a b => b.updatedAt ≤ a.updatedAt)).map (fun c => c.updatedAt)).Pairwise
        (fun x y => y ≤ x) := by
      rw [List.pairwise_map]
      exact List.sorted_insertionSort (fun a b : Conversation => b.updatedAt ≤ a.updatedAt) _
    rw [← htimes, List.pairwise_map] at hsorted
    exact hsorted
  · intro e he
    obtain ⟨c, hc, hce⟩ := forall₂_exists_left _ _ _ hall e he
    obtain ⟨e2, he2, hne, ⟨d, hd, hdid, hside⟩, _⟩ :=
      enhanceConversation_ok s h userId c (hmem c hc).1 (hmem c hc).2
    rw [hce] at he2
    cases he2
    have hfields := enhanceConversation_fields s userId c e hce
    have hdc : d = c :=
      conversation_eq_of_id_eq s h d c hd (hmem c hc).1 (hdid.trans hfields.1)
    subst hdc
    exact ⟨hne, d, hd, hdid, hfields.2.1.symm, hside⟩

/-- C12 at the store with two conversations of user 1: the conversation with
user 3, created at 4000, comes before the one with user 2, created at 2000
(the message sent in it at 5000 did not move its `updatedAt`); user 2 sees
conversation 1 only. -/
theorem getConversations_lists_own_witness :
    Reachable listStore ∧
    (getConversations listStore 1).toOption.map
        (fun es => es.map (fun e => (e.id, e.otherUser.id, e.updatedAt))) =
      some [(2, 3, 4000), (1, 2, 2000)] ∧
    (getConversations listStore 2).toOption.map
        (fun es => es.map (fun e => (e.id, e.otherUser.id, e.updatedAt))) =
      some [(1, 1, 2000)] ∧
    ∃ entries, getConversations listStore 1 = .ok entries ∧
      (entries.map (fun e => e.id)).Perm
        ((listStore.conversations.filter (fun c => c.userAId == 1 || c.userBId == 1)).map
          (fun c => c.id)) ∧
      (entries.map (fun e => e.id)).Nodup ∧
      entries.Pairwise (fun e f => f.updatedAt ≤ e.updatedAt) ∧
      ∀ e ∈ entries, e.otherUser.id ≠ 1 ∧
        ∃ c ∈ listStore.conversations, c.id = e.id ∧ c.updatedAt = e.updatedAt ∧
          ((c.userAId = 1 ∧ c.userBId = e.otherUser.id) ∨
            (c.userBId = 1 ∧ c.userAId = e.otherUser.id)) :=
  ⟨reachable_run Store.empty _ Reachable.init, by decide, by decide,
    getConversations_lists_own listStore (reachable_run Store.empty _ Reachable.init) 1⟩

/-! ## The body of GET /api/conversations -/

/-- C13, evaluated: for user 1 of the example store the handler answers with a
body that has the properties `success`, `message`, `data` and `count` and no
`conversations` property, and the one element of `data` carries `otherUser`
rather than `userAId`, `userBId`, `userA` and `userB`, which the tests of the
endpoint read. -/
theorem getConversations_body_has_no_conversations :
    (conversationController.getConversations chatStore 1).toOption.map (fun r =>
        ((r.body.property "conversations").isSome, r.body.keys,
          (r.body.property "data").map (fun d => d.items.map Json.keys))) =
      some (false, ["success", "message", "data", "count"],
        some [["id", "otherUser", "lastMessage", "unreadCount", "updatedAt", "createdAt"]]) := by
  decide

theorem getConversations_ok_of_consistent (s : Store) (h : Consistent s) (userId : Nat) :
    ∃ entries, getConversations s userId = .ok entries := by
  obtain ⟨entries, hrun, _⟩ := promiseAll_ok (enhanceConversation s userId) (fun _ => True)
    ((s.conversations.filter (fun c => c.userAId == userId || c.userBId == userId)).insertionSort
      (fun a b => b.updatedAt ≤ a.updatedAt))
    (fun c hc => by
      have hc2 := List.mem_filter.mp ((List.perm_insertionSort _ _).mem_iff.mp hc)
      obtain ⟨e, he, _⟩ := enhanceConversation_ok s h userId c hc2.1 (by simpa using hc2.2)
      exact ⟨e, he, trivial⟩)
  exact ⟨entries, hrun⟩

/-- The body of GET /api/conversations on every store reached through the
operations: the handler answers 200 with a body whose property `data` is the
array of the entries returned by the service and whose `count` is their
number; the body has no `conversations` property, and every element of `data`
carries `id`, `otherUser` (with `id`, `name`, `email`), `lastMessage`,
`unreadCount`, `updatedAt` and `createdAt`, and none of `userAId`, `userBId`,
`userA`, `userB`. -/
theorem getConversations_body (s : Store) (hs : Reachable s) (userId : Nat) :
    ∃ r entries, conversationController.getConversations s userId = .ok r ∧
      getConversations s userId = .ok entries ∧
      r.status = 200 ∧
      (r.body.property "conversations").isSome = false ∧
      r.body.property "data" = some (.arr (entries.map entryJson)) ∧
      r.body.property "count" = some (.num entries.length) ∧
      ∀ j ∈ entries.map entryJson,
        j.keys = ["id", "otherUser", "lastMessage", "unreadCount", "updatedAt", "createdAt"] ∧
        (j.property "otherUser").map Json.keys = some ["id", "name", "email"] ∧
        (j.property "userAId").isSome = false ∧ (j.property "userBId").isSome = false ∧
        (j.property "userA").isSome = false ∧ (j.property "userB").isSome = false := by
  obtain ⟨entries, hrun⟩ := getConversations_ok_of_consistent s (consistent_of_reachable s hs)
    userId
  refine ⟨{ status := 200,
            body := .obj [("success", .bool true),
                          ("message", .str "Chat list retrieved successfully"),
                          ("data", .arr (entries.map entryJson)),
                          ("count", .num entries.length)] },
    entries, by simp only [conversationController.getConversations, hrun], hrun, rfl,
    rfl, rfl, rfl, ?_⟩
  intro j hj
  obtain ⟨e, _, rfl⟩ := List.mem_map.mp hj
  exact ⟨rfl, rfl, rfl, rfl, rfl, rfl⟩

/-- The body of GET /api/conversations at the example store, for user 2. -/
theorem getConversations_body_witness :
    Reachable chatStore ∧
    ∃ r entries, conversationController.getConversations chatStore 2 = .ok r ∧
      getConversations chatStore 2 = .ok entries ∧
      r.status = 200 ∧
      (r.body.property "conversations").isSome = false ∧
      r.body.property "data" = some (.arr (entries.map entryJson)) ∧
      r.body.property "count" = some (.num entries.length) ∧
      ∀ j ∈ entries.map entryJson,
        j.keys = ["id", "otherUser", "lastMessage", "unreadCount", "updatedAt", "createdAt"] ∧
        (j.property "otherUser").map Json.keys = some ["id", "name", "email"] ∧
        (j.property "userAId").isSome = false ∧ (j.property "userBId").isSome = false ∧
        (j.property "userA").isSome = false ∧ (j.property "userB").isSome = false :=
  ⟨reachable_run Store.empty _ Reachable.init,
    getConversations_body chatStore (reachable_run Store.empty _ Reachable.init) 2⟩

/-! ## The limit of a page -/

/-- C14, evaluated: without a limit the page is cut at 20, but a supplied
limit is used as it is: with `limit = 1000` the page holds all 101 messages of
the conversation and reports `limit: 1000`, and with `limit = 0` the call
throws instead of answering with a limit of at least 1. -/
theorem getConversationMessages_limit_not_clamped :
    (getConversationMessages crowdedStore 1 1 none .absent).toOption.map
        (fun p => (p.messages.length, p.pagination.limit)) = some (20, 20) ∧
    (getConversationMessages crowdedStore 1 1 (some 1000) .absent).toOption.map
        (fun p => (p.messages.length, p.pagination.limit)) = some (101, 1000) ∧
    (getConversationMessages crowdedStore 1 1 (some 0) .absent).toOption.map
        (fun p => (p.messages.length, p.pagination.limit)) = none := by
  refine ⟨by decide, by decide, by decide⟩

/-! ## The content of one page -/

theorem messageClause_eq_olderThanCursor (conversationId : Nat) (cursor : Cursor) :
    messageClause conversationId cursor = olderThanCursor conversationId cursor := by
  funext m
  cases ht : cursor.truthy <;> simp [messageClause, olderThanCursor, ht]

theorem getConversationMessages_of_unusable (s : Store) (conversationId userId : Nat)
    (limit : Option Int) (cursor : Cursor) (c : Conversation)
    (hacc : verifyConversationAccess s conversationId userId = .ok c)
    (hcursor : cursor.usable = false) :
    getConversationMessages s conversationId userId limit cursor =
      .error "SequelizeDatabaseError" := by
  have hnan : (cursor.truthy && cursor.parseInt.isNone) = true := by
    simp only [Cursor.usable] at hcursor
    cases ht : cursor.truthy <;> cases hp : cursor.parseInt <;> simp [ht, hp] at hcursor ⊢
  simp only [getConversationMessages, hacc, findAllMessages, hnan, if_true, bind, Except.bind]

theorem olderThanCursor_nodup (s : Store) (conversationId : Nat) (cursor : Cursor)
    (hids : ((s.messages.filter (fun m => m.conversationId == conversationId)).map
      (fun m => m.id)).Nodup) :
    ((s.messages.filter (olderThanCursor conversationId cursor)).map (fun m => m.id)).Nodup := by
  refine hids.sublist (List.Sublist.map _ ?_)
  apply List.monotone_filter_right
  intro m hm
  simp only [olderThanCursor, Bool.and_eq_true] at hm
  exact hm.1

/-- C15, as stated, fails. For the cursor `0` given as a number no message has
an id below 0, yet the page for limit 2 is the newest page `[11, 12]`, because
`if (cursor)` takes the number 0 for a missing cursor. For the cursor `1e21`
given as a number all three messages (ids 10, 11, 12) have an id below it, so
the page for limit 2 should be `[11, 12]`, yet the page is empty, because
`parseInt` reads `1` from `"1e+21"`. -/
theorem page_of_cursor_zero :
    (pagingStore.messages.filter
        (fun m => m.conversationId == 1 && decide (m.id < 0))).map (fun m => m.id) = [] ∧
    (getConversationMessages pagingStore 1 1 (some 2) (.ofNumber "0")).toOption.map
        (fun p => p.messages.map (fun m => m.message.id)) = some [11, 12] ∧
    (pagingStore.messages.filter
        (fun m => m.conversationId == 1 && decide (m.id < 10 ^ 21))).map (fun m => m.id) =
      [10, 11, 12] ∧
    Cursor.ofNumber "1e+21" = { truthy := true, parseInt := some 1 } ∧
    (getConversationMessages pagingStore 1 1 (some 2) (.ofNumber "1e+21")).toOption.map
        (fun p => p.messages.map (fun m => m.message.id)) = some [] := by
  refine ⟨by decide, by decide, by decide, by decide, by decide⟩

/-- C15, amended: for a participant, a limit `k ≥ 1`, a conversation whose
messages have distinct ids and every cursor that JavaScript takes for false or
for which `parseInt` returns a number, the returned page consists of
`min(k, n)` of the `n` eligible messages of the conversation (all its messages
when the cursor is falsy, and otherwise those whose id is strictly less than
`parseInt(cursor)`), in strictly ascending id order; every eligible message
left out has a smaller id than every message of the page; the page holds no
message of another conversation and at most `k` messages. -/
theorem getConversationMessages_page (s : Store) (conversationId userId : Nat) (k : Int)
    (hk : 1 ≤ k) (cursor : Cursor) (hcursor : cursor.usable = true)
    (hpart : ∃ c ∈ s.conversations, c.id = conversationId ∧
      (c.userAId = userId ∨ c.userBId = userId))
    (hids : ((s.messages.filter (fun m => m.conversationId == conversationId)).map
      (fun m => m.id)).Nodup) :
    ∃ page, getConversationMessages s conversationId userId (some k) cursor = .ok page ∧
      (∀ p ∈ page.messages, p.message ∈ s.messages ∧
        olderThanCursor conversationId cursor p.message = true) ∧
      page.messages.length =
        min k.toNat (s.messages.filter (olderThanCursor conversationId cursor)).length ∧
      page.messages.Pairwise (fun a b => a.message.id < b.message.id) ∧
      (∀ m ∈ s.messages, olderThanCursor conversationId cursor m = true →
        m ∉ page.messages.map (fun p => p.message) →
        ∀ p ∈ page.messages, m.id < p.message.id) ∧
      (∀ p ∈ page.messages, p.message.conversationId = conversationId) ∧
      (page.messages.length : Int) ≤ k := by
  obtain ⟨n, rfl⟩ := Int.eq_ofNat_of_zero_le (le_trans (by decide) hk)
  have hn : 1 ≤ n := by omega
  obtain ⟨c, hacc⟩ := verifyConversationAccess_of_participant s conversationId userId hpart
  have hpw := orderByIdDesc_pairwise _ (olderThanCursor_nodup s conversationId cursor hids)
  have hperm := orderByIdDesc_perm (s.messages.filter (olderThanCursor conversationId cursor))
  refine ⟨_, getConversationMessages_eq s conversationId userId n hn c hacc cursor hcursor, ?_⟩
  rw [messageClause_eq_olderThanCursor conversationId cursor]
  generalize orderByIdDesc (s.messages.filter (olderThanCursor conversationId cursor)) = rows
    at hpw hperm
  have hmemE : ∀ m ∈ rows.take n, m ∈ s.messages ∧
      olderThanCursor conversationId cursor m = true := by
    intro m hm
    exact List.mem_filter.mp (hperm.mem_iff.mp (List.mem_of_mem_take hm))
  have hunwrap : ((rows.take n).reverse.map (withSender s)).map (fun p => p.message) =
      (rows.take n).reverse := unwrap_withSender s _
  refine ⟨?_, ?_, ?_, ?_, ?_, ?_⟩
  · intro p hp
    obtain ⟨m, hm, rfl⟩ := List.mem_map.mp hp
    exact hmemE m (List.mem_reverse.mp hm)
  · simp only [List.length_map, List.length_reverse, List.length_take, Int.toNat_ofNat,
      hperm.length_eq]
  · have h1 : ((rows.take n).reverse).Pairwise (fun a b => a.id < b.id) := by
      rw [List.pairwise_reverse]
      exact hpw.sublist (List.take_sublist _ _)
    rw [← hunwrap, List.pairwise_map] at h1
    exact h1
  · intro m hm holder hnot p hp
    rw [hunwrap] at hnot
    obtain ⟨q, hq, rfl⟩ := List.mem_map.mp hp
    have hq2 : q ∈ rows.take n := List.mem_reverse.mp hq
    have hmrows : m ∈ rows := hperm.mem_iff.mpr (List.mem_filter.mpr ⟨hm, holder⟩)
    rw [← List.take_append_drop n rows] at hmrows hpw
    rcases List.mem_append.mp hmrows with hin | hin
    · exact absurd (List.mem_reverse.mpr hin) hnot
    · exact (List.pairwise_append.mp hpw).2.2 q hq2 m hin
  · intro p hp
    obtain ⟨m, hm, rfl⟩ := List.mem_map.mp hp
    have := (hmemE m (List.mem_reverse.mp hm)).2
    simp only [olderThanCursor, Bool.and_eq_true, beq_iff_eq] at this
    exact this.1
  · simp only [List.length_map, List.length_reverse, List.length_take]
    exact_mod_cast Nat.min_le_left n rows.length

/-- C15 at ids 10, 11, 12 with limit 2 and the cursor `"12"` of a query
string: the page is `[10, 11]`. -/
theorem getConversationMessages_page_witness :
    (getConversationMessages pagingStore 1 1 (some 2) (.ofText "12")).toOption.map
        (fun p => p.messages.map (fun m => m.message.id)) = some [10, 11] ∧
    ∃ page, getConversationMessages pagingStore 1 1 (some 2) (.ofText "12") = .ok page ∧
      (∀ p ∈ page.messages, p.message ∈ pagingStore.messages ∧
        olderThanCursor 1 (.ofText "12") p.message = true) ∧
      page.messages.length =
        min (2 : Int).toNat (pagingStore.messages.filter (olderThanCursor 1 (.ofText "12"))).length ∧
      page.messages.Pairwise (fun a b => a.message.id < b.message.id) ∧
      (∀ m ∈ pagingStore.messages, olderThanCursor 1 (.ofText "12") m = true →
        m ∉ page.messages.map (fun p => p.message) →
        ∀ p ∈ page.messages, m.id < p.message.id) ∧
      (∀ p ∈ page.messages, p.message.conversationId = 1) ∧
      (page.messages.length : Int) ≤ 2 :=
  ⟨by decide,
    getConversationMessages_page pagingStore 1 1 2 (by decide) (.ofText "12") (by decide)
      ⟨{ id := 1, userAId := 1, userBId := 2, createdAt := 0, updatedAt := 0 },
        by decide, rfl, Or.inl rfl⟩
      (by decide)⟩

/-- C16, as stated, fails. For the cursor `0` given as a number no message has
an id below 0, so not more than 2 do, yet `hasMore` is true and `nextCursor`
is 11. For the cursor `1e21` given as a number three messages, more than 2,
have an id below it, yet `hasMore` is false and `nextCursor` is null. -/
theorem hasMore_of_cursor_zero :
    (pagingStore.messages.filter
        (fun m => m.conversationId == 1 && decide (m.id < 0))).length = 0 ∧
    (getConversationMessages pagingStore 1 1 (some 2) (.ofNumber "0")).toOption.map
        (fun p => (p.pagination.hasMore, p.pagination.nextCursor)) = some (true, some 11) ∧
    (pagingStore.messages.filter
        (fun m => m.conversationId == 1 && decide (m.id < 10 ^ 21))).length = 3 ∧
    (getConversationMessages pagingStore 1 1 (some 2) (.ofNumber "1e+21")).toOption.map
        (fun p => (p.pagination.hasMore, p.pagination.nextCursor)) = some (false, none) := by
  refine ⟨by decide, by decide, by decide, by decide⟩

/-- C16, amended: for a participant, a limit `k ≥ 1` and every cursor that
JavaScript takes for false or for which `parseInt` returns a number, `hasMore`
is true exactly when more than `k` messages of the conversation are eligible
(all its messages when the cursor is falsy, and otherwise those whose id is
strictly less than `parseInt(cursor)`); `nextCursor` is then the id of the
first, oldest, message of the page, and it is null when `hasMore` is false. -/
theorem getConversationMessages_hasMore (s : Store) (conversationId userId : Nat) (k : Int)
    (hk : 1 ≤ k) (cursor : Cursor) (hcursor : cursor.usable = true)
    (hpart : ∃ c ∈ s.conversations, c.id = conversationId ∧
      (c.userAId = userId ∨ c.userBId = userId)) :
    ∃ page, getConversationMessages s conversationId userId (some k) cursor = .ok page ∧
      (page.pagination.hasMore = true ↔
        k < ((s.messages.filter (olderThanCursor conversationId cursor)).length : Int)) ∧
      (page.pagination.hasMore = true →
        ∃ first rest, page.messages = first :: rest ∧
          page.pagination.nextCursor = some first.message.id) ∧
      (page.pagination.hasMore = false → page.pagination.nextCursor = none) := by
  obtain ⟨n, rfl⟩ := Int.eq_ofNat_of_zero_le (le_trans (by decide) hk)
  have hn : 1 ≤ n := by omega
  obtain ⟨c, hacc⟩ := verifyConversationAccess_of_participant s conversationId userId hpart
  have hperm := orderByIdDesc_perm (s.messages.filter (olderThanCursor conversationId cursor))
  refine ⟨_, getConversationMessages_eq s conversationId userId n hn c hacc cursor hcursor, ?_⟩
  rw [messageClause_eq_olderThanCursor conversationId cursor]
  rw [← hperm.length_eq]
  generalize orderByIdDesc (s.messages.filter (olderThanCursor conversationId cursor)) = rows
  refine ⟨?_, ?_, ?_⟩
  · simp only [decide_eq_true_eq]
    exact Iff.intro (fun h => by exact_mod_cast h) (fun h => by exact_mod_cast h)
  · intro hmore
    simp only [decide_eq_true_eq] at hmore
    have hne : rows.take n ≠ [] := by
      intro hnil
      have hl := congrArg List.length hnil
      rw [List.length_take, List.length_nil] at hl
      omega
    obtain ⟨front, x, hx⟩ : ∃ front x, rows.take n = front ++ [x] := by
      cases hh : (rows.take n).getLast? with
      | none => exact absurd (List.getLast?_eq_none_iff.mp hh) hne
      | some x =>
        obtain ⟨front, hfront⟩ := List.getLast?_eq_some_iff.mp hh
        exact ⟨front, x, hfront⟩
    refine ⟨withSender s x, front.reverse.map (withSender s), ?_, ?_⟩
    · simp only [hx, List.reverse_append, List.reverse_cons, List.reverse_nil, List.nil_append,
        List.singleton_append, List.map_cons]
    · simp only [hmore, if_true, hx, List.getLast?_concat, Option.map_some']
      rfl
  · intro hless
    simp only [decide_eq_false_iff_not] at hless
    simp only [hless, if_false]

/-- C16 at ids 10, 11, 12 with limit 2 and the cursor `"13"` of a query
string: `hasMore` is true and `nextCursor` is 11, the first id of the page
`[11, 12]`. -/
theorem getConversationMessages_hasMore_witness :
    (getConversationMessages pagingStore 1 1 (some 2) (.ofText "13")).toOption.map
        (fun p => (p.messages.map (fun m => m.message.id), p.pagination.hasMore,
          p.pagination.nextCursor)) = some ([11, 12], true, some 11) ∧
    ∃ page, getConversationMessages pagingStore 1 1 (some 2) (.ofText "13") = .ok page ∧
      (page.pagination.hasMore = true ↔
        (2 : Int) < ((pagingStore.messages.filter (olderThanCursor 1 (.ofText "13"))).length : Int)) ∧
      (page.pagination.hasMore = true →
        ∃ first rest, page.messages = first :: rest ∧
          page.pagination.nextCursor = some first.message.id) ∧
      (page.pagination.hasMore = false → page.pagination.nextCursor = none) :=
  ⟨by decide,
    getConversationMessages_hasMore pagingStore 1 1 2 (by decide) (.ofText "13") (by decide)
      ⟨{ id := 1, userAId := 1, userBId := 2, createdAt := 0, updatedAt := 0 },
        by decide, rfl, Or.inl rfl⟩⟩

/-! ## Logout and refresh -/

/-- C17: `logout(t)` always completes and the handler answers 200, whether or
not a record with the value `t` exists; afterwards the refresh-token table
holds exactly the earlier records whose token is not `t`, in their order, the
other tables are untouched, and a second `logout(t)` changes nothing more. -/
theorem logout_idempotent (s : Store) (t : TokenValue) :
    (authController.logout s t).2.status = 200 ∧
    (authController.logout s t).1 = logout s t ∧
    (∀ r, r ∈ (logout s t).refreshTokens ↔ r ∈ s.refreshTokens ∧ r.token ≠ t) ∧
    (logout s t).refreshTokens.Sublist s.refreshTokens ∧
    (logout s t).users = s.users ∧
    (logout s t).conversations = s.conversations ∧
    (logout s t).messages = s.messages ∧
    logout (logout s t) t = logout s t := by
  refine ⟨rfl, rfl, ?_, List.filter_sublist _, rfl, rfl, rfl, ?_⟩
  · intro r
    simp [logout, List.mem_filter]
  · simp [logout, List.filter_filter]

theorem find_token_after_logout (now : Nat) (s : Store) (t : TokenValue) (u : Nat) :
    (logout s t).refreshTokens.find? (fun r =>
      r.token == t && r.userId == u && decide (r.expiresAt > now)) = none := by
  rw [List.find?_eq_none]
  intro r hr
  have hne : r.token ≠ t := by
    have := List.mem_filter.mp hr
    simpa using this.2
  simp [hne]

/-- C18: after `logout(t)`, `refreshToken(t)` fails at every instant, issues
no tokens and leaves the store as logout left it; when `t` verifies (as a
token issued by login does until it expires) the error is `Invalid or expired
refresh token`. -/
theorem refreshToken_after_logout (now : Nat) (s : Store) (t : TokenValue) :
    ∃ e, refreshToken now (logout s t) t = (logout s t, .error e) ∧
      (∀ u, verifyRefreshToken now t = .ok u → e = "Invalid or expired refresh token") := by
  cases hv : verifyRefreshToken now t with
  | error e =>
    refine ⟨e, by simp only [refreshToken, hv], ?_⟩
    intro u hu
    cases hu
  | ok u =>
    refine ⟨"Invalid or expired refresh token", ?_, fun _ _ => rfl⟩
    simp only [refreshToken, hv, find_token_after_logout now s t u]

/-- C18 for a login: user 1 logs in at instant 5000, logs out with the token
received, and the redemption at instant 6000 fails. -/
theorem refreshToken_after_logout_witness :
    (login 5000 chatStore "a@example.com" "password-a").2.toOption.map
        (fun r => r.tokens.refreshToken) = some (.signed 1 5000 4) ∧
    ∃ e, refreshToken 6000
        (logout (login 5000 chatStore "a@example.com" "password-a").1 (.signed 1 5000 4))
        (.signed 1 5000 4) =
      (logout (login 5000 chatStore "a@example.com" "password-a").1 (.signed 1 5000 4),
        .error e) ∧
      (∀ u, verifyRefreshToken 6000 (.signed 1 5000 4) = .ok u →
        e = "Invalid or expired refresh token") :=
  ⟨by decide,
    refreshToken_after_logout 6000 (login 5000 chatStore "a@example.com" "password-a").1
      (.signed 1 5000 4)⟩

/-- C19: `refreshToken(t)` fails when `t` does not verify, and when it
verifies for a user but the store holds no record with that token, that user
and an `expiresAt` later than now; in both cases the store is left as it was
and no token pair is returned. -/
theorem refreshToken_rejects (now : Nat) (s : Store) (t : TokenValue) :
    (∀ e, verifyRefreshToken now t = .error e → refreshToken now s t = (s, .error e)) ∧
    (∀ u, verifyRefreshToken now t = .ok u →
      (∀ r ∈ s.refreshTokens, ¬ (r.token = t ∧ r.userId = u ∧ now < r.expiresAt)) →
      refreshToken now s t = (s, .error "Invalid or expired refresh token")) := by
  refine ⟨?_, ?_⟩
  · intro e hv
    simp only [refreshToken, hv]
  · intro u hv hnone
    have hfind : s.refreshTokens.find? (fun r =>
        r.token == t && r.userId == u && decide (r.expiresAt > now)) = none := by
      rw [List.find?_eq_none]
      intro r hr
      have := hnone r hr
      simpa [and_assoc] using this
    simp only [refreshToken, hv, hfind]

/-- C19 at the example stores: a string that is no signed token is rejected,
and so is the token of user 1 once its record is gone; the table is unchanged
both times. -/
theorem refreshToken_rejects_witness :
    refreshToken 2000 tokenStore (.raw "invalid-token") =
      (tokenStore, .error "Invalid or expired refresh token") ∧
    refreshToken 2000 (logout tokenStore (.signed 1 1000 1)) (.signed 1 1000 1) =
      (logout tokenStore (.signed 1 1000 1), .error "Invalid or expired refresh token") :=
  ⟨(refreshToken_rejects 2000 tokenStore (.raw "invalid-token")).1 _ rfl,
    (refreshToken_rejects 2000 (logout tokenStore (.signed 1 1000 1)) (.signed 1 1000 1)).2 1
      rfl (by decide)⟩

/-! ## Issuing a token pair -/

theorem generateTokens_of_fresh (now : Nat) (s : Store) (user : User)
    (huser : (findUserByPk s user.id).isSome = true)
    (hfresh : ∀ r ∈ s.refreshTokens, r.token ≠ generateRefreshToken now s.nextRefreshTokenId user.id) :
    generateTokens now s user =
      ({ s with
          refreshTokens := s.refreshTokens ++
            [{ id := s.nextRefreshTokenId, userId := user.id,
               token := generateRefreshToken now s.nextRefreshTokenId user.id,
               expiresAt := now + 7 * 24 * 60 * 60 * 1000, createdAt := now }],
          nextRefreshTokenId := s.nextRefreshTokenId + 1 },
        .ok { accessToken := generateAccessToken now user.id user.email user.role,
              refreshToken := generateRefreshToken now s.nextRefreshTokenId user.id }) := by
  obtain ⟨u, hu⟩ := Option.isSome_iff_exists.mp huser
  have hany : s.refreshTokens.any
      (fun r => r.token == generateRefreshToken now s.nextRefreshTokenId user.id) = false := by
    rw [List.any_eq_false]
    intro r hr
    simpa using hfresh r hr
  simp [generateTokens, refreshTokenCreate, hu, hany, sevenDays]

/-! ## Login failures -/

/-- C21: `login` fails with `Invalid credentials` both when no user has the
email and when the user found has another password; in both cases the store,
and with it the refresh-token table, is left as it was. -/
theorem login_invalid_credentials (now : Nat) (s : Store) (email password : String) :
    (s.users.find? (fun u => u.email == email) = none →
      login now s email password = (s, .error "Invalid credentials")) ∧
    (∀ user, s.users.find? (fun u => u.email == email) = some user →
      comparePassword user password = false →
      login now s email password = (s, .error "Invalid credentials")) := by
  refine ⟨?_, ?_⟩
  · intro hnone
    simp only [login, hnone]
  · intro user hsome hwrong
    simp [login, hsome, hwrong]

/-- C21 at the example store: an unknown email and a wrong password for a
registered email give the same outcome. -/
theorem login_invalid_credentials_witness :
    login 5000 chatStore "nobody@example.com" "password-a" =
      (chatStore, .error "Invalid credentials") ∧
    login 5000 chatStore "a@example.com" "wrong-password" =
      (chatStore, .error "Invalid credentials") :=
  ⟨(login_invalid_credentials 5000 chatStore "nobody@example.com" "password-a").1 (by decide),
    (login_invalid_credentials 5000 chatStore "a@example.com" "wrong-password").2
      { id := 1, email := "a@example.com", password := "$2a$10$password-a", name := "A",
        role := "user" } (by decide) (by decide)⟩

/-! ## Payloads of the socket events -/

/-- C29: without a payload `message:new` and `message:seen` emit one `error`
event to the sender and leave the store as it was, while `typing:start` and
`typing:stop` throw out of the handler; for a payload object without
`conversationId` all four emit one `error` event to the sender only. -/
theorem socket_payload_handling (now : Nat) (s : Store) (userId : Nat) :
    (∃ text, onMessageNew now s userId none = (s, [.toSocket "error" (.error text)])) ∧
    (∃ text, onMessageSeen now s userId none = (s, [.toSocket "error" (.error text)])) ∧
    (∃ e, onTyping "typing:start" userId none = .error e) ∧
    (∃ e, onTyping "typing:stop" userId none = .error e) ∧
    (∀ content, ∃ text,
      onMessageNew now s userId (some { conversationId := none, content := content }) =
        (s, [.toSocket "error" (.error text)])) ∧
    (∀ messageId, ∃ text,
      onMessageSeen now s userId (some { messageId := messageId, conversationId := none }) =
        (s, [.toSocket "error" (.error text)])) ∧
    (∃ text, onTyping "typing:start" userId (some { conversationId := none }) =
      .ok [.toSocket "error" (.error text)]) ∧
    (∃ text, onTyping "typing:stop" userId (some { conversationId := none }) =
      .ok [.toSocket "error" (.error text)]) := by
  refine ⟨⟨_, rfl⟩, ⟨_, rfl⟩, ⟨_, rfl⟩, ⟨_, rfl⟩, ?_, ?_, ⟨_, rfl⟩, ⟨_, rfl⟩⟩
  · intro content
    exact ⟨"conversationId and content are required", by simp [onMessageNew, falsyNat]⟩
  · intro messageId
    exact ⟨"messageId and conversationId are required", by simp [onMessageSeen, falsyId]⟩

/-! ## A limit of zero -/

/-- C28: for a participant and a cursor the query can be built from (a falsy
one, or one for which `parseInt` returns a number): with `limit = 0`, whenever
the query selects at least one message the call throws at the read of the
missing last element; for `limit = -1` it throws likewise (the empty result
still counts as "more"); for every `limit ≥ 1` the call returns a page, and
when that page says `hasMore` its `nextCursor` is the id of a message. For
every cursor whatsoever and every `limit ≥ 1` the call does not throw at that
read. -/
theorem getConversationMessages_limit_zero (s : Store) (conversationId userId : Nat)
    (cursor : Cursor)
    (hpart : ∃ c ∈ s.conversations, c.id = conversationId ∧
      (c.userAId = userId ∨ c.userBId = userId)) :
    (cursor.usable = true →
      ((∃ m ∈ s.messages, messageClause conversationId cursor m = true) →
        getConversationMessages s conversationId userId (some 0) cursor =
          .error "Cannot read properties of undefined (reading 'id')") ∧
      getConversationMessages s conversationId userId (some (-1)) cursor =
        .error "Cannot read properties of undefined (reading 'id')" ∧
      (∀ k : Int, 1 ≤ k →
        ∃ page, getConversationMessages s conversationId userId (some k) cursor = .ok page ∧
          (page.pagination.hasMore = true →
            ∃ m ∈ s.messages, page.pagination.nextCursor = some m.id))) ∧
    (∀ k : Int, 1 ≤ k →
      getConversationMessages s conversationId userId (some k) cursor ≠
        .error "Cannot read properties of undefined (reading 'id')") := by
  obtain ⟨c, hacc⟩ := verifyConversationAccess_of_participant s conversationId userId hpart
  refine ⟨fun hcursor => ⟨?_, ?_, ?_⟩, ?_⟩
  · rintro ⟨m, hm, hclause⟩
    have hmem : m ∈ orderByIdDesc (s.messages.filter (messageClause conversationId cursor)) :=
      (orderByIdDesc_perm _).mem_iff.mpr (List.mem_filter.mpr ⟨hm, hclause⟩)
    cases hrows : orderByIdDesc (s.messages.filter (messageClause conversationId cursor)) with
    | nil => rw [hrows] at hmem; exact absurd hmem (List.not_mem_nil m)
    | cons x xs =>
      simp [getConversationMessages, hacc,
        findAllMessages_of_usable s conversationId cursor hcursor, hrows, bind, Except.bind,
        pure, Except.pure, throw, throwThe, MonadExceptOf.throw]
  · simp [getConversationMessages, hacc,
      findAllMessages_of_usable s conversationId cursor hcursor, bind, Except.bind, pure,
      Except.pure, throw, throwThe, MonadExceptOf.throw]
  · intro k hk
    obtain ⟨n, rfl⟩ := Int.eq_ofNat_of_zero_le (le_trans (by decide) hk)
    have hn : 1 ≤ n := by omega
    refine ⟨_, getConversationMessages_eq s conversationId userId n hn c hacc cursor hcursor, ?_⟩
    generalize hrows :
      orderByIdDesc (s.messages.filter (messageClause conversationId cursor)) = rows
    intro hmore
    simp only [decide_eq_true_eq] at hmore
    have hne : rows.take n ≠ [] := by
      intro hnil
      have hl := congrArg List.length hnil
      rw [List.length_take, List.length_nil] at hl
      omega
    cases hlast : (rows.take n).getLast? with
    | none => exact absurd (List.getLast?_eq_none_iff.mp hlast) hne
    | some x =>
      have hx : x ∈ rows := List.mem_of_mem_take (List.mem_of_getLast?_eq_some hlast)
      rw [← hrows] at hx
      have hx2 := (List.mem_filter.mp ((orderByIdDesc_perm _).mem_iff.mp hx)).1
      exact ⟨x, hx2, by simp only [hmore, if_true, Option.map_some']⟩
  · intro k hk
    obtain ⟨n, rfl⟩ := Int.eq_ofNat_of_zero_le (le_trans (by decide) hk)
    have hn : 1 ≤ n := by omega
    cases hu : cursor.usable with
    | true =>
      rw [getConversationMessages_eq s conversationId userId n hn c hacc cursor hu]
      exact fun h => by cases h
    | false =>
      rw [getConversationMessages_of_unusable s conversationId userId _ cursor c hacc hu]
      exact fun h => absurd (Except.error.inj h) (by decide)

/-- C28 at ids 10, 11, 12: limit 0 throws, limit 1 returns the page `[12]`
with `nextCursor = 12`. -/
theorem getConversationMessages_limit_zero_witness :
    getConversationMessages pagingStore 1 1 (some 0) .absent =
      .error "Cannot read properties of undefined (reading 'id')" ∧
    (getConversationMessages pagingStore 1 1 (some 1) .absent).toOption.map
        (fun p => (p.messages.map (fun m => m.message.id), p.pagination.hasMore,
          p.pagination.nextCursor)) = some ([12], true, some 12) :=
  ⟨((getConversationMessages_limit_zero pagingStore 1 1 .absent
      ⟨{ id := 1, userAId := 1, userBId := 2, createdAt := 0, updatedAt := 0 },
        by decide, rfl, Or.inl rfl⟩).1 rfl).1
      ⟨{ id := 10, conversationId := 1, senderId := 1, content := "a", isSeen := false,
         createdAt := 1, updatedAt := 1 }, by decide, by decide⟩,
    by decide⟩

/-! ## The effect of createMessage -/

/-- C25, evaluated: `createMessage` never writes to the conversation table,
whatever the store and the arguments, because the `Conversation.update` that
carries only `updatedAt` is skipped. At the example store, where conversation
1 was created at instant 2000, `createMessage(1, 2, "hello")` at instant 4000
succeeds and appends the message, and the `updatedAt` of conversation 1 is
still 2000 afterwards, not 4000. -/
theorem createMessage_leaves_updatedAt :
    (∀ (now : Nat) (s : Store) (conversationId senderId : Nat) (content : String),
      (createMessage now s conversationId senderId content).1.conversations = s.conversations) ∧
    chatStore.conversations.map (fun c => (c.id, c.updatedAt)) = [(1, 2000)] ∧
    (createMessage 4000 chatStore 1 2 "hello").2.toOption.join.map
        (fun m => (m.message.id, m.message.conversationId, m.message.senderId,
          m.message.content, m.message.createdAt)) = some (2, 1, 2, "hello", 4000) ∧
    (createMessage 4000 chatStore 1 2 "hello").1.messages.map (fun m => m.id) = [1, 2] ∧
    (createMessage 4000 chatStore 1 2 "hello").1.conversations.map
        (fun c => (c.id, c.updatedAt)) = [(1, 2000)] := by
  refine ⟨?_, by decide, by decide, by decide, by decide⟩
  intro now s conversationId senderId content
  unfold createMessage
  cases verifyConversationAccess s conversationId senderId with
  | error e => rfl
  | ok c => rfl

/-! ## Where a message can be marked seen -/

/-- C30, evaluated: in the store with two conversations user 3 takes part in
conversation 2 only, and message 1 belongs to conversation 1. The event
`message:seen` of user 3 with `{ messageId: 1, conversationId: 1 }` is refused.
With `{ messageId: 1, conversationId: [2, 1] }` the access check finds
conversation 2, the lookup `id = 1 AND conversationId IN (2, 1)` finds message
1, and the handler marks it seen and broadcasts a receipt, although user 3 is
no participant of the conversation of that message. -/
theorem onMessageSeen_array_payload :
    listStore.conversations.map (fun c => (c.id, c.userAId, c.userBId)) =
      [(1, 1, 2), (2, 1, 3)] ∧
    listStore.messages.map (fun m => (m.id, m.conversationId, m.senderId, m.isSeen)) =
      [(1, 1, 1, false)] ∧
    verifyConversationAccess listStore 1 3 =
      .error "Conversation not found or access denied" ∧
    onMessageSeen 6000 listStore 3
        (some { messageId := some (.number 1), conversationId := some (.number 1) }) =
      (listStore, [.toSocket "error" (.error "Conversation not found or access denied")]) ∧
    (verifyConversationAccessOf listStore (.list [2, 1]) 3).toOption.map (fun c => c.id) =
      some 2 ∧
    (onMessageSeen 6000 listStore 3
        (some { messageId := some (.number 1), conversationId := some (.list [2, 1]) })
      ).1.messages.map (fun m => (m.id, m.conversationId, m.senderId, m.isSeen)) =
      [(1, 1, 1, true)] ∧
    (onMessageSeen 6000 listStore 3
        (some { messageId := some (.number 1), conversationId := some (.list [2, 1]) })).2 =
      [.toRoom (.list [2, 1]) "message:seen"
        (.messageSeen (.number 1) (.list [2, 1]) 3 6000)] := by
  refine ⟨by decide, by decide, rfl, by decide, by decide, by decide, by decide⟩

/-! ## The socket handshake -/

/-- C26: whatever `verifyAccessToken` is, the handshake admits a connection,
with `socket.userId` the id of the user found, exactly when a non-empty token
is supplied, `verifyAccessToken` accepts it and the `userId` it carries
resolves to a user; otherwise the connection is rejected with `Authentication
error` or `User not found`, and then no event handler is registered. -/
theorem authenticateSocket_admits (verifyAccessToken : String → Except String AccessToken)
    (s : Store) (h : Handshake) :
    ((∃ conn, authenticateSocket verifyAccessToken s h = .ok conn) ↔
      ∃ token decoded user, h.token = some token ∧ token ≠ "" ∧
        verifyAccessToken token = .ok decoded ∧
        findUserByPk s decoded.userId = some user) ∧
    (∀ conn, authenticateSocket verifyAccessToken s h = .ok conn →
      ∃ token decoded, h.token = some token ∧ verifyAccessToken token = .ok decoded ∧
        conn.userId = decoded.userId ∧ conn.rooms = [] ∧
        registeredEvents (authenticateSocket verifyAccessToken s h) = connectionEvents) ∧
    (∀ e, authenticateSocket verifyAccessToken s h = .error e →
      (e = "Authentication error" ∨ e = "User not found") ∧
        registeredEvents (authenticateSocket verifyAccessToken s h) = []) := by
  unfold authenticateSocket
  cases htok : h.token with
  | none =>
    refine ⟨⟨?_, ?_⟩, ?_, ?_⟩
    · rintro ⟨conn, hc⟩
      cases hc
    · rintro ⟨token, _, _, ht, _⟩
      cases ht
    · intro conn hc
      cases hc
    · intro e he
      cases he
      exact ⟨Or.inl rfl, rfl⟩
  | some token =>
    by_cases hempty : token = ""
    · subst hempty
      refine ⟨⟨?_, ?_⟩, ?_, ?_⟩
      · rintro ⟨conn, hc⟩
        simp at hc
      · rintro ⟨token, _, _, ht, hne, _⟩
        cases ht
        exact absurd rfl hne
      · intro conn hc
        simp at hc
      · intro e he
        simp at he
        subst he
        exact ⟨Or.inl rfl, rfl⟩
    · have hb : (token == "") = false := by simpa using hempty
      simp only [hb, Bool.false_eq_true, if_false]
      cases hv : verifyAccessToken token with
      | error e1 =>
        refine ⟨⟨?_, ?_⟩, ?_, ?_⟩
        · rintro ⟨conn, hc⟩
          cases hc
        · rintro ⟨token2, decoded, _, ht, _, hv2, _⟩
          cases ht
          rw [hv] at hv2
          cases hv2
        · intro conn hc
          cases hc
        · intro e he
          cases he
          exact ⟨Or.inl rfl, rfl⟩
      | ok decoded =>
        dsimp only
        cases hu : findUserByPk s decoded.userId with
        | none =>
          refine ⟨⟨?_, ?_⟩, ?_, ?_⟩
          · rintro ⟨conn, hc⟩
            cases hc
          · rintro ⟨token2, decoded2, user, ht, _, hv2, hu2⟩
            cases ht
            rw [hv] at hv2
            cases hv2
            rw [hu] at hu2
            cases hu2
          · intro conn hc
            cases hc
          · intro e he
            cases he
            exact ⟨Or.inr rfl, rfl⟩
        | some user =>
          have hid : user.id = decoded.userId := by
            have := List.find?_some hu
            simpa using this
          refine ⟨⟨fun _ => ⟨token, decoded, user, rfl, hempty, hv, hu⟩, fun _ => ⟨_, rfl⟩⟩,
            ?_, ?_⟩
          · intro conn hc
            cases hc
            exact ⟨token, decoded, rfl, hv, hid, rfl, rfl⟩
          · intro e he
            cases he

/-- C26 at the example store, with a verifier that accepts only the text
`good` and reads user 2 from it: the header `Bearer good` is admitted as user
2, a missing token and a refused token are rejected. -/
theorem authenticateSocket_admits_witness :
    (∃ conn, authenticateSocket
        (fun t => if t = "good" then
          .ok { userId := 2, email := "b@example.com", role := "user", issuedAt := 0 }
          else .error "jwt malformed")
        chatStore { authToken := none, authorization := some "Bearer good" } = .ok conn) ∧
    registeredEvents (authenticateSocket
        (fun t => if t = "good" then
          .ok { userId := 2, email := "b@example.com", role := "user", issuedAt := 0 }
          else .error "jwt malformed")
        chatStore { authToken := none, authorization := none }) = [] :=
  ⟨(authenticateSocket_admits
      (fun t => if t = "good" then
        .ok { userId := 2, email := "b@example.com", role := "user", issuedAt := 0 }
        else .error "jwt malformed")
      chatStore { authToken := none, authorization := some "Bearer good" }).1.mpr
      ⟨"good", { userId := 2, email := "b@example.com", role := "user", issuedAt := 0 },
        { id := 2, email := "b@example.com", password := "$2a$10$password-b", name := "B",
          role := "user" }, by decide, by decide, rfl, by decide⟩,
    ((authenticateSocket_admits
      (fun t => if t = "good" then
        .ok { userId := 2, email := "b@example.com", role := "user", issuedAt := 0 }
        else .error "jwt malformed")
      chatStore { authToken := none, authorization := none }).2.2
      "Authentication error" rfl).2⟩

/-! ## Typing indicators -/

/-- C22, evaluated: user 3 is no participant of conversation 1, and socket 2,
the socket of user 3, has joined no room: its `join:conversation` for
conversation 1 is refused, and so is its `message:new`. Its `typing:start` for
conversation 1 is nevertheless not dropped: the typing handlers check neither
the access to the conversation nor the membership of the room, and the event
reaches socket 1, which is in that room. -/
theorem typing_from_outside_the_room :
    (twoClients.filter (fun c => c.socketId == 2)).map
        (fun c => (c.connection.userId, c.connection.rooms)) = [(3, [])] ∧
    verifyConversationAccess chatStore 1 3 =
      .error "Conversation not found or access denied" ∧
    onJoinConversation chatStore { userId := 3, rooms := [] } 1 =
      ({ userId := 3, rooms := [] },
        [.toSocket "error" (.error "Conversation not found or access denied")]) ∧
    onMessageNew 4000 chatStore 3 (some { conversationId := some 1, content := some "hello" }) =
      (chatStore, [.toSocket "error" (.error "Conversation not found or access denied")]) ∧
    onTyping "typing:start" 3 (some { conversationId := some 1 }) =
      .ok [.toRoomExceptSender (.number 1) "typing:start" (.typing 3 1)] ∧
    recipients twoClients 2 (.toRoomExceptSender (.number 1) "typing:start" (.typing 3 1)) =
      [1] := by
  refine ⟨by decide, rfl, by decide, by decide, rfl, by decide⟩

/-! ## The two ways to send a message -/

theorem longContent_length : longContent.length = 5001 :=
  List.length_replicate 5001 'a'

theorem validateCreateMessage_long :
    validateCreateMessage { conversationId := some 1, content := some longContent } = none := by
  have h : ¬ (0 < 1 ∧ 1 ≤ longContent.length ∧ longContent.length ≤ 5000) := by
    rw [longContent_length]
    omega
  unfold validateCreateMessage
  simp only [h, if_false]

/-- C23, evaluated: the same text of 5001 characters, sent by user 1 for
conversation 1, is refused with status 400 by `POST /api/messages` and leaves
the store as it was, but is persisted in full by the `message:new` socket
event, whose handler tests only that the content is not empty. -/
theorem onMessageNew_persists_long_content :
    longContent.length = 5001 ∧
    (postMessage 4000 chatStore 1 { conversationId := some 1, content := some longContent }).1 =
      chatStore ∧
    (postMessage 4000 chatStore 1
        { conversationId := some 1, content := some longContent }).2.1.toOption.map
      (fun r => r.status) = some 400 ∧
    (onMessageNew 4000 chatStore 1
        (some { conversationId := some 1, content := some longContent })).1.messages.map
      (fun m => (m.id, m.senderId, m.content)) = [(1, 1, "hi"), (2, 1, longContent)] := by
  refine ⟨longContent_length, ?_, ?_, ?_⟩
  · simp only [postMessage, validateCreateMessage_long]
  · simp only [postMessage, validateCreateMessage_long]
    rfl
  · rfl

/-- C24, evaluated: a valid `POST /api/messages` of user 1 for conversation 1
answers 201 and persists the message but emits no socket event, so no socket
in the room receives it; the `message:new` socket event with the same payload
emits `message:new` to the room of conversation 1. -/
theorem postMessage_emits_nothing :
    (postMessage 4000 chatStore 1
        { conversationId := some 1, content := some "hello" }).2.1.toOption.map
      (fun r => r.status) = some 201 ∧
    (postMessage 4000 chatStore 1
        { conversationId := some 1, content := some "hello" }).1.messages.map
      (fun m => (m.id, m.senderId, m.content)) = [(1, 1, "hi"), (2, 1, "hello")] ∧
    (postMessage 4000 chatStore 1
        { conversationId := some 1, content := some "hello" }).2.2 = [] ∧
    (onMessageNew 4000 chatStore 1
        (some { conversationId := some 1, content := some "hello" })).2.map
      (fun e => recipients twoClients 1 e) = [[1]] ∧
    (onMessageNew 4000 chatStore 1
        (some { conversationId := some 1, content := some "hello" })).2 =
      [.toRoom (.number 1) "message:new" (.messageNew
        { message := { id := 2, conversationId := 1, senderId := 1, content := "hello",
                       isSeen := false, createdAt := 4000, updatedAt := 4000 },
          sender := some { id := 1, email := "a@example.com", name := "A" } })] := by
  refine ⟨by decide, by decide, by decide, by decide, by decide⟩

/-! ## Records are as issued -/

theorem generateTokens_result (now : Nat) (s : Store) (user : User) :
    (generateTokens now s user).2 =
      if (findUserByPk s user.id).isNone then .error "foreign key constraint violated"
      else if s.refreshTokens.any
          (fun r => r.token == generateRefreshToken now s.nextRefreshTokenId user.id) then
        .error "token must be unique"
      else .ok { accessToken := generateAccessToken now user.id user.email user.role,
                 refreshToken := generateRefreshToken now s.nextRefreshTokenId user.id } := by
  unfold generateTokens refreshTokenCreate
  simp only
  by_cases h1 : (findUserByPk s user.id).isNone = true
  · simp only [h1, if_true]
  · by_cases h2 : (s.refreshTokens.any
        (fun r => r.token == generateRefreshToken now s.nextRefreshTokenId user.id)) = true
    · simp [h1, h2]
    · simp [h1, h2]

theorem generateTokens_fst (now : Nat) (s : Store) (user : User) :
    (generateTokens now s user).1 =
      if (findUserByPk s user.id).isNone then s
      else if s.refreshTokens.any
          (fun r => r.token == generateRefreshToken now s.nextRefreshTokenId user.id) then s
      else { s with
        refreshTokens := s.refreshTokens ++
          [{ id := s.nextRefreshTokenId, userId := user.id,
             token := generateRefreshToken now s.nextRefreshTokenId user.id,
             expiresAt := now + sevenDays, createdAt := now }],
        nextRefreshTokenId := s.nextRefreshTokenId + 1 } := by
  unfold generateTokens refreshTokenCreate
  simp only
  by_cases h1 : (findUserByPk s user.id).isNone = true
  · simp only [h1, if_true]
  · by_cases h2 : (s.refreshTokens.any
        (fun r => r.token == generateRefreshToken now s.nextRefreshTokenId user.id)) = true
    · simp [h1, h2]
    · simp [h1, h2]

theorem tokenStep_of_subset (s t : Store)
    (hnext : t.nextRefreshTokenId = s.nextRefreshTokenId)
    (hsub : ∀ r ∈ t.refreshTokens, r ∈ s.refreshTokens) : TokenStep s t :=
  ⟨le_of_eq hnext.symm, fun r hr => Or.inl (hsub r hr)⟩

theorem tokenStep_from (s s0 t : Store)
    (hnext : s0.nextRefreshTokenId = s.nextRefreshTokenId)
    (hsub : ∀ r ∈ s0.refreshTokens, r ∈ s.refreshTokens) (h : TokenStep s0 t) :
    TokenStep s t := by
  unfold TokenStep at h ⊢
  rw [hnext] at h
  refine ⟨h.1, fun r hr => ?_⟩
  rcases h.2 r hr with hold | hnew
  · exact Or.inl (hsub r hold)
  · exact Or.inr hnew

theorem tokenStep_generateTokens (now : Nat) (s : Store) (user : User) :
    TokenStep s (generateTokens now s user).1 := by
  rw [generateTokens_fst]
  split
  · exact tokenStep_of_subset s s rfl (fun r hr => hr)
  · split
    · exact tokenStep_of_subset s s rfl (fun r hr => hr)
    · refine ⟨Nat.le_succ _, fun r hr => ?_⟩
      rcases List.mem_append.mp hr with hold | hnew
      · exact Or.inl hold
      · rw [List.mem_singleton.mp hnew]
        exact Or.inr ⟨rfl, Nat.lt_succ_self _, now, rfl, rfl⟩

theorem register_store (now : Nat) (s : Store) (email password name role : String) :
    (register now s email password name role).1 = s ∨
    ∃ user, (register now s email password name role).1 =
      (generateTokens now
        { s with users := s.users ++ [user], nextUserId := s.nextUserId + 1 } user).1 := by
  unfold register
  split
  · exact Or.inl rfl
  · refine Or.inr ⟨User.mk s.nextUserId email (hashPassword password) name role, ?_⟩
    simp only
    split <;> rename_i heq <;> rw [heq]

theorem login_store (now : Nat) (s : Store) (email password : String) :
    (login now s email password).1 = s ∨
    ∃ user, (login now s email password).1 =
      (generateTokens now (cleanupExpiredTokens now s user.id) user).1 := by
  unfold login
  split
  · exact Or.inl rfl
  · rename_i user _
    split
    · exact Or.inl rfl
    · refine Or.inr ⟨user, ?_⟩
      simp only
      split <;> rename_i heq <;> rw [heq]

theorem refreshToken_store (now : Nat) (s : Store) (presented : TokenValue) :
    (refreshToken now s presented).1 = s ∨
    ∃ user id, (refreshToken now s presented).1 =
      (generateTokens now
        { s with refreshTokens := s.refreshTokens.filter (fun r => !(r.id == id)) } user).1 := by
  cases hv : verifyRefreshToken now presented with
  | error e => exact Or.inl (by simp only [refreshToken, hv])
  | ok decoded =>
    cases hfind : s.refreshTokens.find? (fun r =>
        r.token == presented && r.userId == decoded && decide (r.expiresAt > now)) with
    | none => exact Or.inl (by simp only [refreshToken, hv, hfind])
    | some record =>
      cases hu : findUserByPk s record.userId with
      | none => exact Or.inl (by simp only [refreshToken, hv, hfind, hu])
      | some user => exact Or.inr ⟨user, record.id, by simp only [refreshToken, hv, hfind, hu]⟩

theorem createConversation_refreshTokens (now : Nat) (s : Store) (userAId userBId : Nat) :
    (createConversation now s userAId userBId).1.refreshTokens = s.refreshTokens := by
  unfold createConversation
  split
  · rfl
  · split
    · rfl
    · split
      · rfl
      · split
        · rfl
        · rename_i s1 conversation hcreate
          unfold conversationCreate at hcreate
          split at hcreate
          · cases hcreate
          · split at hcreate
            · cases hcreate
            · cases hcreate
              rfl

theorem createMessage_refreshTokens (now : Nat) (s : Store) (conversationId senderId : Nat)
    (content : String) :
    (createMessage now s conversationId senderId content).1.refreshTokens = s.refreshTokens := by
  unfold createMessage
  split <;> rfl

theorem createConversation_nextRefreshTokenId (now : Nat) (s : Store)
    (userAId userBId : Nat) :
    (createConversation now s userAId userBId).1.nextRefreshTokenId =
      s.nextRefreshTokenId := by
  unfold createConversation
  split
  · rfl
  · split
    · rfl
    · split
      · rfl
      · split
        · rfl
        · rename_i s1 conversation hcreate
          unfold conversationCreate at hcreate
          split at hcreate
          · cases hcreate
          · split at hcreate
            · cases hcreate
            · cases hcreate
              rfl

theorem createMessage_nextRefreshTokenId (now : Nat) (s : Store)
    (conversationId senderId : Nat) (content : String) :
    (createMessage now s conversationId senderId content).1.nextRefreshTokenId =
      s.nextRefreshTokenId := by
  unfold createMessage
  split <;> rfl

theorem tokenStep_step (now : Nat) (s : Store) (op : Op) : TokenStep s (step now s op) := by
  cases op with
  | register email password name role =>
    rcases register_store now s email password name role with heq | ⟨user, heq⟩
    · simp only [step, heq]
      exact tokenStep_of_subset s s rfl (fun r hr => hr)
    · simp only [step, heq]
      exact tokenStep_from s { s with users := s.users ++ [user], nextUserId := s.nextUserId + 1 }
        _ rfl (fun r hr => hr) (tokenStep_generateTokens now _ user)
  | login email password =>
    rcases login_store now s email password with heq | ⟨user, heq⟩
    · simp only [step, heq]
      exact tokenStep_of_subset s s rfl (fun r hr => hr)
    · simp only [step, heq]
      exact tokenStep_from s (cleanupExpiredTokens now s user.id) _ rfl
        (fun r hr => (List.mem_filter.mp hr).1) (tokenStep_generateTokens now _ user)
  | refreshToken presented =>
    rcases refreshToken_store now s presented with heq | ⟨user, id, heq⟩
    · simp only [step, heq]
      exact tokenStep_of_subset s s rfl (fun r hr => hr)
    · simp only [step, heq]
      exact tokenStep_from s
        { s with refreshTokens := s.refreshTokens.filter (fun r => !(r.id == id)) } _ rfl
        (fun r hr => (List.mem_filter.mp hr).1) (tokenStep_generateTokens now _ user)
  | logout presented =>
    exact tokenStep_of_subset s _ rfl (fun r hr => (List.mem_filter.mp hr).1)
  | createConversation userAId userBId =>
    exact tokenStep_of_subset s _ (createConversation_nextRefreshTokenId now s userAId userBId)
      (fun r hr => (createConversation_refreshTokens now s userAId userBId) ▸ hr)
  | createMessage conversationId senderId content =>
    exact tokenStep_of_subset s _
      (createMessage_nextRefreshTokenId now s conversationId senderId content)
      (fun r hr => (createMessage_refreshTokens now s conversationId senderId content) ▸ hr)
  | joinConversation _ _ => exact tokenStep_of_subset s s rfl (fun r hr => hr)
  | leaveConversation _ _ => exact tokenStep_of_subset s s rfl (fun r hr => hr)
  | messageNew userId data =>
    rcases onMessageNew_store now s userId data with heq | ⟨conversationId, content, heq⟩
    · simp only [step, heq]
      exact tokenStep_of_subset s s rfl (fun r hr => hr)
    · simp only [step, heq]
      exact tokenStep_of_subset s _
        (createMessage_nextRefreshTokenId now s conversationId userId content)
        (fun r hr => by rw [createMessage_refreshTokens] at hr; exact hr)
  | messageSeen userId data =>
    rcases onMessageSeen_store now s userId data with heq | ⟨message, _, _, _, heq⟩
    · simp only [step, heq]
      exact tokenStep_of_subset s s rfl (fun r hr => hr)
    · simp only [step, heq]
      exact tokenStep_of_subset s _ rfl (fun r hr => hr)
  | typingStart _ _ => exact tokenStep_of_subset s s rfl (fun r hr => hr)
  | typingStop _ _ => exact tokenStep_of_subset s s rfl (fun r hr => hr)

theorem issued_of_tokenStep (s t : Store) (h : IssuedTokens s) (hstep : TokenStep s t) :
    IssuedTokens t := by
  intro r hr
  rcases hstep.2 r hr with hold | ⟨hid, hlt, issuedAt, htok, hexp⟩
  · obtain ⟨hlt0, rest⟩ := h r hold
    exact ⟨lt_of_lt_of_le hlt0 hstep.1, rest⟩
  · exact ⟨hid ▸ hlt, issuedAt, htok, hexp⟩

theorem issued_of_reachable (s : Store) (h : Reachable s) : IssuedTokens s := by
  induction h with
  | init => exact fun r hr => absurd hr (List.not_mem_nil r)
  | step now op _ ih => exact issued_of_tokenStep _ _ ih (tokenStep_step now _ op)

theorem fresh_of_issued (s : Store) (h : IssuedTokens s) (now userId : Nat) :
    ∀ r ∈ s.refreshTokens, r.token ≠ generateRefreshToken now s.nextRefreshTokenId userId := by
  intro r hr heq
  obtain ⟨hlt, issuedAt, htok, _⟩ := h r hr
  rw [htok] at heq
  simp only [generateRefreshToken, TokenValue.signed.injEq] at heq
  omega

/-! ## The sweep of expired records -/

theorem find_live_after_sweep (now userId decoded : Nat) (t : TokenValue)
    (l : List RefreshToken) :
    (l.filter (fun r => !(r.userId == userId && decide (r.expiresAt < now)))).find?
        (fun r => r.token == t && r.userId == decoded && decide (r.expiresAt > now)) =
      l.find? (fun r => r.token == t && r.userId == decoded && decide (r.expiresAt > now)) := by
  rw [List.find?_filter]
  congr 1
  funext r
  by_cases hlive : r.expiresAt > now
  · have hnot : ¬ r.expiresAt < now := by omega
    have hkeep : (!(r.userId == userId && decide (r.expiresAt < now))) = true := by
      simp [hnot]
    show (decide ((!(r.userId == userId && decide (r.expiresAt < now))) = true ∧
        (r.token == t && r.userId == decoded && decide (r.expiresAt > now)) = true)) =
      (r.token == t && r.userId == decoded && decide (r.expiresAt > now))
    rw [hkeep]
    cases (r.token == t && r.userId == decoded && decide (r.expiresAt > now)) <;> simp
  · simp [hlive]

theorem any_signed_after_sweep (s : Store) (h : IssuedTokens s) (now userId u : Nat)
    (q : RefreshToken → Bool) :
    ((s.refreshTokens.filter
        (fun r => !(r.userId == userId && decide (r.expiresAt < now)))).filter q).any
        (fun r => r.token == generateRefreshToken now s.nextRefreshTokenId u) =
      (s.refreshTokens.filter q).any
        (fun r => r.token == generateRefreshToken now s.nextRefreshTokenId u) := by
  rw [Bool.eq_iff_iff]
  simp only [List.any_eq_true, List.mem_filter]
  constructor
  · rintro ⟨r, ⟨⟨hr, _⟩, hq⟩, htok⟩
    exact ⟨r, ⟨hr, hq⟩, htok⟩
  · rintro ⟨r, ⟨hr, _⟩, htok⟩
    exact absurd (by simpa using htok) (fresh_of_issued s h now u r hr)

theorem refreshToken_after_sweep (s : Store) (h : IssuedTokens s) (now userId : Nat)
    (t : TokenValue) :
    (refreshToken now (cleanupExpiredTokens now s userId) t).2 = (refreshToken now s t).2 ∧
    (refreshToken now (cleanupExpiredTokens now s userId) t).1 =
      cleanupExpiredTokens now (refreshToken now s t).1 userId := by
  cases hv : verifyRefreshToken now t with
  | error e => simp only [refreshToken, hv, and_self]
  | ok decoded =>
    have hfind := find_live_after_sweep now userId decoded t s.refreshTokens
    cases hrec : s.refreshTokens.find? (fun r =>
        r.token == t && r.userId == decoded && decide (r.expiresAt > now)) with
    | none =>
      rw [hrec] at hfind
      simp only [refreshToken, hv, hrec, cleanupExpiredTokens, hfind, and_self]
    | some record =>
      rw [hrec] at hfind
      have husers : findUserByPk (cleanupExpiredTokens now s userId) record.userId =
          findUserByPk s record.userId := rfl
      cases hu : findUserByPk s record.userId with
      | none =>
        rw [hu] at husers
        simp only [refreshToken, hv, hrec, cleanupExpiredTokens, hfind, hu, and_self]
        simp only [cleanupExpiredTokens] at husers
        simp only [husers, and_self]
      | some user =>
        rw [hu] at husers
        simp only [cleanupExpiredTokens] at husers
        simp only [refreshToken, hv, hrec, cleanupExpiredTokens, hfind, hu, husers]
        have hany := any_signed_after_sweep s h now userId user.id
          (fun r => !(r.id == record.id))
        constructor
        · rw [generateTokens_result, generateTokens_result]
          simp only [hany]
          rfl
        · rw [generateTokens_fst, generateTokens_fst]
          simp only [hany]
          have hfk : (findUserByPk
              { s with refreshTokens := ((s.refreshTokens.filter
                  (fun r => !(r.userId == userId && decide (r.expiresAt < now)))).filter
                    (fun r => !(r.id == record.id))) } user.id) =
              findUserByPk { s with refreshTokens :=
                (s.refreshTokens.filter (fun r => !(r.id == record.id))) } user.id := rfl
          have hcomm : List.filter (fun r => !(r.id == record.id))
                (List.filter (fun r => !(r.userId == userId && decide (r.expiresAt < now)))
                  s.refreshTokens) =
              List.filter (fun r => !(r.userId == userId && decide (r.expiresAt < now)))
                (List.filter (fun r => !(r.id == record.id)) s.refreshTokens) := by
            rw [List.filter_filter, List.filter_filter]
            congr 1
            funext r
            exact Bool.and_comm _ _
          rw [hfk, hcomm]
          have hnew : ¬ now + sevenDays < now := by omega
          split
          · rfl
          · split
            · rfl
            · simp [List.filter_append, hnew]

/-- C27: on every database the operations can produce, the sweep for `userId`
at instant `now` keeps exactly the records that are not both of that user and
expired before `now`; a record it removes fails the lookup of `refreshToken`
at `now` whatever token is presented; and `refreshToken` of any token returns
the same result with or without the sweep before it, the databases after it
differing only by that same sweep. -/
theorem cleanupExpiredTokens_not_needed (s : Store) (hs : Reachable s) (now userId : Nat)
    (t : TokenValue) :
    (∀ r, r ∈ (cleanupExpiredTokens now s userId).refreshTokens ↔
      r ∈ s.refreshTokens ∧ ¬ (r.userId = userId ∧ r.expiresAt < now)) ∧
    (∀ r ∈ s.refreshTokens, r ∉ (cleanupExpiredTokens now s userId).refreshTokens →
      ∀ presented decoded,
        (r.token == presented && r.userId == decoded && decide (r.expiresAt > now)) = false) ∧
    (refreshToken now (cleanupExpiredTokens now s userId) t).2 = (refreshToken now s t).2 ∧
    (refreshToken now (cleanupExpiredTokens now s userId) t).1 =
      cleanupExpiredTokens now (refreshToken now s t).1 userId := by
  have hmem : ∀ r, r ∈ (cleanupExpiredTokens now s userId).refreshTokens ↔
      r ∈ s.refreshTokens ∧ ¬ (r.userId = userId ∧ r.expiresAt < now) := by
    intro r
    simp [cleanupExpiredTokens, List.mem_filter]
    exact fun _ => imp_iff_not_or.symm
  refine ⟨hmem, ?_, refreshToken_after_sweep s (issued_of_reachable s hs) now userId t⟩
  intro r hr hgone presented decoded
  have hexpired : r.userId = userId ∧ r.expiresAt < now := by
    by_contra hkeep
    exact hgone ((hmem r).mpr ⟨hr, hkeep⟩)
  have hnot : ¬ r.expiresAt > now := by omega
  simp [hnot]

/-- C27 at the example store, at an instant between the two expiries: the sweep
for user 1 removes the record issued at 1000, and the token issued at 2000 is
exchanged with the same result either way. -/
theorem cleanupExpiredTokens_not_needed_witness :
    Reachable sweepStore ∧
    (refreshToken 604801500 (cleanupExpiredTokens 604801500 sweepStore 1)
        (.signed 1 2000 2)).2 =
      (refreshToken 604801500 sweepStore (.signed 1 2000 2)).2 :=
  ⟨reachable_run Store.empty _ Reachable.init,
    (cleanupExpiredTokens_not_needed sweepStore (reachable_run Store.empty _ Reachable.init)
      604801500 1 (.signed 1 2000 2)).2.2.1⟩

/-! ## Single use of a refresh token -/

theorem spent_of_tokenStep (t : TokenValue) (s s1 : Store) (h : Spent t s)
    (hstep : TokenStep s s1) : Spent t s1 := by
  obtain ⟨⟨userId, issuedAt, serial, ht, hlt⟩, hnone⟩ := h
  refine ⟨⟨userId, issuedAt, serial, ht, lt_of_lt_of_le hlt hstep.1⟩, fun r hr heq => ?_⟩
  rcases hstep.2 r hr with hold | ⟨hid, _, issuedAt1, htok, _⟩
  · exact hnone r hold heq
  · rw [htok, ht] at heq
    simp only [TokenValue.signed.injEq] at heq
    omega

theorem spent_run (t : TokenValue) (s : Store) (ops : List (Nat × Op)) (h : Spent t s) :
    Spent t (run s ops) := by
  induction ops generalizing s with
  | nil => exact h
  | cons o rest ih => exact ih _ (spent_of_tokenStep t s _ h (tokenStep_step o.1 s o.2))

theorem refreshToken_of_spent (now : Nat) (s : Store) (t : TokenValue) (h : Spent t s) :
    refreshToken now s t = (s, .error "Invalid or expired refresh token") := by
  obtain ⟨⟨userId, issuedAt, serial, ht, _⟩, hnone⟩ := h
  subst ht
  by_cases hlive : now < issuedAt + sevenDays
  · have hv : verifyRefreshToken now (.signed userId issuedAt serial) = .ok userId := by
      simp [verifyRefreshToken, hlive]
    have hfind : s.refreshTokens.find? (fun r =>
        r.token == TokenValue.signed userId issuedAt serial && r.userId == userId &&
          decide (r.expiresAt > now)) = none := by
      rw [List.find?_eq_none]
      intro r hr
      have hne := hnone r hr
      simp [hne]
    simp only [refreshToken, hv, hfind]
  · have hv : verifyRefreshToken now (.signed userId issuedAt serial) =
        .error "Invalid or expired refresh token" := by
      simp [verifyRefreshToken, hlive]
    simp only [refreshToken, hv]

theorem spent_after_refreshToken (now : Nat) (s : Store) (h : IssuedTokens s) (t : TokenValue)
    (pair : TokenPair) (hok : (refreshToken now s t).2 = .ok pair) :
    Spent t (refreshToken now s t).1 ∧ pair.refreshToken ≠ t := by
  cases hv : verifyRefreshToken now t with
  | error e =>
    simp only [refreshToken, hv] at hok
    cases hok
  | ok decoded =>
    cases hfind : s.refreshTokens.find? (fun r =>
        r.token == t && r.userId == decoded && decide (r.expiresAt > now)) with
    | none =>
      simp only [refreshToken, hv, hfind] at hok
      cases hok
    | some record =>
      have hrec : record ∈ s.refreshTokens := List.mem_of_find?_eq_some hfind
      have htok : record.token = t := by
        have hp := List.find?_some hfind
        simp only [Bool.and_eq_true, beq_iff_eq, decide_eq_true_eq] at hp
        exact hp.1.1
      obtain ⟨hlt, issuedAt, hsigned, _⟩ := h record hrec
      cases hu : findUserByPk s record.userId with
      | none =>
        simp only [refreshToken, hv, hfind, hu] at hok
        cases hok
      | some user =>
        simp only [refreshToken, hv, hfind, hu] at hok ⊢
        have hissued : IssuedTokens
            { s with refreshTokens := s.refreshTokens.filter (fun r => !(r.id == record.id)) } :=
          issued_of_tokenStep s _ h
            (tokenStep_of_subset s _ rfl (fun r hr => (List.mem_filter.mp hr).1))
        have hstep := tokenStep_generateTokens now
          { s with refreshTokens := s.refreshTokens.filter (fun r => !(r.id == record.id)) } user
        have hgone : Spent t
            { s with refreshTokens := s.refreshTokens.filter (fun r => !(r.id == record.id)) } := by
          refine ⟨⟨record.userId, issuedAt, record.id, by rw [← htok, hsigned], hlt⟩, ?_⟩
          intro r hr heq
          obtain ⟨hr1, hr2⟩ := List.mem_filter.mp hr
          obtain ⟨_, issuedAt1, hsigned1, _⟩ := h r hr1
          rw [hsigned1, ← htok, hsigned] at heq
          simp only [TokenValue.signed.injEq] at heq
          simp [heq.2.2] at hr2
        refine ⟨spent_of_tokenStep t _ _ hgone hstep, ?_⟩
        rw [generateTokens_result] at hok
        split at hok
        · cases hok
        · split at hok
          · cases hok
          · injection hok with hpair
            rw [← hpair, ← htok, hsigned]
            simp only [generateRefreshToken, ne_eq, TokenValue.signed.injEq, not_and]
            intro _ _ hserial
            omega

/-- C2: in a store reached through the operations, when `refreshToken(t)`
succeeds the token it returns differs from `t`, and after any further
operations, at any later or equal instant, `refreshToken(t)` fails with
`Invalid or expired refresh token` and leaves the store as it found it. -/
theorem refreshToken_single_use (s : Store) (hs : Reachable s) (now : Nat) (t : TokenValue)
    (pair : TokenPair) (hok : (refreshToken now s t).2 = .ok pair)
    (ops : List (Nat × Op)) (later : Nat) :
    pair.refreshToken ≠ t ∧
    refreshToken later (run (refreshToken now s t).1 ops) t =
      (run (refreshToken now s t).1 ops, .error "Invalid or expired refresh token") := by
  obtain ⟨hspent, hne⟩ := spent_after_refreshToken now s (issued_of_reachable s hs) t pair hok
  exact ⟨hne, refreshToken_of_spent later _ t (spent_run t _ ops hspent)⟩

/-- C2 right after a registration: user 1 registers at instant 1000 and redeems
the token received at that same instant; the replacement, issued to the same
user at the same instant, is another value, and a second redemption of the old
value at that instant fails, also after a login in between. -/
theorem refreshToken_single_use_witness :
    Reachable tokenStore ∧
    (refreshToken 1000 tokenStore (.signed 1 1000 1)).2 =
      .ok { accessToken := { userId := 1, email := "a@example.com", role := "user",
                             issuedAt := 1000 },
            refreshToken := .signed 1 1000 2 } ∧
    TokenValue.signed 1 1000 2 ≠ .signed 1 1000 1 ∧
    refreshToken 1000
        (run (refreshToken 1000 tokenStore (.signed 1 1000 1)).1
          [(1000, .login "a@example.com" "password-a")])
        (.signed 1 1000 1) =
      (run (refreshToken 1000 tokenStore (.signed 1 1000 1)).1
          [(1000, .login "a@example.com" "password-a")],
        .error "Invalid or expired refresh token") :=
  ⟨reachable_run Store.empty _ Reachable.init, rfl,
    refreshToken_single_use tokenStore (reachable_run Store.empty _ Reachable.init) 1000
      (.signed 1 1000 1) _ rfl [(1000, .login "a@example.com" "password-a")] 1000⟩

/-! ## Issuing a token pair, on a reachable store -/

/-- C20: in a store reached through the operations, `generateTokens(user)` for
a stored user returns an access token carrying the user's id, email and role
together with a refresh token, and appends exactly one record to the
refresh-token table: a new record of that user that holds the returned refresh
token, a value no earlier record holds, and expires `7 * 24 * 60 * 60 * 1000`
milliseconds after the instant of the call. Nothing else changes but the
sequence of the table. -/
theorem generateTokens_issues (s : Store) (hs : Reachable s) (now : Nat) (user : User)
    (huser : (findUserByPk s user.id).isSome = true) :
    ∃ record,
      generateTokens now s user =
        ({ s with refreshTokens := s.refreshTokens ++ [record],
                  nextRefreshTokenId := s.nextRefreshTokenId + 1 },
          .ok { accessToken := { userId := user.id, email := user.email, role := user.role,
                                 issuedAt := now },
                refreshToken := record.token }) ∧
      record.userId = user.id ∧
      record.expiresAt = now + 7 * 24 * 60 * 60 * 1000 ∧
      record ∉ s.refreshTokens ∧
      ∀ r ∈ s.refreshTokens, r.token ≠ record.token := by
  have hfresh := fresh_of_issued s (issued_of_reachable s hs) now user.id
  refine ⟨{ id := s.nextRefreshTokenId, userId := user.id,
            token := generateRefreshToken now s.nextRefreshTokenId user.id,
            expiresAt := now + 7 * 24 * 60 * 60 * 1000, createdAt := now },
    generateTokens_of_fresh now s user huser hfresh, rfl, rfl, ?_, hfresh⟩
  intro hmem
  exact hfresh _ hmem rfl

/-- C20 right after a registration: a second pair generated for user 1 at the
instant of the registration. -/
theorem generateTokens_issues_witness :
    Reachable tokenStore ∧
    (generateTokens 1000 tokenStore
        { id := 1, email := "a@example.com", password := "$2a$10$password-a", name := "A",
          role := "user" }).1.refreshTokens.map
      (fun r => (r.id, r.userId, r.token, r.expiresAt)) =
      [(1, 1, .signed 1 1000 1, 604801000), (2, 1, .signed 1 1000 2, 604801000)] ∧
    ∃ record,
      generateTokens 1000 tokenStore
          { id := 1, email := "a@example.com", password := "$2a$10$password-a", name := "A",
            role := "user" } =
        ({ tokenStore with refreshTokens := tokenStore.refreshTokens ++ [record],
                           nextRefreshTokenId := tokenStore.nextRefreshTokenId + 1 },
          .ok { accessToken := { userId := 1, email := "a@example.com", role := "user",
                                 issuedAt := 1000 },
                refreshToken := record.token }) ∧
      record.userId = 1 ∧
      record.expiresAt = 1000 + 7 * 24 * 60 * 60 * 1000 ∧
      record ∉ tokenStore.refreshTokens ∧
      ∀ r ∈ tokenStore.refreshTokens, r.token ≠ record.token :=
  ⟨reachable_run Store.empty _ Reachable.init, by decide,
    generateTokens_issues tokenStore (reachable_run Store.empty _ Reachable.init) 1000
      { id := 1, email := "a@example.com", password := "$2a$10$password-a", name := "A",
        role := "user" } (by decide)⟩

end ChatService
